import Mathlib

/-!
# Misaka kernel: descriptor tables, process creation and the syscall guards

A shallow embedding of `kernel/sys/process.c`, of the handlers and the
dispatcher of `kernel/sys/syscall.c`, of the block functions of
`kernel/vfs/tmpfs.c`, of `readlink_self` of `kernel/vfs/procfs.c` and of the
header checksum of `apps/dhcp_bitbanger.c`.

Conventions of the embedding.

* Pointers are natural numbers, `0` is `NULL`.
* `size_t`, `unsigned long`, `uintptr_t` and `uint64_t` are naturals; every
  arithmetic operation of the source on them is followed by `% 2^64`.
* `long` and `int` are integers; the conversions of the source
  (`(size_t)src`, `(int)length`, `unsigned long` to `long`) are the explicit
  functions `to_size_t`, `to_int`, `to_long`.
* The three arrays of a descriptor table are total functions from indices to
  values: the contents of a slot at or above `capacity` stand for whatever the
  allocator left there, and `realloc` keeps every slot it had.
* Process records and descriptor tables are named by handles; the address of a
  process record in memory is `process_address` of its handle, and a store
  through a pointer that no guard checked (`store_byte`) reaches the `user`
  and `real_user` fields of the record it lands in.
-/

namespace Misaka

/-! ## Machine integers -/

/-- Conversion `(size_t)x` of a `long`: reduction modulo `2^64`. -/
def to_size_t (x : Int) : Nat := (x % (2 ^ 64 : Int)).toNat

/-- Conversion of an `unsigned long` to `long`: two's complement reading. -/
def to_long (n : Nat) : Int :=
  if n % 2 ^ 64 < 2 ^ 63 then ((n % 2 ^ 64 : Nat) : Int) else ((n % 2 ^ 64 : Nat) : Int) - 2 ^ 64

/-- Conversion `(int)n` of a `size_t`: the low 32 bits read in two's complement. -/
def to_int (n : Nat) : Int :=
  if n % 2 ^ 32 < 2 ^ 31 then ((n % 2 ^ 32 : Nat) : Int) else ((n % 2 ^ 32 : Nat) : Int) - 2 ^ 32

/-! ## Descriptor tables (`fd_table_t`, kernel/process.h) -/

/-- The structure `fd_table_t`: three parallel arrays, a logical length, a
physical capacity and a reference count. -/
structure fd_table_t where
  entries : Nat → Nat
  offsets : Nat → Nat
  modes : Nat → Int
  length : Nat
  capacity : Nat
  refs : Nat

/-- The gap scan of `process_append_fd`: `n` iterations of
`for (i; i < length; ++i) if (!entries[i]) return i;` starting at `i`. -/
def scan_gap (entries : Nat → Nat) : Nat → Nat → Option Nat
  | _, 0 => none
  | i, n + 1 => if entries i = 0 then some i else scan_gap entries (i + 1) n

/-- The function `process_append_fd` of process.c, on the table `*proc->fds`.
Returns the index handed out and the table afterwards. -/
def process_append_fd (t : fd_table_t) (node : Nat) : Nat × fd_table_t :=
  match scan_gap t.entries 0 t.length with
  | some i =>
      (i, { t with
              entries := Function.update t.entries i node
              modes := Function.update t.modes i 0
              offsets := Function.update t.offsets i 0 })
  | none =>
      let cap := if t.length = t.capacity then t.capacity * 2 % 2 ^ 64 else t.capacity
      let len := (t.length + 1) % 2 ^ 64
      ((len + (2 ^ 64 - 1)) % 2 ^ 64,
        { t with
            capacity := cap
            entries := Function.update t.entries t.length node
            modes := Function.update t.modes t.length 0
            offsets := Function.update t.offsets t.length 0
            length := len })

/-- The removal performed by `sys_close` on the table: `FD_ENTRY(fd) = NULL`. -/
def fd_clear (t : fd_table_t) (i : Nat) : fd_table_t :=
  { t with entries := Function.update t.entries i 0 }

/-- Sequences of `process_append_fd` calls and `sys_close`-style removals of a
present entry, starting from `t0`. -/
inductive fd_reachable (t0 : fd_table_t) : fd_table_t → Prop
  | start : fd_reachable t0 t0
  | append (t : fd_table_t) (node : Nat) :
      fd_reachable t0 t → fd_reachable t0 (process_append_fd t node).2
  | close (t : fd_table_t) (i : Nat) :
      fd_reachable t0 t → i < t.length → t.entries i ≠ 0 → fd_reachable t0 (fd_clear t i)

/-- An index is unused when it is at or past `length` or holds a null entry. -/
def fd_unused (t : fd_table_t) (i : Nat) : Prop := t.length ≤ i ∨ t.entries i = 0

instance (t : fd_table_t) (i : Nat) : Decidable (fd_unused t i) := by
  unfold fd_unused; infer_instance

/-- The index `process_append_fd` hands out: the first hole, or `length`. -/
def gap_index (t : fd_table_t) : Nat := (scan_gap t.entries 0 t.length).getD t.length

/-! ## Outcomes, the environment and the kernel state -/

/-- Result of a kernel routine: it returns a value, or the kernel spins forever
in the `while (1) {}` of `ptr_validate`. -/
inductive Outcome (α : Type) where
  | ret (a : α) : Outcome α
  | halt : Outcome α

/-- The structure `image_t`, with the fields process.c reads and writes. -/
structure image_t where
  entry : Nat
  heap : Nat
  heap_actual : Nat
  size : Nat
  stack : Nat
  user_stack : Nat
  shm_heap : Nat

/-- The part of `thread_t` that process.c and syscall.c touch. -/
structure thread_t where
  sp : Nat
  bp : Nat
  ip : Nat
  flags : Nat
  tls_base : Nat
  fp_regs : List Nat

/-- Modelled from the spec: the type `pid_t` (sys/types.h is not among the
sources). The spec describes a pid as a unique, monotonically increasing
identifier, so pids are integers here and the increment of `get_next_pid` is the
integer successor. -/
abbrev pid_t := Int

/-- The structure `process_t`. The scheduler list nodes, the tree entry, the
wait queues, the signal table and the start time are outside this embedding. -/
structure process_t where
  id : pid_t
  group : pid_t
  job : pid_t
  session : pid_t
  status : Int
  flags : Nat
  user : Nat
  real_user : Nat
  mask : Nat
  name : String
  description : Nat
  cmdline : Nat
  wd_name : String
  wd_node : Nat
  fds : Nat
  syscall_registers : Nat
  thread : thread_t
  image : image_t

/-- The record `calloc(1, sizeof(process_t))` yields: every field zero. -/
def process_t.zero : process_t :=
  { id := 0, group := 0, job := 0, session := 0, status := 0, flags := 0,
    user := 0, real_user := 0, mask := 0, name := "", description := 0,
    cmdline := 0, wd_name := "", wd_node := 0, fds := 0, syscall_registers := 0,
    thread := { sp := 0, bp := 0, ip := 0, flags := 0, tls_base := 0, fp_regs := [] },
    image := { entry := 0, heap := 0, heap_actual := 0, size := 0, stack := 0,
               user_stack := 0, shm_heap := 0 } }

/-- The collaborators of process.c and syscall.c that are not among the sources
(the VFS entry points of kernel/vfs.h, the page allocator, the string and
user-memory primitives), as state transformers on an abstract filesystem and
user-memory state `F`. They receive node pointers and user pointers; those that
consult `current_process` (path lookup, permission checks, creation) receive
its record; none of them receives a descriptor table.

* `kopen` takes a path pointer, `kopen_path` a kernel string.
* `load_ptr` reads a pointer, `load_bytes` reads bytes, `strlen` measures a
  string and `store_bytes` writes bytes, all in the caller's memory.
* `make_cmdline` is the `malloc` and `strdup` loop of `sys_sysfunc`, given the
  pointers it duplicates; `mmu_map_range` is a page-mapping loop over a range;
  `uname_fill` is the `snprintf` and `strcpy` sequence of `sys_uname`, given the
  stored host name.
* `readlink_fs` calls the `readlink` hook of the node, which copies into the
  buffer it is handed; `sys_readlink` hands it a pointer that was not
  validated, so the bytes it stores are part of its answer, each with the
  address it goes to, and `sys_readlink` puts them in memory with `store_list`.
* `process_address` is the address at which the allocator placed the process
  record of a given handle. -/
structure kernel_ops (F : Type) where
  clone_fs : F → Nat → Nat × F
  close_fs : F → Nat → F
  open_fs : F → Nat → Int → F
  read_fs : F → Nat → Nat → Nat → Nat → Int × F
  write_fs : F → Nat → Nat → Nat → Nat → Int × F
  ioctl_fs : F → Nat → Int → Nat → Int × F
  readdir_fs : F → Nat → Nat → Nat × F
  copy_dirent : F → Nat → Nat → F
  stat_fill : F → Nat → Nat → F
  stat_clear : F → Nat → F
  node_flags : F → Nat → Nat
  node_length : F → Nat → Nat
  valloc : F → Nat → Nat × F
  kopen : F → process_t → Nat → Int → Nat × F
  kopen_path : F → process_t → String → Int → Nat × F
  has_permission : F → process_t → Nat → Int → Bool
  create_file_fs : F → process_t → Nat → Int → Int × F
  truncate_fs : F → Nat → F
  mkdir_fs : F → process_t → Nat → Nat → Int × F
  symlink_fs : F → process_t → Nat → Nat → Int × F
  readlink_fs : F → process_t → Nat → Nat → Int → Int × List (Nat × Nat) × F
  chmod_fs : F → Nat → Int → Int × F
  chown_fs : F → Nat → Nat → Nat → Int × F
  unlink_fs : F → process_t → Nat → Int × F
  vfs_mount_type : F → Nat → Nat → Nat → Int × F
  node_uid : F → Nat → Nat
  canonicalize_path : F → String → Nat → String
  strlen : F → Nat → Nat
  load_bytes : F → Nat → Nat → List Nat
  store_bytes : F → Nat → List Nat → F
  load_ptr : F → Nat → Nat
  make_cmdline : F → List Nat → Nat × F
  gettimeofday : F → Nat → Nat → Int × F
  mmu_map_range : F → Nat → Nat → F
  uname_fill : F → List Nat → Nat → F
  arch_set_tls_base : F → Nat → F
  process_address : Nat → Nat

/-- The kernel state: the process records and descriptor tables by address,
`current_process`, the static counter of `get_next_pid`, the allocation marks
of the two arenas, the filesystem state, and the host name buffer of syscall.c
with its length. -/
structure kstate (F : Type) where
  procs : Nat → process_t
  tables : Nat → fd_table_t
  current_process : Nat
  _next_pid : pid_t
  procs_brk : Nat
  tables_brk : Nat
  fs : F
  hostname : List Nat
  hostname_len : Nat

/-! ## Constants -/

/-- The flag `PROC_REUSE_FDS` of process.h. -/
def PROC_REUSE_FDS : Int := 0x0001

/-- The constant `KERNEL_STACK_SIZE` as process.c defines it. -/
def KERNEL_STACK_SIZE : Nat := 0x8000

/-- Modelled from the spec: the bad-descriptor error code of errno.h, which is
not among the sources; the customary value. -/
def EBADF : Int := 9

/-- Modelled from the spec: the permission-denied (access) error code of
errno.h, which is not among the sources; the customary value. -/
def EACCES : Int := 13

/-- Modelled from the spec: the invalid-argument error code of errno.h, which
is not among the sources; the customary value. -/
def EINVAL : Int := 22

/-- Modelled from the spec: the not-found error code of errno.h, which is not
among the sources; the customary value. -/
def ENOENT : Int := 2

/-- Modelled from the spec: the illegal-seek error code of errno.h, which is
not among the sources; the customary value. -/
def ESPIPE : Int := 29

/-- Modelled from the spec: the node flag `FS_CHARDEVICE` of kernel/vfs.h,
which is not among the sources; the customary value. -/
def FS_CHARDEVICE : Nat := 0x04

/-- Modelled from the spec: the node flag `FS_PIPE` of kernel/vfs.h, which is
not among the sources; the customary value. -/
def FS_PIPE : Nat := 0x10

/-- The constant `USER_ROOT_UID` of process.h. -/
def USER_ROOT_UID : Nat := 0

/-- Modelled from the spec: the operation-not-permitted error code of errno.h,
which is not among the sources; the customary value. -/
def EPERM : Int := 1

/-- Modelled from the spec: the no-such-process error code of errno.h, which is
not among the sources; the customary value. -/
def ESRCH : Int := 3

/-- Modelled from the spec: the bad-address error code of errno.h, which is not
among the sources; the customary value. -/
def EFAULT : Int := 14

/-- Modelled from the spec: the already-exists error code of errno.h, which is
not among the sources; the customary value. -/
def EEXIST : Int := 17

/-- Modelled from the spec: the not-a-directory error code of errno.h, which is
not among the sources; the customary value. -/
def ENOTDIR : Int := 20

/-- Modelled from the spec: the is-a-directory error code of errno.h, which is
not among the sources; the customary value. -/
def EISDIR : Int := 21

/-- Modelled from the spec: the name-too-long error code of errno.h, which is
not among the sources; the customary value. -/
def ENAMETOOLONG : Int := 36

/-- Modelled from the spec: the node flag `FS_DIRECTORY` of kernel/vfs.h,
which is not among the sources; the customary value. -/
def FS_DIRECTORY : Nat := 0x02

/-- Modelled from the spec: the open flag `O_WRONLY` of fcntl.h, which is not
among the sources; the customary value. -/
def O_WRONLY : Int := 0x0001

/-- Modelled from the spec: the open flag `O_RDWR` of fcntl.h, which is not
among the sources; the customary value. -/
def O_RDWR : Int := 0x0002

/-- Modelled from the spec: the open flag `O_APPEND` of fcntl.h, which is not
among the sources; the customary value. -/
def O_APPEND : Int := 0x0008

/-- Modelled from the spec: the open flag `O_CREAT` of fcntl.h, which is not
among the sources; the customary value. -/
def O_CREAT : Int := 0x0200

/-- Modelled from the spec: the open flag `O_TRUNC` of fcntl.h, which is not
among the sources; the customary value. -/
def O_TRUNC : Int := 0x0400

/-- Modelled from the spec: the open flag `O_EXCL` of fcntl.h, which is not
among the sources; the customary value. -/
def O_EXCL : Int := 0x0800

/-- Modelled from the spec: the open flag `O_NOFOLLOW` of fcntl.h, which is not
among the sources; the customary value. -/
def O_NOFOLLOW : Int := 0x1000

/-- Modelled from the spec: the open flag `O_PATH` of fcntl.h, which is not
among the sources; the customary value. -/
def O_PATH : Int := 0x2000

/-- Modelled from the spec: the open flag `O_DIRECTORY` of fcntl.h, which is
not among the sources; the customary value. -/
def O_DIRECTORY : Int := 0x8000

/-! ## process.c -/

/-- Index of `array[x]` for a `long` index `x` that is not negative. -/
def idx (x : Int) : Nat := x.toNat

/-- The function `process_move_fd` of process.c, on the table `*proc->fds` and
the filesystem state reached through `close_fs` and `open_fs`. -/
def process_move_fd {F : Type} (ops : kernel_ops F) (t : fd_table_t) (fs : F)
    (src dest : Int) : Int × fd_table_t × F :=
  if t.length ≤ to_size_t src ∨ (dest ≠ -1 ∧ t.length ≤ to_size_t dest) then (-1, t, fs)
  else
    let r : Int × fd_table_t :=
      if dest = -1 then (to_long (process_append_fd t 0).1, (process_append_fd t 0).2)
      else (dest, t)
    let d := r.1
    let t1 := r.2
    if t1.entries (idx d) ≠ t1.entries (idx src) then
      let fs1 := ops.close_fs fs (t1.entries (idx d))
      let t2 : fd_table_t :=
        { t1 with
            entries := Function.update t1.entries (idx d) (t1.entries (idx src))
            modes := Function.update t1.modes (idx d) (t1.modes (idx src))
            offsets := Function.update t1.offsets (idx d) (t1.offsets (idx src)) }
      (d, t2, ops.open_fs fs1 (t2.entries (idx d)) 0)
    else (d, t1, fs)

/-- The reading of `move(table, src, -1)` in the specification:
`append(table, table[src].node)` followed by copying the mode and offset of
`src` into the returned slot. -/
def move_as_append_spec (t : fd_table_t) (src : Nat) : Nat × fd_table_t :=
  let r := process_append_fd t (t.entries src)
  (r.1, { r.2 with
            modes := Function.update r.2.modes r.1 (r.2.modes src)
            offsets := Function.update r.2.offsets r.1 (r.2.offsets src) })

/-- The function `get_next_pid`: returns the static counter and increments it. -/
def get_next_pid {F : Type} (s : kstate F) : pid_t × kstate F :=
  (s._next_pid, { s with _next_pid := s._next_pid + 1 })

/-- Modelled from the spec: `calloc(1, sizeof(process_t))` (the allocator is
not among the sources) hands out the next address of the process arena, an
address no existing record has, holding a zeroed record. -/
def calloc_process {F : Type} (s : kstate F) : Nat × kstate F :=
  (s.procs_brk, { s with procs := Function.update s.procs s.procs_brk process_t.zero
                         procs_brk := s.procs_brk + 1 })

/-- Modelled from the spec: `malloc(sizeof(fd_table_t))` together with the three
array allocations (the allocator is not among the sources) hands out the next
address of the table arena, an address no existing table has. The arrays start
zeroed in the model; the source leaves them uninitialised, and no statement
below depends on a slot at or above `length` of a new table. -/
def malloc_table {F : Type} (s : kstate F) : Nat × kstate F :=
  (s.tables_brk,
    { s with
        tables := Function.update s.tables s.tables_brk
          { entries := fun _ => 0, offsets := fun _ => 0, modes := fun _ => 0,
            length := 0, capacity := 0, refs := 0 }
        tables_brk := s.tables_brk + 1 })

/-- The copy loop of `spawn_process`,
`for (uint32_t i = 0; i < parent->fds->length; ++i)`, with the 32-bit counter
of the source. `none` when the fuel runs out before the loop exits. -/
def spawn_copy_fds {F : Type} (ops : kernel_ops F) (pt : fd_table_t) :
    Nat → Nat → fd_table_t → F → Option (fd_table_t × F)
  | 0, _, _, _ => none
  | fuel + 1, i, ct, fs =>
      if i < pt.length then
        let c := ops.clone_fs fs (pt.entries i)
        spawn_copy_fds ops pt fuel ((i + 1) % 2 ^ 32)
          { ct with
              entries := Function.update ct.entries i c.1
              modes := Function.update ct.modes i (pt.modes i)
              offsets := Function.update ct.offsets i (pt.offsets i) }
          c.2
      else some (ct, fs)

/-- The function `spawn_process` of process.c. Returns the address of the new
record and the state afterwards; `none` when the fuel given to the copy loop
runs out. -/
def spawn_process {F : Type} (ops : kernel_ops F) (fuel : Nat) (s : kstate F)
    (parent : Nat) (flags : Int) : Option (Nat × kstate F) :=
  let a := calloc_process s
  let proc := a.1
  let g := get_next_pid a.2
  let s1 := g.2
  let par := s1.procs parent
  let st := ops.valloc s1.fs KERNEL_STACK_SIZE
  let rec0 : process_t :=
    { process_t.zero with
        id := g.1
        group := g.1
        name := par.name
        description := 0
        cmdline := par.cmdline
        user := par.user
        real_user := par.real_user
        mask := par.mask
        job := par.job
        session := par.session
        thread := { sp := 0, bp := 0, ip := 0, flags := 0, tls_base := 0,
                    fp_regs := par.thread.fp_regs }
        image :=
          { entry := par.image.entry
            heap := par.image.heap
            heap_actual := par.image.heap_actual
            size := par.image.size
            stack := (st.1 + KERNEL_STACK_SIZE) % 2 ^ 64
            user_stack := par.image.user_stack
            shm_heap := 0 } }
  let s2 : kstate F := { s1 with fs := st.2 }
  let finish (fdsp : Nat) (s3 : kstate F) : Nat × kstate F :=
    let w := ops.clone_fs s3.fs par.wd_node
    (proc, { s3 with
               procs := Function.update s3.procs proc
                 { rec0 with fds := fdsp, wd_node := w.1, wd_name := par.wd_name }
               fs := w.2 })
  if Int.land flags PROC_REUSE_FDS ≠ 0 then
    let tp := s2.tables par.fds
    some (finish par.fds
      { s2 with
          tables := Function.update s2.tables par.fds { tp with refs := (tp.refs + 1) % 2 ^ 64 } })
  else
    let m := malloc_table s2
    let pt := m.2.tables par.fds
    let ct0 : fd_table_t :=
      { m.2.tables m.1 with refs := 1, length := pt.length, capacity := pt.capacity }
    match spawn_copy_fds ops pt fuel 0 ct0 m.2.fs with
    | none => none
    | some (ct, fs1) =>
        some (finish m.1 { m.2 with tables := Function.update m.2.tables m.1 ct, fs := fs1 })

/-! ## syscall.c: the descriptor and pointer guards and the descriptor handlers -/

/-- The address `current_process->fds`. -/
def cur_fds {F : Type} (s : kstate F) : Nat := (s.procs s.current_process).fds

/-- The table `*current_process->fds`. -/
def cur_table {F : Type} (s : kstate F) : fd_table_t := s.tables (cur_fds s)

/-- Store `t` as the table `*current_process->fds`. -/
def set_cur_table {F : Type} (s : kstate F) (t : fd_table_t) : kstate F :=
  { s with tables := Function.update s.tables (cur_fds s) t }

/-- The guard `FD_INRANGE(FD)`: `(FD) < (int)current_process->fds->length && (FD) >= 0`. -/
abbrev FD_INRANGE {F : Type} (s : kstate F) (fd : Int) : Prop :=
  fd < to_int (cur_table s).length ∧ fd ≥ 0

/-- The accessor `FD_ENTRY(FD)`. -/
def FD_ENTRY {F : Type} (s : kstate F) (fd : Int) : Nat := (cur_table s).entries (idx fd)

/-- The guard `FD_CHECK(FD)`: `FD_INRANGE(FD) && FD_ENTRY(FD)`. -/
abbrev FD_CHECK {F : Type} (s : kstate F) (fd : Int) : Prop :=
  FD_INRANGE s fd ∧ FD_ENTRY s fd ≠ 0

/-- The accessor `FD_OFFSET(FD)`. -/
def FD_OFFSET {F : Type} (s : kstate F) (fd : Int) : Nat := (cur_table s).offsets (idx fd)

/-- The accessor `FD_MODE(FD)`. -/
def FD_MODE {F : Type} (s : kstate F) (fd : Int) : Int := (cur_table s).modes (idx fd)

/-- Assignment to `FD_OFFSET(FD)`. -/
def set_FD_OFFSET {F : Type} (s : kstate F) (fd : Int) (v : Nat) : kstate F :=
  set_cur_table s
    { cur_table s with offsets := Function.update (cur_table s).offsets (idx fd) v }

/-- Assignment to `FD_ENTRY(FD)`. -/
def set_FD_ENTRY {F : Type} (s : kstate F) (fd : Int) (v : Nat) : kstate F :=
  set_cur_table s
    { cur_table s with entries := Function.update (cur_table s).entries (idx fd) v }

/-- The guard `PTR_INRANGE(PTR)`:
`(uintptr_t)(PTR) > current_process->image.entry && (uintptr_t)(PTR) < 0x8000000000000000`. -/
abbrev PTR_INRANGE {F : Type} (s : kstate F) (ptr : Nat) : Prop :=
  ptr > (s.procs s.current_process).image.entry ∧ ptr < 0x8000000000000000

/-- The function `ptr_validate`: for a non-null pointer outside the window it
prints a message and never returns; otherwise it returns. -/
def ptr_validate {F : Type} (s : kstate F) (ptr : Nat) : Outcome Unit :=
  if ptr ≠ 0 ∧ ¬ PTR_INRANGE s ptr then Outcome.halt else Outcome.ret ()

/-- The handler `sys_write`. -/
def sys_write {F : Type} (ops : kernel_ops F) (s : kstate F) (fd : Int) (ptr len : Nat) :
    Outcome (Int × kstate F) :=
  if FD_CHECK s fd then
    match ptr_validate s ptr with
    | Outcome.halt => Outcome.halt
    | Outcome.ret _ =>
        let node := FD_ENTRY s fd
        if Int.land (FD_MODE s fd) 2 = 0 then Outcome.ret (-EACCES, s)
        else
          let w := ops.write_fs s.fs node (FD_OFFSET s fd) len ptr
          let s1 : kstate F := { s with fs := w.2 }
          Outcome.ret (w.1, set_FD_OFFSET s1 fd ((FD_OFFSET s1 fd + to_size_t w.1) % 2 ^ 64))
  else Outcome.ret (-EBADF, s)

/-- The handler `sys_read`. -/
def sys_read {F : Type} (ops : kernel_ops F) (s : kstate F) (fd : Int) (ptr len : Nat) :
    Outcome (Int × kstate F) :=
  if FD_CHECK s fd then
    match ptr_validate s ptr with
    | Outcome.halt => Outcome.halt
    | Outcome.ret _ =>
        let node := FD_ENTRY s fd
        if Int.land (FD_MODE s fd) 1 = 0 then Outcome.ret (-EACCES, s)
        else
          let r := ops.read_fs s.fs node (FD_OFFSET s fd) len ptr
          let s1 : kstate F := { s with fs := r.2 }
          Outcome.ret (r.1, set_FD_OFFSET s1 fd ((FD_OFFSET s1 fd + to_size_t r.1) % 2 ^ 64))
  else Outcome.ret (-EBADF, s)

/-- The handler `sys_close`. -/
def sys_close {F : Type} (ops : kernel_ops F) (s : kstate F) (fd : Int) :
    Outcome (Int × kstate F) :=
  if FD_CHECK s fd then
    let s1 : kstate F := { s with fs := ops.close_fs s.fs (FD_ENTRY s fd) }
    Outcome.ret (0, set_FD_ENTRY s1 fd 0)
  else Outcome.ret (-EBADF, s)

/-- The handler `sys_seek`. -/
def sys_seek {F : Type} (ops : kernel_ops F) (s : kstate F) (fd offset whence : Int) :
    Outcome (Int × kstate F) :=
  if FD_CHECK s fd then
    let fl := ops.node_flags s.fs (FD_ENTRY s fd)
    if Nat.land fl FS_PIPE ≠ 0 ∨ Nat.land fl FS_CHARDEVICE ≠ 0 then Outcome.ret (-ESPIPE, s)
    else if whence = 0 then
      let s1 := set_FD_OFFSET s fd (to_size_t offset)
      Outcome.ret (to_long (FD_OFFSET s1 fd), s1)
    else if whence = 1 then
      let s1 := set_FD_OFFSET s fd ((FD_OFFSET s fd + to_size_t offset) % 2 ^ 64)
      Outcome.ret (to_long (FD_OFFSET s1 fd), s1)
    else if whence = 2 then
      let s1 := set_FD_OFFSET s fd
        ((ops.node_length s.fs (FD_ENTRY s fd) + to_size_t offset) % 2 ^ 64)
      Outcome.ret (to_long (FD_OFFSET s1 fd), s1)
    else Outcome.ret (-EINVAL, s)
  else Outcome.ret (-EBADF, s)

/-- The handler `sys_ioctl`. -/
def sys_ioctl {F : Type} (ops : kernel_ops F) (s : kstate F) (fd request : Int) (argp : Nat) :
    Outcome (Int × kstate F) :=
  if FD_CHECK s fd then
    match ptr_validate s argp with
    | Outcome.halt => Outcome.halt
    | Outcome.ret _ =>
        let r := ops.ioctl_fs s.fs (FD_ENTRY s fd) request argp
        Outcome.ret (r.1, { s with fs := r.2 })
  else Outcome.ret (-EBADF, s)

/-- The handler `sys_readdir`. -/
def sys_readdir {F : Type} (ops : kernel_ops F) (s : kstate F) (fd index : Int) (entry : Nat) :
    Outcome (Int × kstate F) :=
  if FD_CHECK s fd then
    match ptr_validate s entry with
    | Outcome.halt => Outcome.halt
    | Outcome.ret _ =>
        let k := ops.readdir_fs s.fs (FD_ENTRY s fd) (to_size_t index)
        if k.1 ≠ 0 then Outcome.ret (1, { s with fs := ops.copy_dirent k.2 entry k.1 })
        else Outcome.ret (0, { s with fs := k.2 })
  else Outcome.ret (-EBADF, s)

/-- The function `stat_node`: validates the buffer, clears it and answers
`-ENOENT` for a null node, fills it from the node otherwise. -/
def stat_node {F : Type} (ops : kernel_ops F) (s : kstate F) (fn st : Nat) :
    Outcome (Int × kstate F) :=
  match ptr_validate s st with
  | Outcome.halt => Outcome.halt
  | Outcome.ret _ =>
      if fn = 0 then Outcome.ret (-ENOENT, { s with fs := ops.stat_clear s.fs st })
      else Outcome.ret (0, { s with fs := ops.stat_fill s.fs fn st })

/-- The handler `sys_stat`. -/
def sys_stat {F : Type} (ops : kernel_ops F) (s : kstate F) (fd : Int) (st : Nat) :
    Outcome (Int × kstate F) :=
  match ptr_validate s st with
  | Outcome.halt => Outcome.halt
  | Outcome.ret _ =>
      if FD_CHECK s fd then stat_node ops s (FD_ENTRY s fd) st
      else Outcome.ret (-EBADF, s)

/-! ## The table functions of process.c on the kernel state -/

namespace Kernel

/-- The call `process_append_fd(proc, node)` on the kernel state. -/
def process_append_fd {F : Type} (s : kstate F) (proc node : Nat) : Nat × kstate F :=
  let r := Misaka.process_append_fd (s.tables (s.procs proc).fds) node
  (r.1, { s with tables := Function.update s.tables (s.procs proc).fds r.2 })

/-- The call `process_move_fd(proc, src, dest)` on the kernel state. -/
def process_move_fd {F : Type} (ops : kernel_ops F) (s : kstate F) (proc : Nat)
    (src dest : Int) : Int × kstate F :=
  let r := Misaka.process_move_fd ops (s.tables (s.procs proc).fds) s.fs src dest
  (r.1, { s with tables := Function.update s.tables (s.procs proc).fds r.2.1, fs := r.2.2 })

end Kernel

/-! ## syscall.c: the remaining handlers -/

/-- The record `*current_process`. -/
def cur_proc {F : Type} (s : kstate F) : process_t := s.procs s.current_process

/-- Store `p` as the record `*current_process`. -/
def set_cur_proc {F : Type} (s : kstate F) (p : process_t) : kstate F :=
  { s with procs := Function.update s.procs s.current_process p }

/-- Assignment to `FD_MODE(FD)`. -/
def set_FD_MODE {F : Type} (s : kstate F) (fd : Int) (v : Int) : kstate F :=
  set_cur_table s
    { cur_table s with modes := Function.update (cur_table s).modes (idx fd) v }

/-- The bytes of a kernel string with its terminator. -/
def c_string (str : String) : List Nat := str.data.map Char.toNat ++ [0]

/-- The handler `sys_exit`: prints and spins in `while (1) {}`. -/
def sys_exit {F : Type} (_s : kstate F) (_exitcode : Int) : Outcome (Int × kstate F) :=
  Outcome.halt

/-- The handler `unimplemented`: prints the name of the call and answers `-EINVAL`. -/
def unimplemented {F : Type} (s : kstate F) : Outcome (Int × kstate F) :=
  Outcome.ret (-EINVAL, s)

/-- The handler `sys_sbrk`. -/
def sys_sbrk {F : Type} (ops : kernel_ops F) (s : kstate F) (size : Int) :
    Outcome (Int × kstate F) :=
  if Int.land size 0xFFF ≠ 0 then Outcome.ret (-EINVAL, s)
  else
    let out := (cur_proc s).image.heap
    let fs1 := ops.mmu_map_range s.fs out ((out + to_size_t size) % 2 ^ 64)
    let p := cur_proc s
    Outcome.ret (to_long out,
      set_cur_proc { s with fs := fs1 }
        { p with image := { p.image with heap := (p.image.heap + to_size_t size) % 2 ^ 64 } })

/-- The cases of the `switch (fn)` of `sys_sysfunc`, by the name of the constant
of sys/sysfunc.h; `other` is the `default` case. -/
inductive sysfunc_case where
  | SYNC | LOGHERE | SETFDS | WRITESDB | KDEBUG | INSMOD | SETHEAP | MMAP
  | THREADNAME | DEBUGPRINT | SETVGACURSOR | SETGSBASE | other
  deriving DecidableEq

/-- The first loop of the `TOARU_SYS_FUNC_THREADNAME` case,
`while (*arg) { PTR_VALIDATE(*args); count++; arg++; }`, run for at most `n`
iterations: the count reached, or `halt` when `ptr_validate` halts or when the
iterations are used up. -/
def threadname_scan {F : Type} (ops : kernel_ops F) (s : kstate F) (args : Nat) :
    Nat → Nat → Nat → Outcome Nat
  | 0, _, _ => Outcome.halt
  | n + 1, arg, count =>
      if ops.load_ptr s.fs arg = 0 then Outcome.ret count
      else
        match ptr_validate s (ops.load_ptr s.fs args) with
        | Outcome.halt => Outcome.halt
        | Outcome.ret _ => threadname_scan ops s args n ((arg + 8) % 2 ^ 64) (count + 1)

/-- The case `TOARU_SYS_FUNC_THREADNAME` of `sys_sysfunc`. The scan visits the
`2^61` word addresses `args + 8 k` and nothing is written during it, so a scan
that has not met a null word after `2^61` iterations never exits. The pointers
`args[0]`, ..., `args[count-1]` are then handed to `strdup`. -/
def sys_sysfunc_threadname {F : Type} (ops : kernel_ops F) (s : kstate F) (args : Nat) :
    Outcome (Int × kstate F) :=
  match ptr_validate s args with
  | Outcome.halt => Outcome.halt
  | Outcome.ret _ =>
      match threadname_scan ops s args (2 ^ 61) args 0 with
      | Outcome.halt => Outcome.halt
      | Outcome.ret count =>
          let used := (List.range count).map (fun i => ops.load_ptr s.fs ((args + 8 * i) % 2 ^ 64))
          let c := ops.make_cmdline s.fs used
          Outcome.ret (0, set_cur_proc { s with fs := c.2 } { cur_proc s with cmdline := c.1 })

/-- The handler `sys_sysfunc`, on the case its argument `fn` selects. -/
def sys_sysfunc {F : Type} (ops : kernel_ops F) (s : kstate F) (fn : sysfunc_case)
    (args : Nat) : Outcome (Int × kstate F) :=
  match fn with
  | sysfunc_case.SETHEAP =>
      let p := cur_proc s
      Outcome.ret (0,
        set_cur_proc s { p with image := { p.image with heap := ops.load_ptr s.fs args } })
  | sysfunc_case.MMAP =>
      let a0 := ops.load_ptr s.fs args
      let a1 := ops.load_ptr s.fs ((args + 8) % 2 ^ 64)
      Outcome.ret (0, { s with fs := ops.mmu_map_range s.fs a0 ((a0 + a1) % 2 ^ 64) })
  | sysfunc_case.THREADNAME => sys_sysfunc_threadname ops s args
  | sysfunc_case.SETGSBASE =>
      match ptr_validate s args with
      | Outcome.halt => Outcome.halt
      | Outcome.ret _ =>
          let p := cur_proc s
          let tls := ops.load_ptr s.fs args
          Outcome.ret (0,
            set_cur_proc { s with fs := ops.arch_set_tls_base s.fs tls }
              { p with thread := { p.thread with tls_base := tls } })
  | _ => Outcome.ret (-EINVAL, s)

/-- The handler `sys_statf`. -/
def sys_statf {F : Type} (ops : kernel_ops F) (s : kstate F) (file st : Nat) :
    Outcome (Int × kstate F) :=
  match ptr_validate s file with
  | Outcome.halt => Outcome.halt
  | Outcome.ret _ =>
      match ptr_validate s st with
      | Outcome.halt => Outcome.halt
      | Outcome.ret _ =>
          let k := ops.kopen s.fs (cur_proc s) file 0
          match stat_node ops { s with fs := k.2 } k.1 st with
          | Outcome.halt => Outcome.halt
          | Outcome.ret r =>
              if k.1 ≠ 0 then Outcome.ret (r.1, { r.2 with fs := ops.close_fs r.2.fs k.1 })
              else Outcome.ret r

/-- The handler `sys_lstat`. -/
def sys_lstat {F : Type} (ops : kernel_ops F) (s : kstate F) (file st : Nat) :
    Outcome (Int × kstate F) :=
  match ptr_validate s file with
  | Outcome.halt => Outcome.halt
  | Outcome.ret _ =>
      match ptr_validate s st with
      | Outcome.halt => Outcome.halt
      | Outcome.ret _ =>
          let k := ops.kopen s.fs (cur_proc s) file (Int.lor O_PATH O_NOFOLLOW)
          match stat_node ops { s with fs := k.2 } k.1 st with
          | Outcome.halt => Outcome.halt
          | Outcome.ret r =>
              if k.1 ≠ 0 then Outcome.ret (r.1, { r.2 with fs := ops.close_fs r.2.fs k.1 })
              else Outcome.ret r

/-- The handler `sys_symlink`. -/
def sys_symlink {F : Type} (ops : kernel_ops F) (s : kstate F) (target name : Nat) :
    Outcome (Int × kstate F) :=
  match ptr_validate s target with
  | Outcome.halt => Outcome.halt
  | Outcome.ret _ =>
      match ptr_validate s name with
      | Outcome.halt => Outcome.halt
      | Outcome.ret _ =>
          let r := ops.symlink_fs s.fs (cur_proc s) target name
          Outcome.ret (r.1, { s with fs := r.2 })

/-- Modelled from the spec: the size of `pid_t` (sys/types.h is not among the
sources), the four bytes of the `int` that procfs.c prints a pid as. -/
def sizeof_pid_t : Nat := 4

/-- Modelled from the spec: the size of `uid_t` (sys/types.h is not among the
sources), the four bytes of the `int` that procfs.c prints a user id as. -/
def sizeof_uid_t : Nat := 4

/-- The offset of the field `user` in `process_t`: it follows the four `pid_t`
fields `id`, `group`, `job`, `session`, the `int status` and the
`unsigned int flags`. -/
def offsetof_user : Nat := 4 * sizeof_pid_t + 4 + 4

/-- The offset of the field `real_user` in `process_t`, next after `user`. -/
def offsetof_real_user : Nat := offsetof_user + sizeof_uid_t

/-- The value `v` with its byte number `i` replaced by `b` (x86_64 stores the
low byte first). -/
def set_byte (v i b : Nat) : Nat :=
  v - (v / 256 ^ i % 256) * 256 ^ i + (b % 256) * 256 ^ i

/-- The record `r`, which lies at address `base`, after the byte `b` is stored
at address `a`. Of the fields of a record this embedding follows the store into
`user` and `real_user`; a store elsewhere leaves the record as modelled here. -/
def poke_record (base : Nat) (r : process_t) (a b : Nat) : process_t :=
  if base + offsetof_user ≤ a ∧ a < base + offsetof_user + sizeof_uid_t then
    { r with user := set_byte r.user (a - (base + offsetof_user)) b }
  else if base + offsetof_real_user ≤ a ∧ a < base + offsetof_real_user + sizeof_uid_t then
    { r with real_user := set_byte r.real_user (a - (base + offsetof_real_user)) b }
  else r

/-- The store of the byte `b` at the raw address `a`, as `memcpy` or an
assignment through an unchecked pointer performs it: it goes to the memory the
environment keeps and, when `a` lies inside a process record, to that record. -/
def store_byte {F : Type} (ops : kernel_ops F) (s : kstate F) (a b : Nat) : kstate F :=
  { s with
      fs := ops.store_bytes s.fs a [b]
      procs := fun p => poke_record (ops.process_address p) (s.procs p) a b }

/-- The stores of a list of address and byte pairs, in order. -/
def store_list {F : Type} (ops : kernel_ops F) (s : kstate F) (l : List (Nat × Nat)) :
    kstate F :=
  l.foldl (fun t w => store_byte ops t w.1 w.2) s

/-- The handler `sys_readlink`. `PTR_VALIDATE` is applied to `file` only; `ptr`
goes to `readlink_fs` as it came, and what the hook copies is stored there. -/
def sys_readlink {F : Type} (ops : kernel_ops F) (s : kstate F) (file ptr : Nat) (len : Int) :
    Outcome (Int × kstate F) :=
  match ptr_validate s file with
  | Outcome.halt => Outcome.halt
  | Outcome.ret _ =>
      let k := ops.kopen s.fs (cur_proc s) file (Int.lor O_PATH O_NOFOLLOW)
      if k.1 = 0 then Outcome.ret (-ENOENT, { s with fs := k.2 })
      else
        let r := ops.readlink_fs k.2 (cur_proc s) k.1 ptr len
        let s1 := store_list ops { s with fs := r.2.2 } r.2.1
        Outcome.ret (r.1, { s1 with fs := ops.close_fs s1.fs k.1 })

/-- The statements of `sys_open` that follow the creation block, on the node
and filesystem state that block leaves: the `O_DIRECTORY` check, the
truncation, the two final checks and the new descriptor. -/
def sys_open_finish {F : Type} (ops : kernel_ops F) (s : kstate F) (flags access_bits : Int)
    (node : Nat) (fs2 : F) : Outcome (Int × kstate F) :=
  if node ≠ 0 ∧ Int.land flags O_DIRECTORY ≠ 0 ∧
      Nat.land (ops.node_flags fs2 node) FS_DIRECTORY = 0 then
    Outcome.ret (-ENOTDIR, { s with fs := fs2 })
  else if node ≠ 0 ∧ Int.land flags O_TRUNC ≠ 0 ∧ Int.land access_bits 2 = 0 then
    Outcome.ret (-EINVAL, { s with fs := ops.close_fs fs2 node })
  else
    let fs3 := if node ≠ 0 ∧ Int.land flags O_TRUNC ≠ 0 then ops.truncate_fs fs2 node else fs2
    if node = 0 then Outcome.ret (-ENOENT, { s with fs := fs3 })
    else if Int.land flags O_CREAT ≠ 0 ∧
        Nat.land (ops.node_flags fs3 node) FS_DIRECTORY ≠ 0 then
      Outcome.ret (-EISDIR, { s with fs := ops.close_fs fs3 node })
    else
      let a := Kernel.process_append_fd { s with fs := fs3 } s.current_process node
      let fd := to_long a.1
      let s4 := set_FD_MODE a.2 fd access_bits
      let off := if Int.land flags O_APPEND ≠ 0 then ops.node_length fs3 node else 0
      Outcome.ret (fd, set_FD_OFFSET s4 fd off)

/-- The access bits `sys_open` computes from the flags: the read bit 01 when
`O_WRONLY` is clear or `O_RDWR` is set, the write bit 02 when `O_RDWR` or
`O_WRONLY` is set. -/
def open_access_bits (flags : Int) : Int :=
  Int.lor (if Int.land flags O_WRONLY = 0 ∨ Int.land flags O_RDWR ≠ 0 then 1 else 0)
    (if Int.land flags O_RDWR ≠ 0 ∨ Int.land flags O_WRONLY ≠ 0 then 2 else 0)

/-- The handler `sys_open`: the checks made on the node found by the first
`kopen`, the creation block, and the statements after it (`sys_open_finish`),
which run on the node found by the second `kopen` when a file was created and
on the first node otherwise. -/
def sys_open {F : Type} (ops : kernel_ops F) (s : kstate F) (file : Nat) (flags mode : Int) :
    Outcome (Int × kstate F) :=
  match ptr_validate s file with
  | Outcome.halt => Outcome.halt
  | Outcome.ret _ =>
      let k := ops.kopen s.fs (cur_proc s) file flags
      let node := k.1
      let fs1 := k.2
      let rd : Prop := Int.land flags O_WRONLY = 0 ∨ Int.land flags O_RDWR ≠ 0
      let wr : Prop := Int.land flags O_RDWR ≠ 0 ∨ Int.land flags O_WRONLY ≠ 0
      if node ≠ 0 ∧ Int.land flags O_CREAT ≠ 0 ∧ Int.land flags O_EXCL ≠ 0 then
        Outcome.ret (-EEXIST, { s with fs := ops.close_fs fs1 node })
      else if rd ∧ node ≠ 0 ∧ ops.has_permission fs1 (cur_proc s) node 4 = false then
        Outcome.ret (-EACCES, { s with fs := ops.close_fs fs1 node })
      else if wr ∧ node ≠ 0 ∧ ops.has_permission fs1 (cur_proc s) node 2 = false then
        Outcome.ret (-EACCES, { s with fs := ops.close_fs fs1 node })
      else if wr ∧ node ≠ 0 ∧ Nat.land (ops.node_flags fs1 node) FS_DIRECTORY ≠ 0 then
        Outcome.ret (-EISDIR, { s with fs := fs1 })
      else if node = 0 ∧ Int.land flags O_CREAT ≠ 0 then
        let r := ops.create_file_fs fs1 (cur_proc s) file mode
        if r.1 = 0 then
          let k2 := ops.kopen r.2 (cur_proc s) file flags
          sys_open_finish ops s flags (open_access_bits flags) k2.1 k2.2
        else Outcome.ret (r.1, { s with fs := r.2 })
      else sys_open_finish ops s flags (open_access_bits flags) node fs1

/-- The handler `sys_mkdir`. -/
def sys_mkdir {F : Type} (ops : kernel_ops F) (s : kstate F) (path mode : Nat) :
    Outcome (Int × kstate F) :=
  let r := ops.mkdir_fs s.fs (cur_proc s) path mode
  Outcome.ret (r.1, { s with fs := r.2 })

/-- The handler `sys_access`. -/
def sys_access {F : Type} (ops : kernel_ops F) (s : kstate F) (file : Nat) (_flags : Int) :
    Outcome (Int × kstate F) :=
  match ptr_validate s file with
  | Outcome.halt => Outcome.halt
  | Outcome.ret _ =>
      let k := ops.kopen s.fs (cur_proc s) file 0
      if k.1 = 0 then Outcome.ret (-ENOENT, { s with fs := k.2 })
      else Outcome.ret (0, { s with fs := ops.close_fs k.2 k.1 })

/-- The handler `sys_chmod`. -/
def sys_chmod {F : Type} (ops : kernel_ops F) (s : kstate F) (file : Nat) (mode : Int) :
    Outcome (Int × kstate F) :=
  match ptr_validate s file with
  | Outcome.halt => Outcome.halt
  | Outcome.ret _ =>
      let k := ops.kopen s.fs (cur_proc s) file 0
      if k.1 ≠ 0 then
        if (cur_proc s).user ≠ 0 ∧ (cur_proc s).user ≠ ops.node_uid k.2 k.1 then
          Outcome.ret (-EACCES, { s with fs := ops.close_fs k.2 k.1 })
        else
          let r := ops.chmod_fs k.2 k.1 mode
          Outcome.ret (r.1, { s with fs := ops.close_fs r.2 k.1 })
      else Outcome.ret (-ENOENT, { s with fs := k.2 })

/-- The handler `sys_chown`. -/
def sys_chown {F : Type} (ops : kernel_ops F) (s : kstate F) (file uid gid : Nat) :
    Outcome (Int × kstate F) :=
  match ptr_validate s file with
  | Outcome.halt => Outcome.halt
  | Outcome.ret _ =>
      let k := ops.kopen s.fs (cur_proc s) file 0
      if k.1 ≠ 0 then
        if (cur_proc s).user ≠ 0 then
          Outcome.ret (-EACCES, { s with fs := ops.close_fs k.2 k.1 })
        else
          let r := ops.chown_fs k.2 k.1 uid gid
          Outcome.ret (r.1, { s with fs := ops.close_fs r.2 k.1 })
      else Outcome.ret (-ENOENT, { s with fs := k.2 })

/-- The handler `sys_gettimeofday`. -/
def sys_gettimeofday {F : Type} (ops : kernel_ops F) (s : kstate F) (tv tz : Nat) :
    Outcome (Int × kstate F) :=
  match ptr_validate s tv with
  | Outcome.halt => Outcome.halt
  | Outcome.ret _ =>
      match ptr_validate s tz with
      | Outcome.halt => Outcome.halt
      | Outcome.ret _ =>
          let r := ops.gettimeofday s.fs tv tz
          Outcome.ret (r.1, { s with fs := r.2 })

/-- The handler `sys_getuid`. -/
def sys_getuid {F : Type} (s : kstate F) : Outcome (Int × kstate F) :=
  Outcome.ret (((cur_proc s).real_user : Int), s)

/-- The handler `sys_geteuid`. -/
def sys_geteuid {F : Type} (s : kstate F) : Outcome (Int × kstate F) :=
  Outcome.ret (((cur_proc s).user : Int), s)

/-- The handler `sys_setuid`. -/
def sys_setuid {F : Type} (s : kstate F) (new_uid : Nat) : Outcome (Int × kstate F) :=
  if (cur_proc s).user = USER_ROOT_UID then
    Outcome.ret (0, set_cur_proc s { cur_proc s with user := new_uid, real_user := new_uid })
  else Outcome.ret (-EPERM, s)

/-- The handler `sys_getpid`. -/
def sys_getpid {F : Type} (s : kstate F) : Outcome (Int × kstate F) :=
  Outcome.ret (if (cur_proc s).group ≠ 0 then (cur_proc s).group else (cur_proc s).id, s)

/-- The handler `sys_gettid`. -/
def sys_gettid {F : Type} (s : kstate F) : Outcome (Int × kstate F) :=
  Outcome.ret ((cur_proc s).id, s)

/-- The handler `sys_setsid`. -/
def sys_setsid {F : Type} (s : kstate F) : Outcome (Int × kstate F) :=
  if (cur_proc s).job = (cur_proc s).group then Outcome.ret (-EPERM, s)
  else
    Outcome.ret ((cur_proc s).group,
      set_cur_proc s
        { cur_proc s with session := (cur_proc s).group, job := (cur_proc s).group })

/-- The handler `sys_setpgid`. Both `process_from_pid` lookups are commented out
in the source: the target is the caller for `pid = 0` and null otherwise, and
the group looked up for a non-zero `pgid` is always null. -/
def sys_setpgid {F : Type} (s : kstate F) (pid pgid : Int) : Outcome (Int × kstate F) :=
  if pgid < 0 then Outcome.ret (-EINVAL, s)
  else if pid ≠ 0 then Outcome.ret (-ESRCH, s)
  else if (cur_proc s).session ≠ (cur_proc s).session ∨
      (cur_proc s).session = (cur_proc s).group then Outcome.ret (-EPERM, s)
  else if pgid = 0 then
    Outcome.ret (0, set_cur_proc s { cur_proc s with job := (cur_proc s).group })
  else Outcome.ret (-EPERM, s)

/-- The handler `sys_getpgid`. -/
def sys_getpgid {F : Type} (s : kstate F) (pid : Int) : Outcome (Int × kstate F) :=
  if pid = 0 then Outcome.ret ((cur_proc s).job, s) else Outcome.ret (-ESRCH, s)

/-- The handler `sys_uname`. -/
def sys_uname {F : Type} (ops : kernel_ops F) (s : kstate F) (name : Nat) :
    Outcome (Int × kstate F) :=
  match ptr_validate s name with
  | Outcome.halt => Outcome.halt
  | Outcome.ret _ => Outcome.ret (0, { s with fs := ops.uname_fill s.fs s.hostname name })

/-- The handler `sys_chdir`. -/
def sys_chdir {F : Type} (ops : kernel_ops F) (s : kstate F) (newdir : Nat) :
    Outcome (Int × kstate F) :=
  match ptr_validate s newdir with
  | Outcome.halt => Outcome.halt
  | Outcome.ret _ =>
      let path := ops.canonicalize_path s.fs (cur_proc s).wd_name newdir
      let k := ops.kopen_path s.fs (cur_proc s) path 0
      if k.1 ≠ 0 then
        if Nat.land (ops.node_flags k.2 k.1) FS_DIRECTORY = 0 then
          Outcome.ret (-ENOTDIR, { s with fs := ops.close_fs k.2 k.1 })
        else if ops.has_permission k.2 (cur_proc s) k.1 1 = false then
          Outcome.ret (-EACCES, { s with fs := ops.close_fs k.2 k.1 })
        else
          Outcome.ret (0,
            set_cur_proc { s with fs := ops.close_fs k.2 k.1 }
              { cur_proc s with wd_name := path })
      else Outcome.ret (-ENOENT, { s with fs := k.2 })

/-- The handler `sys_getcwd`; it returns the value of `memcpy`, the buffer. -/
def sys_getcwd {F : Type} (ops : kernel_ops F) (s : kstate F) (buf size : Nat) :
    Outcome (Int × kstate F) :=
  if buf ≠ 0 then
    match ptr_validate s buf with
    | Outcome.halt => Outcome.halt
    | Outcome.ret _ =>
        let len := (c_string (cur_proc s).wd_name).length
        let n := if size < len then size else len
        Outcome.ret (to_long buf,
          { s with fs := ops.store_bytes s.fs buf ((c_string (cur_proc s).wd_name).take n) })
  else Outcome.ret (0, s)

/-- The handler `sys_sethostname`. -/
def sys_sethostname {F : Type} (ops : kernel_ops F) (s : kstate F) (new_hostname : Nat) :
    Outcome (Int × kstate F) :=
  if (cur_proc s).user = USER_ROOT_UID then
    match ptr_validate s new_hostname with
    | Outcome.halt => Outcome.halt
    | Outcome.ret _ =>
        let len := (ops.strlen s.fs new_hostname + 1) % 2 ^ 64
        if len > 256 then Outcome.ret (-ENAMETOOLONG, s)
        else
          Outcome.ret (0,
            { s with
                hostname_len := len
                hostname := ops.load_bytes s.fs new_hostname len ++ s.hostname.drop len })
  else Outcome.ret (-EPERM, s)

/-- The handler `sys_gethostname`. -/
def sys_gethostname {F : Type} (ops : kernel_ops F) (s : kstate F) (buffer : Nat) :
    Outcome (Int × kstate F) :=
  match ptr_validate s buffer with
  | Outcome.halt => Outcome.halt
  | Outcome.ret _ =>
      Outcome.ret (to_long s.hostname_len,
        { s with fs := ops.store_bytes s.fs buffer (s.hostname.take s.hostname_len) })

/-- The handler `sys_mount`. -/
def sys_mount {F : Type} (ops : kernel_ops F) (s : kstate F) (arg mountpoint type : Nat)
    (_flags _data : Nat) : Outcome (Int × kstate F) :=
  if (cur_proc s).user ≠ USER_ROOT_UID then Outcome.ret (-EPERM, s)
  else if PTR_INRANGE s arg ∧ PTR_INRANGE s mountpoint ∧ PTR_INRANGE s type then
    let r := ops.vfs_mount_type s.fs type arg mountpoint
    Outcome.ret (r.1, { s with fs := r.2 })
  else Outcome.ret (-EFAULT, s)

/-- The handler `sys_umask`. -/
def sys_umask {F : Type} (s : kstate F) (mode : Int) : Outcome (Int × kstate F) :=
  Outcome.ret (0, set_cur_proc s { cur_proc s with mask := (Int.land mode 0o777).toNat })

/-- The handler `sys_unlink`. -/
def sys_unlink {F : Type} (ops : kernel_ops F) (s : kstate F) (file : Nat) :
    Outcome (Int × kstate F) :=
  match ptr_validate s file with
  | Outcome.halt => Outcome.halt
  | Outcome.ret _ =>
      let r := ops.unlink_fs s.fs (cur_proc s) file
      Outcome.ret (r.1, { s with fs := r.2 })

/-- The first lookup of `sys_open`: `kopen(file, flags)`. -/
def open_lookup {F : Type} (ops : kernel_ops F) (s : kstate F) (file : Nat) (flags : Int) :
    Nat × F :=
  ops.kopen s.fs (cur_proc s) file flags

/-- The creation step of `sys_open` after a failed lookup:
`create_file_fs(file, mode)`. -/
def open_create {F : Type} (ops : kernel_ops F) (s : kstate F) (file : Nat)
    (flags mode : Int) : Int × F :=
  ops.create_file_fs (open_lookup ops s file flags).2 (cur_proc s) file mode

/-- The second lookup of `sys_open`, after a creation: `kopen(file, flags)`. -/
def open_relookup {F : Type} (ops : kernel_ops F) (s : kstate F) (file : Nat)
    (flags mode : Int) : Nat × F :=
  ops.kopen (open_create ops s file flags mode).2 (cur_proc s) file flags

/-! ## syscall.c: the system call table and the dispatcher -/

/-- The registers of `struct regs` that syscall.c reads and writes
(kernel/arch/x86_64/regs.h is not among the sources). -/
structure regs where
  rax : Nat
  rbx : Nat
  rcx : Nat
  rdx : Nat
  rsi : Nat
  rdi : Nat
  deriving DecidableEq

/-- The function `arch_syscall_number`. -/
def arch_syscall_number (r : regs) : Nat := r.rax

/-- The function `arch_syscall_return`: `r->rax = retval`. -/
def arch_syscall_return (r : regs) (retval : Int) : regs := { r with rax := to_size_t retval }

/-- The function `arch_syscall_arg0`. -/
def arch_syscall_arg0 (r : regs) : Int := to_long r.rbx

/-- The function `arch_syscall_arg1`. -/
def arch_syscall_arg1 (r : regs) : Int := to_long r.rcx

/-- The function `arch_syscall_arg2`. -/
def arch_syscall_arg2 (r : regs) : Int := to_long r.rdx

/-- The function `arch_syscall_arg3`. -/
def arch_syscall_arg3 (r : regs) : Int := to_long r.rsi

/-- The function `arch_syscall_arg4`. -/
def arch_syscall_arg4 (r : regs) : Int := to_long r.rdi

/-- The names of the system call numbers, as listed in `syscallNames`. -/
inductive syscall_name where
  | SYS_EXT | SYS_GETEUID | SYS_OPEN | SYS_READ | SYS_WRITE | SYS_CLOSE | SYS_GETTIMEOFDAY
  | SYS_EXECVE | SYS_FORK | SYS_GETPID | SYS_SBRK | SYS_UNAME | SYS_OPENPTY | SYS_SEEK
  | SYS_STAT | SYS_MKPIPE | SYS_DUP2 | SYS_GETUID | SYS_SETUID | SYS_REBOOT | SYS_READDIR
  | SYS_CHDIR | SYS_GETCWD | SYS_CLONE | SYS_SETHOSTNAME | SYS_GETHOSTNAME | SYS_MKDIR
  | SYS_SHM_OBTAIN | SYS_SHM_RELEASE | SYS_KILL | SYS_SIGNAL | SYS_GETTID | SYS_YIELD
  | SYS_SYSFUNC | SYS_SLEEPABS | SYS_SLEEP | SYS_IOCTL | SYS_ACCESS | SYS_STATF | SYS_CHMOD
  | SYS_UMASK | SYS_UNLINK | SYS_WAITPID | SYS_PIPE | SYS_MOUNT | SYS_SYMLINK | SYS_READLINK
  | SYS_LSTAT | SYS_FSWAIT | SYS_FSWAIT2 | SYS_CHOWN | SYS_SETSID | SYS_SETPGID | SYS_GETPGID
  | SYS_FSWAIT3
  deriving DecidableEq

/-- The functions stored in the table `syscalls`. -/
inductive handler where
  | sys_exit | sys_geteuid | sys_open | sys_read | sys_write | sys_close | sys_gettimeofday
  | sys_getpid | sys_sbrk | sys_uname | sys_seek | sys_stat | sys_getuid | sys_setuid
  | sys_readdir | sys_chdir | sys_getcwd | sys_gethostname | sys_sethostname | sys_mkdir
  | sys_gettid | sys_sysfunc | sys_ioctl | sys_access | sys_statf | sys_chmod | sys_umask
  | sys_unlink | sys_mount | sys_symlink | sys_readlink | sys_lstat | sys_chown | sys_setsid
  | sys_setpgid | sys_getpgid | unimplemented
  deriving DecidableEq

/-- The constants of the two headers that are not among the sources: the
number of each system call (syscall_nums.h) and the case of `sys_sysfunc` that
each function code selects (sys/sysfunc.h). -/
structure syscall_abi where
  num : syscall_name → Nat
  sysfunc : Int → sysfunc_case

/-- The designated initialisers of the table `syscalls`, in the order of the
source. -/
def syscalls_init : List (syscall_name × handler) :=
  [ (syscall_name.SYS_EXT, handler.sys_exit),
    (syscall_name.SYS_GETEUID, handler.sys_geteuid),
    (syscall_name.SYS_OPEN, handler.sys_open),
    (syscall_name.SYS_READ, handler.sys_read),
    (syscall_name.SYS_WRITE, handler.sys_write),
    (syscall_name.SYS_CLOSE, handler.sys_close),
    (syscall_name.SYS_GETTIMEOFDAY, handler.sys_gettimeofday),
    (syscall_name.SYS_GETPID, handler.sys_getpid),
    (syscall_name.SYS_SBRK, handler.sys_sbrk),
    (syscall_name.SYS_UNAME, handler.sys_uname),
    (syscall_name.SYS_SEEK, handler.sys_seek),
    (syscall_name.SYS_STAT, handler.sys_stat),
    (syscall_name.SYS_GETUID, handler.sys_getuid),
    (syscall_name.SYS_SETUID, handler.sys_setuid),
    (syscall_name.SYS_READDIR, handler.sys_readdir),
    (syscall_name.SYS_CHDIR, handler.sys_chdir),
    (syscall_name.SYS_GETCWD, handler.sys_getcwd),
    (syscall_name.SYS_SETHOSTNAME, handler.sys_gethostname),
    (syscall_name.SYS_GETHOSTNAME, handler.sys_sethostname),
    (syscall_name.SYS_MKDIR, handler.sys_mkdir),
    (syscall_name.SYS_GETTID, handler.sys_gettid),
    (syscall_name.SYS_SYSFUNC, handler.sys_sysfunc),
    (syscall_name.SYS_IOCTL, handler.sys_ioctl),
    (syscall_name.SYS_ACCESS, handler.sys_access),
    (syscall_name.SYS_STATF, handler.sys_statf),
    (syscall_name.SYS_CHMOD, handler.sys_chmod),
    (syscall_name.SYS_UMASK, handler.sys_umask),
    (syscall_name.SYS_UNLINK, handler.sys_unlink),
    (syscall_name.SYS_MOUNT, handler.sys_mount),
    (syscall_name.SYS_SYMLINK, handler.sys_symlink),
    (syscall_name.SYS_READLINK, handler.sys_readlink),
    (syscall_name.SYS_LSTAT, handler.sys_lstat),
    (syscall_name.SYS_CHOWN, handler.sys_chown),
    (syscall_name.SYS_SETSID, handler.sys_setsid),
    (syscall_name.SYS_SETPGID, handler.sys_setpgid),
    (syscall_name.SYS_GETPGID, handler.sys_getpgid),
    (syscall_name.SYS_EXECVE, handler.unimplemented),
    (syscall_name.SYS_FORK, handler.unimplemented),
    (syscall_name.SYS_OPENPTY, handler.unimplemented),
    (syscall_name.SYS_MKPIPE, handler.unimplemented),
    (syscall_name.SYS_DUP2, handler.unimplemented),
    (syscall_name.SYS_REBOOT, handler.unimplemented),
    (syscall_name.SYS_CLONE, handler.unimplemented),
    (syscall_name.SYS_SLEEPABS, handler.unimplemented),
    (syscall_name.SYS_SLEEP, handler.unimplemented),
    (syscall_name.SYS_YIELD, handler.unimplemented),
    (syscall_name.SYS_SHM_OBTAIN, handler.unimplemented),
    (syscall_name.SYS_SHM_RELEASE, handler.unimplemented),
    (syscall_name.SYS_KILL, handler.unimplemented),
    (syscall_name.SYS_SIGNAL, handler.unimplemented),
    (syscall_name.SYS_WAITPID, handler.unimplemented),
    (syscall_name.SYS_PIPE, handler.unimplemented),
    (syscall_name.SYS_FSWAIT, handler.unimplemented),
    (syscall_name.SYS_FSWAIT2, handler.unimplemented),
    (syscall_name.SYS_FSWAIT3, handler.unimplemented) ]

/-- The entry `syscalls[n]`: the function of the last initialiser designating
index `n`, or a null pointer when no initialiser designates it. -/
def syscalls (abi : syscall_abi) (n : Nat) : Option handler :=
  ((syscalls_init.filter (fun e => decide (abi.num e.1 = n))).getLast?).map (fun e => e.2)

/-- The value `num_syscalls = sizeof(syscalls) / sizeof(*syscalls)`: one more
than the largest designated index. -/
def num_syscalls (abi : syscall_abi) : Nat :=
  (syscalls_init.map (fun e => abi.num e.1)).foldl max 0 + 1

/-- Conversion of a register argument to a 32-bit unsigned parameter (`uid_t`). -/
def to_uint (x : Int) : Nat := to_size_t x % 2 ^ 32

/-- The call `func(arg0, arg1, arg2, arg3, arg4)` of `syscall_handler`: each
handler takes its declared parameters from the leading arguments, converted to
the parameter types. -/
def call_handler {F : Type} (abi : syscall_abi) (ops : kernel_ops F) (s : kstate F)
    (a0 a1 a2 a3 a4 : Int) : handler → Outcome (Int × kstate F)
  | handler.sys_exit => sys_exit s a0
  | handler.sys_geteuid => sys_geteuid s
  | handler.sys_open => sys_open ops s (to_size_t a0) a1 a2
  | handler.sys_read => sys_read ops s a0 (to_size_t a1) (to_size_t a2)
  | handler.sys_write => sys_write ops s a0 (to_size_t a1) (to_size_t a2)
  | handler.sys_close => sys_close ops s a0
  | handler.sys_gettimeofday => sys_gettimeofday ops s (to_size_t a0) (to_size_t a1)
  | handler.sys_getpid => sys_getpid s
  | handler.sys_sbrk => sys_sbrk ops s a0
  | handler.sys_uname => sys_uname ops s (to_size_t a0)
  | handler.sys_seek => sys_seek ops s a0 a1 a2
  | handler.sys_stat => sys_stat ops s a0 (to_size_t a1)
  | handler.sys_getuid => sys_getuid s
  | handler.sys_setuid => sys_setuid s (to_uint a0)
  | handler.sys_readdir => sys_readdir ops s a0 a1 (to_size_t a2)
  | handler.sys_chdir => sys_chdir ops s (to_size_t a0)
  | handler.sys_getcwd => sys_getcwd ops s (to_size_t a0) (to_size_t a1)
  | handler.sys_gethostname => sys_gethostname ops s (to_size_t a0)
  | handler.sys_sethostname => sys_sethostname ops s (to_size_t a0)
  | handler.sys_mkdir => sys_mkdir ops s (to_size_t a0) (to_size_t a1)
  | handler.sys_gettid => sys_gettid s
  | handler.sys_sysfunc => sys_sysfunc ops s (abi.sysfunc a0) (to_size_t a1)
  | handler.sys_ioctl => sys_ioctl ops s a0 a1 (to_size_t a2)
  | handler.sys_access => sys_access ops s (to_size_t a0) a1
  | handler.sys_statf => sys_statf ops s (to_size_t a0) (to_size_t a1)
  | handler.sys_chmod => sys_chmod ops s (to_size_t a0) a1
  | handler.sys_umask => sys_umask s a0
  | handler.sys_unlink => sys_unlink ops s (to_size_t a0)
  | handler.sys_mount =>
      sys_mount ops s (to_size_t a0) (to_size_t a1) (to_size_t a2) (to_size_t a3) (to_size_t a4)
  | handler.sys_symlink => sys_symlink ops s (to_size_t a0) (to_size_t a1)
  | handler.sys_readlink => sys_readlink ops s (to_size_t a0) (to_size_t a1) a2
  | handler.sys_lstat => sys_lstat ops s (to_size_t a0) (to_size_t a1)
  | handler.sys_chown => sys_chown ops s (to_size_t a0) (to_uint a1) (to_uint a2)
  | handler.sys_setsid => sys_setsid s
  | handler.sys_setpgid => sys_setpgid s (to_int (to_size_t a0)) (to_int (to_size_t a1))
  | handler.sys_getpgid => sys_getpgid s (to_int (to_size_t a0))
  | handler.unimplemented => unimplemented s

/-- The function `syscall_handler`, on the registers `*r` at address `rp`.
Returns the registers and the state afterwards. A call through a null table
entry does not return. -/
def syscall_handler {F : Type} (abi : syscall_abi) (ops : kernel_ops F) (s : kstate F)
    (rp : Nat) (r : regs) : Outcome (regs × kstate F) :=
  if arch_syscall_number r ≥ num_syscalls abi then
    Outcome.ret (arch_syscall_return r (-EINVAL), s)
  else
    match syscalls abi (arch_syscall_number r) with
    | none => Outcome.halt
    | some func =>
        let s1 := set_cur_proc s { cur_proc s with syscall_registers := rp }
        match call_handler abi ops s1 (arch_syscall_arg0 r) (arch_syscall_arg1 r)
            (arch_syscall_arg2 r) (arch_syscall_arg3 r) (arch_syscall_arg4 r) func with
        | Outcome.halt => Outcome.halt
        | Outcome.ret v => Outcome.ret (arch_syscall_return r v.1, v.2)

/-! ## The calls a handler makes to its collaborators -/

/-- A call to one of the state-changing collaborators of `kernel_ops`, with its
arguments. -/
inductive vfs_call where
  | clone_fs (node : Nat)
  | close_fs (node : Nat)
  | open_fs (node : Nat) (flags : Int)
  | read_fs (node offset len ptr : Nat)
  | write_fs (node offset len ptr : Nat)
  | ioctl_fs (node : Nat) (request : Int) (argp : Nat)
  | readdir_fs (node index : Nat)
  | copy_dirent (entry kentry : Nat)
  | stat_fill (node st : Nat)
  | stat_clear (st : Nat)
  | valloc (size : Nat)
  | kopen (path : Nat) (flags : Int)
  | kopen_path (path : String) (flags : Int)
  | create_file_fs (path : Nat) (mode : Int)
  | truncate_fs (node : Nat)
  | mkdir_fs (path mode : Nat)
  | symlink_fs (target name : Nat)
  | readlink_fs (node ptr : Nat) (len : Int)
  | chmod_fs (node : Nat) (mode : Int)
  | chown_fs (node uid gid : Nat)
  | unlink_fs (path : Nat)
  | vfs_mount_type (type arg mountpoint : Nat)
  | store_bytes (ptr : Nat) (bytes : List Nat)
  | make_cmdline (ptrs : List Nat)
  | gettimeofday (tv tz : Nat)
  | mmu_map_range (first last : Nat)
  | uname_fill (name : Nat)
  | arch_set_tls_base (base : Nat)
  deriving DecidableEq

/-- The environment `ops` with a record kept of the calls made: the state is
paired with the list of calls so far, every state-changing collaborator appends
its call, and the queries answer as in `ops`. -/
def log_ops {F : Type} (ops : kernel_ops F) : kernel_ops (F × List vfs_call) :=
  { clone_fs := fun f n => ((ops.clone_fs f.1 n).1, (ops.clone_fs f.1 n).2, f.2 ++ [vfs_call.clone_fs n])
    close_fs := fun f n => (ops.close_fs f.1 n, f.2 ++ [vfs_call.close_fs n])
    open_fs := fun f n fl => (ops.open_fs f.1 n fl, f.2 ++ [vfs_call.open_fs n fl])
    read_fs := fun f n o l p =>
      ((ops.read_fs f.1 n o l p).1, (ops.read_fs f.1 n o l p).2, f.2 ++ [vfs_call.read_fs n o l p])
    write_fs := fun f n o l p =>
      ((ops.write_fs f.1 n o l p).1, (ops.write_fs f.1 n o l p).2,
        f.2 ++ [vfs_call.write_fs n o l p])
    ioctl_fs := fun f n r a =>
      ((ops.ioctl_fs f.1 n r a).1, (ops.ioctl_fs f.1 n r a).2, f.2 ++ [vfs_call.ioctl_fs n r a])
    readdir_fs := fun f n i =>
      ((ops.readdir_fs f.1 n i).1, (ops.readdir_fs f.1 n i).2, f.2 ++ [vfs_call.readdir_fs n i])
    copy_dirent := fun f e k => (ops.copy_dirent f.1 e k, f.2 ++ [vfs_call.copy_dirent e k])
    stat_fill := fun f n st => (ops.stat_fill f.1 n st, f.2 ++ [vfs_call.stat_fill n st])
    stat_clear := fun f st => (ops.stat_clear f.1 st, f.2 ++ [vfs_call.stat_clear st])
    node_flags := fun f n => ops.node_flags f.1 n
    node_length := fun f n => ops.node_length f.1 n
    valloc := fun f n => ((ops.valloc f.1 n).1, (ops.valloc f.1 n).2, f.2 ++ [vfs_call.valloc n])
    kopen := fun f p path fl =>
      ((ops.kopen f.1 p path fl).1, (ops.kopen f.1 p path fl).2, f.2 ++ [vfs_call.kopen path fl])
    kopen_path := fun f p path fl =>
      ((ops.kopen_path f.1 p path fl).1, (ops.kopen_path f.1 p path fl).2,
        f.2 ++ [vfs_call.kopen_path path fl])
    has_permission := fun f p n b => ops.has_permission f.1 p n b
    create_file_fs := fun f p path m =>
      ((ops.create_file_fs f.1 p path m).1, (ops.create_file_fs f.1 p path m).2,
        f.2 ++ [vfs_call.create_file_fs path m])
    truncate_fs := fun f n => (ops.truncate_fs f.1 n, f.2 ++ [vfs_call.truncate_fs n])
    mkdir_fs := fun f p path m =>
      ((ops.mkdir_fs f.1 p path m).1, (ops.mkdir_fs f.1 p path m).2,
        f.2 ++ [vfs_call.mkdir_fs path m])
    symlink_fs := fun f p t n =>
      ((ops.symlink_fs f.1 p t n).1, (ops.symlink_fs f.1 p t n).2,
        f.2 ++ [vfs_call.symlink_fs t n])
    readlink_fs := fun f c n p l =>
      ((ops.readlink_fs f.1 c n p l).1, (ops.readlink_fs f.1 c n p l).2.1,
        (ops.readlink_fs f.1 c n p l).2.2, f.2 ++ [vfs_call.readlink_fs n p l])
    chmod_fs := fun f n m =>
      ((ops.chmod_fs f.1 n m).1, (ops.chmod_fs f.1 n m).2, f.2 ++ [vfs_call.chmod_fs n m])
    chown_fs := fun f n u g =>
      ((ops.chown_fs f.1 n u g).1, (ops.chown_fs f.1 n u g).2, f.2 ++ [vfs_call.chown_fs n u g])
    unlink_fs := fun f p path =>
      ((ops.unlink_fs f.1 p path).1, (ops.unlink_fs f.1 p path).2, f.2 ++ [vfs_call.unlink_fs path])
    vfs_mount_type := fun f t a m =>
      ((ops.vfs_mount_type f.1 t a m).1, (ops.vfs_mount_type f.1 t a m).2,
        f.2 ++ [vfs_call.vfs_mount_type t a m])
    node_uid := fun f n => ops.node_uid f.1 n
    canonicalize_path := fun f cwd p => ops.canonicalize_path f.1 cwd p
    strlen := fun f p => ops.strlen f.1 p
    load_bytes := fun f p n => ops.load_bytes f.1 p n
    store_bytes := fun f p b => (ops.store_bytes f.1 p b, f.2 ++ [vfs_call.store_bytes p b])
    load_ptr := fun f p => ops.load_ptr f.1 p
    make_cmdline := fun f l =>
      ((ops.make_cmdline f.1 l).1, (ops.make_cmdline f.1 l).2, f.2 ++ [vfs_call.make_cmdline l])
    gettimeofday := fun f tv tz =>
      ((ops.gettimeofday f.1 tv tz).1, (ops.gettimeofday f.1 tv tz).2,
        f.2 ++ [vfs_call.gettimeofday tv tz])
    mmu_map_range := fun f a b => (ops.mmu_map_range f.1 a b, f.2 ++ [vfs_call.mmu_map_range a b])
    uname_fill := fun f h n => (ops.uname_fill f.1 h n, f.2 ++ [vfs_call.uname_fill n])
    arch_set_tls_base := fun f b =>
      (ops.arch_set_tls_base f.1 b, f.2 ++ [vfs_call.arch_set_tls_base b])
    process_address := ops.process_address }

/-- The state `s` with an empty record of calls. -/
def logged {F : Type} (s : kstate F) : kstate (F × List vfs_call) :=
  { procs := s.procs, tables := s.tables, current_process := s.current_process,
    _next_pid := s._next_pid, procs_brk := s.procs_brk, tables_brk := s.tables_brk,
    fs := (s.fs, []), hostname := s.hostname, hostname_len := s.hostname_len }

/-- The calls recorded when a handler returns; none is recorded for a handler
that halts. -/
def calls {F : Type} : Outcome (Int × kstate (F × List vfs_call)) → List vfs_call
  | Outcome.ret r => r.2.fs.2
  | Outcome.halt => []

/-- The outcome is a return whose value and state satisfy `P`. -/
def Outcome.returns {α : Type} (o : Outcome α) (P : α → Prop) : Prop :=
  match o with
  | Outcome.ret a => P a
  | Outcome.halt => False

instance {α : Type} (o : Outcome α) (P : α → Prop) [DecidablePred P] :
    Decidable (o.returns P) := by
  unfold Outcome.returns
  cases o <;> infer_instance

/-! ## Sequences of descriptor operations -/

/-- The descriptor operations a process performs: the two table functions of
process.c and the handlers of syscall.c that write to the table. -/
inductive fd_op where
  | append (node : Nat) : fd_op
  | move (src dest : Int) : fd_op
  | close (fd : Int) : fd_op
  | seek (fd offset whence : Int) : fd_op
  | read (fd : Int) (ptr len : Nat) : fd_op
  | write (fd : Int) (ptr len : Nat) : fd_op

/-- One operation performed by the process at address `who`: the handlers run
with `current_process = who`. -/
def do_op {F : Type} (ops : kernel_ops F) (s : kstate F) (who : Nat) :
    fd_op → Outcome (Int × kstate F)
  | fd_op.append node =>
      Outcome.ret (((Kernel.process_append_fd s who node).1 : Int),
        (Kernel.process_append_fd s who node).2)
  | fd_op.move src dest => Outcome.ret (Kernel.process_move_fd ops s who src dest)
  | fd_op.close fd => sys_close ops { s with current_process := who } fd
  | fd_op.seek fd offset whence => sys_seek ops { s with current_process := who } fd offset whence
  | fd_op.read fd ptr len => sys_read ops { s with current_process := who } fd ptr len
  | fd_op.write fd ptr len => sys_write ops { s with current_process := who } fd ptr len

/-- The state after one operation; a halted kernel stays in the state it had. -/
def step_op {F : Type} (ops : kernel_ops F) (s : kstate F) (w : Nat × fd_op) : kstate F :=
  match do_op ops s w.1 w.2 with
  | Outcome.ret r => r.2
  | Outcome.halt => s

/-- The state after a sequence of operations, each by the process named with it. -/
def run_ops {F : Type} (ops : kernel_ops F) (s : kstate F) (l : List (Nat × fd_op)) : kstate F :=
  l.foldl (step_op ops) s

/-- An environment over the one-point filesystem state: cloning returns the
node itself, reads and writes transfer the whole request, every path resolves
(to the node numbered like its pointer), every string is three bytes long, no
node is a link with a target to copy, and the process records lie a page apart
above `2^63`. -/
def unit_ops : kernel_ops Unit :=
  { clone_fs := fun _ n => (n, ())
    close_fs := fun _ _ => ()
    open_fs := fun _ _ _ => ()
    read_fs := fun _ _ _ len _ => ((len : Int), ())
    write_fs := fun _ _ _ len _ => ((len : Int), ())
    ioctl_fs := fun _ _ _ _ => (0, ())
    readdir_fs := fun _ _ _ => (0, ())
    copy_dirent := fun _ _ _ => ()
    stat_fill := fun _ _ _ => ()
    stat_clear := fun _ _ => ()
    node_flags := fun _ _ => 1
    node_length := fun _ _ => 0
    valloc := fun _ _ => (0x100000, ())
    kopen := fun _ _ path _ => (path, ())
    kopen_path := fun _ _ _ _ => (1, ())
    has_permission := fun _ _ _ _ => true
    create_file_fs := fun _ _ _ _ => (0, ())
    truncate_fs := fun _ _ => ()
    mkdir_fs := fun _ _ _ _ => (0, ())
    symlink_fs := fun _ _ _ _ => (0, ())
    readlink_fs := fun _ _ _ _ _ => (0, [], ())
    chmod_fs := fun _ _ _ => (0, ())
    chown_fs := fun _ _ _ _ => (0, ())
    unlink_fs := fun _ _ _ => (0, ())
    vfs_mount_type := fun _ _ _ _ => (0, ())
    node_uid := fun _ _ => 0
    canonicalize_path := fun _ cwd _ => cwd
    strlen := fun _ _ => 3
    load_bytes := fun _ _ n => List.replicate n 97
    store_bytes := fun _ _ _ => ()
    load_ptr := fun _ _ => 0
    make_cmdline := fun _ _ => (0, ())
    gettimeofday := fun _ _ _ => (0, ())
    mmu_map_range := fun _ _ _ => ()
    uname_fill := fun _ _ _ => ()
    arch_set_tls_base := fun _ _ => ()
    process_address := fun p => 2 ^ 63 + 0x1000 * (p + 1) }

/-- The table `_fake_fds` of process.c: three console entries of modes 1, 2, 2,
length 3, capacity 24, one reference. -/
def _fake_fds : fd_table_t :=
  { entries := fun i => if i < 3 then 1 else 0
    offsets := fun _ => 0
    modes := fun i => if i = 0 then 1 else if i < 3 then 2 else 0
    length := 3
    capacity := 24
    refs := 1 }

/-- The record `_fake_process` of process.c, with its table at address 0. -/
def _fake_process : process_t :=
  { process_t.zero with user := 0, real_user := 0, wd_name := "/", fds := 0 }

/-- The state at boot: `current_process = &_fake_process` at address 0, its
table `_fake_fds` at address 0, and the pid counter at 1. -/
def boot_state : kstate Unit :=
  { procs := fun _ => _fake_process
    tables := fun _ => _fake_fds
    current_process := 0
    _next_pid := 1
    procs_brk := 1
    tables_brk := 1
    fs := ()
    hostname := List.replicate 256 0
    hostname_len := 0 }

/-- A table of two slots whose slot 1 is a hole left by `sys_close`. -/
def hole_table : fd_table_t :=
  { entries := fun i => if i = 0 then 1 else 0
    offsets := fun i => if i = 1 then 5 else 0
    modes := fun i => if i = 1 then 2 else 0
    length := 2
    capacity := 4
    refs := 1 }

/-- A small filesystem state for the evaluations: the path pointers that name a
node (the node of a path is numbered like the pointer), the nodes that are
directories, the nodes on which `has_permission` answers no, and the nodes
truncated so far. -/
structure toy_fs where
  present : List Nat
  dirs : List Nat
  denied : List Nat
  truncated : List Nat
  deriving DecidableEq

/-- An environment over `toy_fs`: `kopen` finds the paths listed as present,
`create_file_fs` adds a path that is not present, `truncate_fs` records the
node, nodes belong to user 1000, every string is three bytes long, no node is
a link with a target to copy, and the process records lie a page apart above
`2^63`. -/
def toy_ops : kernel_ops toy_fs :=
  { clone_fs := fun f n => (n, f)
    close_fs := fun f _ => f
    open_fs := fun f _ _ => f
    read_fs := fun f _ _ len _ => ((len : Int), f)
    write_fs := fun f _ _ len _ => ((len : Int), f)
    ioctl_fs := fun f _ _ _ => (0, f)
    readdir_fs := fun f _ _ => (0, f)
    copy_dirent := fun f _ _ => f
    stat_fill := fun f _ _ => f
    stat_clear := fun f _ => f
    node_flags := fun f n => if n ∈ f.dirs then FS_DIRECTORY else 1
    node_length := fun _ _ => 0
    valloc := fun f _ => (0x100000, f)
    kopen := fun f _ path _ => (if path ∈ f.present then path else 0, f)
    kopen_path := fun f _ _ _ => (0, f)
    has_permission := fun f _ n _ => decide (n ∉ f.denied)
    create_file_fs := fun f _ path _ =>
      if path ∈ f.present then (-EEXIST, f) else (0, { f with present := path :: f.present })
    truncate_fs := fun f n => { f with truncated := n :: f.truncated }
    mkdir_fs := fun f _ _ _ => (0, f)
    symlink_fs := fun f _ _ _ => (0, f)
    readlink_fs := fun f _ _ _ _ => (0, [], f)
    chmod_fs := fun f _ _ => (0, f)
    chown_fs := fun f _ _ _ => (0, f)
    unlink_fs := fun f _ _ => (0, f)
    vfs_mount_type := fun f _ _ _ => (0, f)
    node_uid := fun _ _ => 1000
    canonicalize_path := fun _ cwd _ => cwd
    strlen := fun _ _ => 3
    load_bytes := fun _ _ n => List.replicate n 97
    store_bytes := fun f _ _ => f
    load_ptr := fun _ _ => 0
    make_cmdline := fun f _ => (0, f)
    gettimeofday := fun f _ _ => (0, f)
    mmu_map_range := fun f _ _ => f
    uname_fill := fun f _ _ => f
    arch_set_tls_base := fun f _ => f
    process_address := fun p => 2 ^ 63 + 0x1000 * (p + 1) }

/-- A state over `toy_fs`: the boot process and table, one file at path
`0x3000` and one directory at path `0x4000`. -/
def toy_state : kstate toy_fs :=
  { procs := fun _ => _fake_process
    tables := fun _ => _fake_fds
    current_process := 0
    _next_pid := 1
    procs_brk := 1
    tables_brk := 1
    fs := { present := [0x3000, 0x4000], dirs := [0x4000], denied := [], truncated := [] }
    hostname := List.replicate 256 0
    hostname_len := 0 }

/-- The state `toy_state` with the current process owned by user 1000. -/
def toy_state_user : kstate toy_fs :=
  { toy_state with
      procs := fun _ => { _fake_process with user := 1000, real_user := 1000 } }

/-- A numbering for the evaluations: each system call is numbered by the
position of its name in `syscallNames`, and the function codes of
`sys_sysfunc` are 3 to 14 in the order of the `switch`. Any numbering that gives
different calls different numbers serves as well. -/
def toy_abi : syscall_abi :=
  { num := fun n => n.toCtorIdx
    sysfunc := fun fn =>
      if fn = 3 then sysfunc_case.SYNC else if fn = 4 then sysfunc_case.LOGHERE
      else if fn = 5 then sysfunc_case.SETFDS else if fn = 6 then sysfunc_case.WRITESDB
      else if fn = 7 then sysfunc_case.KDEBUG else if fn = 8 then sysfunc_case.INSMOD
      else if fn = 9 then sysfunc_case.SETHEAP else if fn = 10 then sysfunc_case.MMAP
      else if fn = 11 then sysfunc_case.THREADNAME
      else if fn = 12 then sysfunc_case.DEBUGPRINT
      else if fn = 13 then sysfunc_case.SETVGACURSOR
      else if fn = 14 then sysfunc_case.SETGSBASE else sysfunc_case.other }

/-- The environment `toy_ops` with an argument vector in the caller's memory at
`0x6000`: a first element `0x7000`, a second element `2^63`, which is outside
the window of every process, and the null terminator. -/
def argv_ops : kernel_ops toy_fs :=
  { toy_ops with
      load_ptr := fun _ a =>
        if a = 0x6000 then 0x7000 else if a = 0x6008 then 2 ^ 63 else 0 }

/-- The state `toy_state` with the current process a member of thread group 5
in job 3 of session 3, so that it leads neither its job nor its session. -/
def toy_state_member : kstate toy_fs :=
  { toy_state with
      procs := fun _ => { _fake_process with id := 5, group := 5, job := 3, session := 3 } }

/-- The state `s'` has the current process of `s`, and every process record has
in `s'` the `user` and `real_user` it has in `s`. -/
def same_users {F : Type} (s s' : kstate F) : Prop :=
  s'.current_process = s.current_process ∧
    ∀ p, (s'.procs p).user = (s.procs p).user ∧ (s'.procs p).real_user = (s.procs p).real_user

/-- A run of system calls: `syscall_handler` on each register block in turn
(its address and contents on entry), each on the state the previous one left.
The run halts when a call does. -/
def syscall_run {F : Type} (abi : syscall_abi) (ops : kernel_ops F) :
    List (Nat × regs) → kstate F → Outcome (kstate F)
  | [], s => Outcome.ret s
  | c :: l, s =>
      match syscall_handler abi ops s c.1 c.2 with
      | Outcome.halt => Outcome.halt
      | Outcome.ret r => syscall_run abi ops l r.2

/-! ## apps/dhcp_bitbanger.c: the IPv4 header checksum -/

/-- The macro `htons(s)`, which is also `ntohs(s)`:
`(((s) & 0xFF) << 8) | (((s) & 0xFF00) >> 8)`. -/
def htons (s : Nat) : Nat :=
  Nat.lor (Nat.shiftLeft (Nat.land s 0xFF) 8) (Nat.shiftRight (Nat.land s 0xFF00) 8)

/-- The macro `htonl(l)`. -/
def htonl (l : Nat) : Nat :=
  Nat.lor
    (Nat.lor
      (Nat.lor (Nat.shiftLeft (Nat.land l 0xFF) 24) (Nat.shiftLeft (Nat.land l 0xFF00) 8))
      (Nat.shiftRight (Nat.land l 0xFF0000) 8))
    (Nat.shiftRight (Nat.land l 0xFF000000) 24)

/-- The element `s[i]` of `uint16_t * s = (uint16_t *)p` for a header given by
its bytes, on the little-endian target: byte `2 i` is the low half. -/
def header_word (p : List Nat) (i : Nat) : Nat := p.getD (2 * i) 0 + 256 * p.getD (2 * i + 1) 0

/-- The loop `for (int i = 0; i < 10; ++i) sum += ntohs(s[i]);` of
`calculate_ipv4_checksum`, with the remaining number of iterations, the index
and the `uint32_t` sum. -/
def checksum_loop (p : List Nat) : Nat → Nat → Nat → Nat
  | 0, _, sum => sum
  | n + 1, i, sum => checksum_loop p n (i + 1) ((sum + htons (header_word p i)) % 2 ^ 32)

/-- The function `calculate_ipv4_checksum` on the bytes of the header. -/
def calculate_ipv4_checksum (p : List Nat) : Nat :=
  let sum := checksum_loop p 10 0 0
  let sum1 := if sum > 0xFFFF then (Nat.shiftRight sum 16 + Nat.land sum 0xFFFF) % 2 ^ 32 else sum
  Nat.land (2 ^ 32 - 1 - Nat.land sum1 0xFFFF) 0xFFFF

/-- The bytes a `uint16_t` store leaves in memory on the little-endian target. -/
def store16 (v : Nat) : List Nat := [v % 256, v / 256 % 256]

/-- The bytes a `uint32_t` store leaves in memory on the little-endian target. -/
def store32 (v : Nat) : List Nat :=
  [v % 256, v / 256 % 256, v / 65536 % 256, v / 16777216 % 256]

/-- The bytes of `it->ip_header` after the assignments of `fill` that precede
the checksum, for the sizes 20, 8 and 240 of the three packed header
structures. -/
def fill_ip_header_unsummed (payload_size : Nat) : List Nat :=
  [Nat.lor (Nat.shiftLeft 0x4 4) (Nat.shiftLeft 0x5 0), 0]
    ++ store16 (htons ((20 + 8 + 240 + payload_size) % 2 ^ 64) % 2 ^ 16)
    ++ store16 (htons 1) ++ store16 0 ++ [0x40, 17] ++ store16 0
    ++ store32 (htonl 0) ++ store32 (htonl 0xFFFFFFFF)

/-- The bytes of `it->ip_header` after
`it->ip_header.checksum = htons(calculate_ipv4_checksum(&it->ip_header))`. -/
def fill_ip_header (payload_size : Nat) : List Nat :=
  (fill_ip_header_unsummed payload_size).take 10
    ++ store16 (htons (calculate_ipv4_checksum (fill_ip_header_unsummed payload_size)) % 2 ^ 16)
    ++ (fill_ip_header_unsummed payload_size).drop 12

/-- Modelled from the spec: the ten 16-bit words of a 20-byte header, in
network byte order. -/
def header_words (p : List Nat) : List Nat :=
  (List.range 10).map (fun i => 256 * p.getD (2 * i) 0 + p.getD (2 * i + 1) 0)

/-- Modelled from the spec: ones-complement addition of two 16-bit words, with
the carry out of bit 15 added back in (end-around carry). -/
def ones_complement_add (a b : Nat) : Nat :=
  if a + b > 0xFFFF then a + b - 0xFFFF else a + b

/-- Modelled from the spec: the ones-complement sum of a list of 16-bit words. -/
def ones_complement_sum (ws : List Nat) : Nat := ws.foldl ones_complement_add 0

/-- Modelled from the spec: the RFC 1071 Internet checksum of a header, the
16-bit ones-complement of the ones-complement sum of its ten words. -/
def rfc1071_checksum (p : List Nat) : Nat := 0xFFFF - ones_complement_sum (header_words p)

/-! ## Scheduler queues -/

/-- Modelled from the spec: the scheduler queues of section 4.3, whose code
(`wakeup_queue`, `make_process_ready` and the queues of process.c) is not among
the sources; process.h only declares them. The ready queue and the sleep queue
are FIFO lists of process records (by address), the wait queues are numbered,
and each record carries the reason of its last wake-up (`true` for
interrupted). -/
structure sched_t where
  ready : List Nat
  sleep : List Nat
  waits : List (List Nat)
  interrupted : Nat → Bool

/-- Modelled from the spec: the wait queue number `q` (`wakeup_queue` is not
among the sources); a queue that does not exist has no members. -/
def wait_queue (s : sched_t) (q : Nat) : List Nat := s.waits.getD q []

/-- Modelled from the spec: `make_process_ready` (not among the sources) puts
the record at the end of the ready queue. -/
def make_process_ready (s : sched_t) (p : Nat) : sched_t :=
  { s with ready := s.ready ++ [p] }

/-- Modelled from the spec: one turn of the loop of `wakeup_queue` (not among
the sources): the record at the head of the queue is taken off the queue,
tagged with the wake reason and then put back on the ready queue. -/
def wakeup_step (tag : Bool) (q : Nat) (s : sched_t) : sched_t :=
  match wait_queue s q with
  | [] => s
  | p :: rest =>
      make_process_ready
        { s with waits := s.waits.set q rest
                 interrupted := Function.update s.interrupted p tag } p

/-- Modelled from the spec: the loop of `wakeup_queue` (not among the sources),
"move every record off the queue", for at most `n` turns, counting the records
moved. -/
def wakeup_loop (tag : Bool) (q : Nat) : Nat → sched_t → Nat → Nat × sched_t
  | 0, s, k => (k, s)
  | n + 1, s, k =>
      if (wait_queue s q).length > 0 then wakeup_loop tag q n (wakeup_step tag q s) (k + 1)
      else (k, s)

/-- Modelled from the spec: `wakeup_queue(queue)` (declared in process.h, its
code not among the sources) moves every record off `queue` back onto the ready
queue in queue order, tagging each as woken normally. The loop gets as many
turns as the queue has members. -/
def wakeup_queue (s : sched_t) (q : Nat) : Nat × sched_t :=
  wakeup_loop false q (wait_queue s q).length s 0

/-- Modelled from the spec: `wakeup_queue_interrupted(queue)` (declared in
process.h, its code not among the sources), the same with the wake reason
"interrupted". -/
def wakeup_queue_interrupted (s : sched_t) (q : Nat) : Nat × sched_t :=
  wakeup_loop true q (wait_queue s q).length s 0

/-- Modelled from the spec: the number of queue memberships of a record, over
the ready queue, the sleep queue and all wait queues; the invariant of section
4.3 is that it never exceeds one. -/
def memberships (s : sched_t) (p : Nat) : Nat :=
  s.ready.count p + s.sleep.count p + (s.waits.map (List.count p)).sum

/-- A scheduler state for the evaluations: records 1 and 2 ready, record 3
asleep, records 4, 5, 6 on wait queue 0 and record 7 on wait queue 1. -/
def toy_sched : sched_t :=
  { ready := [1, 2], sleep := [3], waits := [[4, 5, 6], [7]], interrupted := fun _ => true }

/-! ## kernel/vfs/tmpfs.c: file blocks, `read_tmpfs` and `write_tmpfs` -/

/-- The constant `BLOCKSIZE` of tmpfs.c. -/
def BLOCKSIZE : Nat := 0x1000

/-- The fields of `struct tmpfs_file` (kernel/tmpfs.h is not among the sources)
that the block functions of tmpfs.c read and write. `blocks[i]` holds the index of
the page frame backing block `i`. -/
structure tmpfs_file where
  length : Nat
  pointers : Nat
  block_count : Nat
  blocks : Nat → Nat
  atime : Nat
  mtime : Nat

/-- The memory the block functions act on: the contents of the page frames by
frame index and offset, the memory of the caller by address, and the mark of
the frame allocator. An offset at or above `BLOCKSIZE` in a frame stands for
what follows the mapping window `buf_space`. -/
structure tmpfs_mem where
  frames : Nat → Nat → Nat
  user : Nat → Nat
  frames_brk : Nat

/-- Subtraction of two `uint64_t` values. -/
def sub64 (a b : Nat) : Nat := (a + (2 ^ 64 - b % 2 ^ 64)) % 2 ^ 64

/-- Modelled from the spec: `mmu_allocate_a_frame` (kernel/arch/x86_64/mmu.h is
not among the sources) hands out the next frame of the frame arena, a frame no
block holds yet. -/
def mmu_allocate_a_frame (m : tmpfs_mem) : Nat × tmpfs_mem :=
  (m.frames_brk, { m with frames_brk := m.frames_brk + 1 })

/-- The function `tmpfs_file_new`, for the fields of `tmpfs_file`; `now` is the
value of `now()`. -/
def tmpfs_file_new (now : Nat) : tmpfs_file :=
  { length := 0, pointers := 2, block_count := 0, blocks := fun _ => 0,
    atime := now, mtime := now }

/-- The function `tmpfs_file_blocks_embiggen`; `realloc` keeps the pointers
the array had. -/
def tmpfs_file_blocks_embiggen (t : tmpfs_file) : tmpfs_file :=
  { t with pointers := t.pointers * 2 % 2 ^ 64 }

/-- The loop `while (blockid >= t->pointers) tmpfs_file_blocks_embiggen(t);`
for at most `n` turns; `none` when the turns are used up. -/
def embiggen_loop (blockid : Nat) : Nat → tmpfs_file → Option tmpfs_file
  | 0, _ => none
  | n + 1, t =>
      if blockid ≥ t.pointers then embiggen_loop blockid n (tmpfs_file_blocks_embiggen t)
      else some t

/-- The loop `while (blockid >= t->block_count) { ... }` of
`tmpfs_file_getset_block`, for `n` turns: each allocates a frame, stores its
index in `blocks[block_count]` and increments `block_count`. -/
def allocate_loop : Nat → tmpfs_file → tmpfs_mem → tmpfs_file × tmpfs_mem
  | 0, t, m => (t, m)
  | n + 1, t, m =>
      let a := mmu_allocate_a_frame m
      allocate_loop n
        { t with blocks := Function.update t.blocks t.block_count a.1
                 block_count := (t.block_count + 1) % 2 ^ 64 }
        a.2

/-- The function `tmpfs_file_getset_block`. It returns the frame it has mapped
at `buf_space` (`none` for the `NULL` of the "not enough blocks" case) with the
file and the memory afterwards. The first loop doubles `pointers` modulo 2^64:
after 64 turns `pointers` is 0 for good, so a loop that has not exited within
65 turns never exits. The second loop runs `blockid + 1 - block_count` times. -/
def tmpfs_file_getset_block (t : tmpfs_file) (m : tmpfs_mem) (blockid : Nat) (create : Bool) :
    Outcome (Option Nat × tmpfs_file × tmpfs_mem) :=
  if create then
    match embiggen_loop blockid 65 t with
    | none => Outcome.halt
    | some t1 =>
        let a := allocate_loop (blockid + 1 - t1.block_count) t1 m
        Outcome.ret (some (a.1.blocks blockid), a.1, a.2)
  else if blockid ≥ t.block_count then Outcome.ret (none, t, m)
  else Outcome.ret (some (t.blocks blockid), t, m)

/-- The bytes at the pointer `tmpfs_file_getset_block` returned: the frame
mapped at `buf_space`, or for `NULL` the memory of the caller from address 0. -/
def buf_bytes (m : tmpfs_mem) (buf : Option Nat) : Nat → Nat :=
  match buf with
  | some f => m.frames f
  | none => m.user

/-- The call `memcpy(dst, buf + off, n)` from the returned pointer into the
memory of the caller. -/
def memcpy_out (m : tmpfs_mem) (dst : Nat) (buf : Option Nat) (off n : Nat) : tmpfs_mem :=
  { m with user := fun a => if dst ≤ a ∧ a < dst + n then buf_bytes m buf (off + (a - dst))
                           else m.user a }

/-- The call `memcpy(buf + off, src, n)` from the memory of the caller into the
frame mapped at `buf_space`. -/
def memcpy_in (m : tmpfs_mem) (f : Nat) (off src n : Nat) : tmpfs_mem :=
  { m with frames := fun g j => if g = f ∧ off ≤ j ∧ j < off + n then m.user (src + (j - off))
                                else m.frames g j }

/-- The `for` loop of `read_tmpfs` for `n` turns, with the loop variables
`block_offset` and `blocks_read`. Returns `blocks_read` and the state. -/
def read_loop (start_block offset buffer : Nat) :
    Nat → Nat → Nat → tmpfs_file → tmpfs_mem → Outcome (Nat × tmpfs_file × tmpfs_mem)
  | 0, _, blocks_read, t, m => Outcome.ret (blocks_read, t, m)
  | n + 1, block_offset, blocks_read, t, m =>
      match tmpfs_file_getset_block t m block_offset false with
      | Outcome.halt => Outcome.halt
      | Outcome.ret g =>
          let m1 :=
            if block_offset = start_block then
              memcpy_out g.2.2 buffer g.1 (offset % BLOCKSIZE) (BLOCKSIZE - offset % BLOCKSIZE)
            else
              memcpy_out g.2.2
                (sub64 ((buffer + BLOCKSIZE * blocks_read) % 2 ^ 64) (offset % BLOCKSIZE))
                g.1 0 BLOCKSIZE
          read_loop start_block offset buffer n ((block_offset + 1) % 2 ^ 64)
            ((blocks_read + 1) % 2 ^ 64) g.2.1 m1

/-- The statements of `read_tmpfs` that follow `t->atime = now();`. Returns the
value returned with the file and the memory afterwards. -/
def read_tmpfs_blocks (t : tmpfs_file) (m : tmpfs_mem) (offset size buffer : Nat) :
    Outcome (Nat × tmpfs_file × tmpfs_mem) :=
  let end_ := if (offset + size) % 2 ^ 64 > t.length then t.length else (offset + size) % 2 ^ 64
  let start_block := offset / BLOCKSIZE
  let end_block := end_ / BLOCKSIZE
  let end_size := sub64 end_ (end_block * BLOCKSIZE % 2 ^ 64)
  let size_to_read := sub64 end_ offset
  if start_block = end_block ∧ offset = end_ then Outcome.ret (0, t, m)
  else if start_block = end_block then
    match tmpfs_file_getset_block t m start_block false with
    | Outcome.halt => Outcome.halt
    | Outcome.ret g =>
        Outcome.ret (size_to_read, g.2.1,
          memcpy_out g.2.2 buffer g.1 (offset % BLOCKSIZE) size_to_read)
  else
    match read_loop start_block offset buffer (end_block - start_block) start_block 0 t m with
    | Outcome.halt => Outcome.halt
    | Outcome.ret l =>
        if end_size ≠ 0 then
          match tmpfs_file_getset_block l.2.1 l.2.2 end_block false with
          | Outcome.halt => Outcome.halt
          | Outcome.ret g =>
              Outcome.ret (size_to_read, g.2.1,
                memcpy_out g.2.2
                  (sub64 ((buffer + BLOCKSIZE * l.1) % 2 ^ 64) (offset % BLOCKSIZE))
                  g.1 0 end_size)
        else Outcome.ret (size_to_read, l.2.1, l.2.2)

/-- The function `read_tmpfs` on the file `node->device`; `now` is the value of
`now()`. -/
def read_tmpfs (now : Nat) (t : tmpfs_file) (m : tmpfs_mem) (offset size buffer : Nat) :
    Outcome (Nat × tmpfs_file × tmpfs_mem) :=
  read_tmpfs_blocks { t with atime := now } m offset size buffer

/-- The frame behind the pointer `tmpfs_file_getset_block` returns with
`create = 1`, where it never returns `NULL`. -/
def buf_frame (buf : Option Nat) : Nat := buf.getD 0

/-- The `for` loop of `write_tmpfs` for `n` turns, with the loop variables
`block_offset` and `blocks_read`. Returns `blocks_read` and the state. -/
def write_loop (start_block offset buffer : Nat) :
    Nat → Nat → Nat → tmpfs_file → tmpfs_mem → Outcome (Nat × tmpfs_file × tmpfs_mem)
  | 0, _, blocks_read, t, m => Outcome.ret (blocks_read, t, m)
  | n + 1, block_offset, blocks_read, t, m =>
      match tmpfs_file_getset_block t m block_offset true with
      | Outcome.halt => Outcome.halt
      | Outcome.ret g =>
          let m1 :=
            if block_offset = start_block then
              memcpy_in g.2.2 (buf_frame g.1) (offset % BLOCKSIZE) buffer
                (BLOCKSIZE - offset % BLOCKSIZE)
            else
              memcpy_in g.2.2 (buf_frame g.1) 0
                (sub64 ((buffer + BLOCKSIZE * blocks_read) % 2 ^ 64) (offset % BLOCKSIZE))
                BLOCKSIZE
          write_loop start_block offset buffer n ((block_offset + 1) % 2 ^ 64)
            ((blocks_read + 1) % 2 ^ 64) g.2.1 m1

/-- The statements of `write_tmpfs` that follow the time stamps and the update
of the length. Returns the value returned with the file and the memory
afterwards; `halt` when `tmpfs_file_getset_block` does not return. -/
def write_tmpfs_blocks (t : tmpfs_file) (m : tmpfs_mem) (offset size buffer : Nat) :
    Outcome (Nat × tmpfs_file × tmpfs_mem) :=
  let end_ := (offset + size) % 2 ^ 64
  let start_block := offset / BLOCKSIZE
  let end_block := end_ / BLOCKSIZE
  let end_size := sub64 end_ (end_block * BLOCKSIZE % 2 ^ 64)
  let size_to_read := sub64 end_ offset
  if start_block = end_block then
    match tmpfs_file_getset_block t m start_block true with
    | Outcome.halt => Outcome.halt
    | Outcome.ret g =>
        Outcome.ret (size_to_read, g.2.1,
          memcpy_in g.2.2 (buf_frame g.1) (offset % BLOCKSIZE) buffer size_to_read)
  else
    match write_loop start_block offset buffer (end_block - start_block) start_block 0 t m with
    | Outcome.halt => Outcome.halt
    | Outcome.ret l =>
        if end_size ≠ 0 then
          match tmpfs_file_getset_block l.2.1 l.2.2 end_block true with
          | Outcome.halt => Outcome.halt
          | Outcome.ret g =>
              Outcome.ret (size_to_read, g.2.1,
                memcpy_in g.2.2 (buf_frame g.1) 0
                  (sub64 ((buffer + BLOCKSIZE * l.1) % 2 ^ 64) (offset % BLOCKSIZE))
                  end_size)
        else Outcome.ret (size_to_read, l.2.1, l.2.2)

/-- The function `write_tmpfs` on the file `node->device`; `now` is the value
of `now()`: the time stamps, the update of the length, then the blocks. -/
def write_tmpfs (now : Nat) (t : tmpfs_file) (m : tmpfs_mem) (offset size buffer : Nat) :
    Outcome (Nat × tmpfs_file × tmpfs_mem) :=
  let t0 : tmpfs_file := { t with atime := now, mtime := now }
  let t1 : tmpfs_file :=
    if (offset + size) % 2 ^ 64 > t0.length then { t0 with length := (offset + size) % 2 ^ 64 }
    else t0
  write_tmpfs_blocks t1 m offset size buffer

/-- The byte of the file at position `pos`: the byte at `pos % BLOCKSIZE` of
the frame of block `pos / BLOCKSIZE`. -/
def file_byte (t : tmpfs_file) (m : tmpfs_mem) (pos : Nat) : Nat :=
  m.frames (t.blocks (pos / BLOCKSIZE)) (pos % BLOCKSIZE)

/-- A memory for the evaluations: frame 0 holds the bytes 1, 2, 3, ... and the
memory of the caller holds at address `a` the byte `a % 251`. -/
def toy_mem : tmpfs_mem :=
  { frames := fun f j => if f = 0 then (j + 1) % 256 else 0
    user := fun a => a % 251
    frames_brk := 1 }

/-- A file of ten bytes in one block, backed by frame 0. -/
def toy_file : tmpfs_file :=
  { length := 10, pointers := 2, block_count := 1, blocks := fun _ => 0, atime := 0, mtime := 0 }
/-- The state of a file that the block functions keep: `pointers` is not zero,
`block_count` is a `size_t` value, and the blocks below `block_count` are backed
by distinct frames that the allocator has handed out. -/
def tmpfs_wf (t : tmpfs_file) (m : tmpfs_mem) : Prop :=
  1 ≤ t.pointers ∧ t.block_count < 2 ^ 64 ∧
  (∀ i, i < t.block_count → t.blocks i < m.frames_brk) ∧
  (∀ i j, i < t.block_count → j < t.block_count → t.blocks i = t.blocks j → i = j)

/-! ## kernel/vfs/procfs.c: the link `/proc/self` -/

/-- The stores of `memcpy(dst, src, n)`: byte `i` of the source goes to
address `dst + i`. -/
def memcpy_stores (dst : Nat) (src : List Nat) (n : Nat) : List (Nat × Nat) :=
  (List.range n).map (fun i => ((dst + i) % 2 ^ 64, src.getD i 0))

/-- The function `readlink_self`, the `readlink` hook of the node `/proc/self`,
for the `id` of `current_process`: the value it returns and the bytes it stores
through `buf`. The text is `snprintf(tmp, 100, "/proc/%d", id)` with its
terminator, so `req` is its length. -/
def readlink_self (id : pid_t) (buf size : Nat) : Int × List (Nat × Nat) :=
  let tmp := c_string ("/proc/" ++ toString id)
  let req := tmp.length
  if size < req then
    (to_int (sub64 size 1),
      memcpy_stores buf tmp size ++ [(sub64 ((buf + size) % 2 ^ 64) 1, 0)])
  else
    let size1 := if size > req then req else size
    (to_int (sub64 size1 1), memcpy_stores buf tmp size1)

/-- The environment `toy_ops` over a filesystem whose links are `/proc/self`:
`readlink_fs` runs `readlink_self` for the calling process. -/
def self_ops : kernel_ops toy_fs :=
  { toy_ops with
      readlink_fs := fun f c _ buf len =>
        ((readlink_self c.id buf (to_size_t len)).1,
          (readlink_self c.id buf (to_size_t len)).2, f) }

/-! # Theorems

## The gap scan and `process_append_fd` -/

theorem scan_gap_some (e : Nat → Nat) (n i k : Nat) (h : scan_gap e i n = some k) :
    i ≤ k ∧ k < i + n ∧ e k = 0 ∧ ∀ j, i ≤ j → j < k → e j ≠ 0 := by
  induction n generalizing i with
  | zero => simp [scan_gap] at h
  | succ n ih =>
    unfold scan_gap at h
    by_cases h0 : e i = 0
    · simp [h0] at h
      subst h
      exact ⟨le_refl _, by omega, h0, fun j h1 h2 => by omega⟩
    · simp [h0] at h
      obtain ⟨h1, h2, h3, h4⟩ := ih (i + 1) h
      refine ⟨by omega, by omega, h3, fun j hj hk => ?_⟩
      by_cases hji : j = i
      · subst hji; exact h0
      · exact h4 j (by omega) hk

theorem scan_gap_none (e : Nat → Nat) (n i : Nat) (h : scan_gap e i n = none) :
    ∀ j, i ≤ j → j < i + n → e j ≠ 0 := by
  induction n generalizing i with
  | zero => intro j h1 h2; omega
  | succ n ih =>
    unfold scan_gap at h
    by_cases h0 : e i = 0
    · simp [h0] at h
    · simp [h0] at h
      intro j h1 h2
      by_cases hji : j = i
      · subst hji; exact h0
      · exact ih (i + 1) h j (by omega) (by omega)

theorem scan_gap_none_iff_aux (t : fd_table_t) (h : scan_gap t.entries 0 t.length = none) :
    ∀ j, j < t.length → t.entries j ≠ 0 := by
  intro j hj
  exact scan_gap_none t.entries t.length 0 h j (Nat.zero_le _) (by omega)

/-- The index returned by `process_append_fd` on any table whose length is a
`size_t` value is unused, and every smaller index is used. -/
theorem append_index_least (t : fd_table_t) (node : Nat) (h : t.length < 2 ^ 64) :
    fd_unused t (process_append_fd t node).1 ∧
      ∀ j, j < (process_append_fd t node).1 → ¬ fd_unused t j := by
  unfold process_append_fd fd_unused
  cases hs : scan_gap t.entries 0 t.length with
  | some i =>
    obtain ⟨_, h2, h3, h4⟩ := scan_gap_some t.entries t.length 0 i hs
    simp only
    refine ⟨Or.inr h3, fun j hj => ?_⟩
    have := h4 j (Nat.zero_le _) hj
    intro hc
    rcases hc with hc | hc
    · omega
    · exact this hc
  | none =>
    have hn := scan_gap_none_iff_aux t hs
    simp only
    have e : ((t.length + 1) % 2 ^ 64 + (2 ^ 64 - 1)) % 2 ^ 64 = t.length := by omega
    rw [e]
    refine ⟨Or.inl (le_refl _), fun j hj hc => ?_⟩
    rcases hc with hc | hc
    · omega
    · exact hn j hj hc

theorem append_length_lt (t : fd_table_t) (node : Nat) (h : t.length < 2 ^ 64) :
    (process_append_fd t node).2.length < 2 ^ 64 := by
  unfold process_append_fd
  cases hs : scan_gap t.entries 0 t.length with
  | some i => simpa using h
  | none => simp only; omega

theorem fd_reachable_length_lt (t0 t : fd_table_t) (h0 : t0.length < 2 ^ 64)
    (hr : fd_reachable t0 t) : t.length < 2 ^ 64 := by
  induction hr with
  | start => exact h0
  | append t node _ ih => exact append_length_lt t node ih
  | close t i _ _ _ ih => simpa [fd_clear] using ih

/-- C1. On every table reached from a table `t0` (whose length is a `size_t`
value) by any sequence of `process_append_fd` calls and `sys_close`-style
removals, `process_append_fd` returns the smallest unused index: the index it
returns is at or past `length` or holds a null entry, and no smaller index is. -/
theorem process_append_fd_returns_least_unused (t0 t : fd_table_t) (node : Nat)
    (h0 : t0.length < 2 ^ 64) (hr : fd_reachable t0 t) :
    fd_unused t (process_append_fd t node).1 ∧
      ∀ j, j < (process_append_fd t node).1 → ¬ fd_unused t j :=
  append_index_least t node (fd_reachable_length_lt t0 t h0 hr)

/-- Witness for C1: from `_fake_fds`, append a node (index 3), close
descriptor 1, then append again: the hole at index 1 is the least unused. -/
theorem process_append_fd_returns_least_unused_witness :
    fd_unused (fd_clear (process_append_fd _fake_fds 7).2 1)
        (process_append_fd (fd_clear (process_append_fd _fake_fds 7).2 1) 9).1 ∧
      ∀ j, j < (process_append_fd (fd_clear (process_append_fd _fake_fds 7).2 1) 9).1 →
        ¬ fd_unused (fd_clear (process_append_fd _fake_fds 7).2 1) j :=
  process_append_fd_returns_least_unused _fake_fds
    (fd_clear (process_append_fd _fake_fds 7).2 1) 9 (by decide)
    (fd_reachable.close _ 1 (fd_reachable.append _ 7 fd_reachable.start) (by decide) (by decide))

/-- C2. For a table of fewer than `2^63` entries, `process_append_fd(proc, node)`
returning `i` leaves `entries[i] = node`, `modes[i] = 0`, `offsets[i] = 0` and
every other slot (and the reference count) unchanged; with a hole in the table
length and capacity are unchanged; with none, length grows by exactly one and
capacity is doubled exactly when length equalled capacity beforehand. -/
theorem process_append_fd_effect (t : fd_table_t) (node : Nat) (h : t.length < 2 ^ 63) :
    (process_append_fd t node).2.entries (process_append_fd t node).1 = node ∧
    (process_append_fd t node).2.modes (process_append_fd t node).1 = 0 ∧
    (process_append_fd t node).2.offsets (process_append_fd t node).1 = 0 ∧
    (∀ j, j ≠ (process_append_fd t node).1 →
      (process_append_fd t node).2.entries j = t.entries j ∧
      (process_append_fd t node).2.modes j = t.modes j ∧
      (process_append_fd t node).2.offsets j = t.offsets j) ∧
    (process_append_fd t node).2.refs = t.refs ∧
    ((∃ j, j < t.length ∧ t.entries j = 0) →
      (process_append_fd t node).2.length = t.length ∧
      (process_append_fd t node).2.capacity = t.capacity) ∧
    ((∀ j, j < t.length → t.entries j ≠ 0) →
      (process_append_fd t node).2.length = t.length + 1 ∧
      (process_append_fd t node).2.capacity =
        if t.length = t.capacity then 2 * t.capacity else t.capacity) := by
  unfold process_append_fd
  cases hs : scan_gap t.entries 0 t.length with
  | some i =>
    obtain ⟨_, h2, h3, _⟩ := scan_gap_some t.entries t.length 0 i hs
    simp only [Function.update_same, true_and]
    refine ⟨fun j hj => ?_, fun _ => trivial, fun hall => ?_⟩
    · simp [Function.update_noteq hj]
    · exact absurd h3 (hall i (by omega))
  | none =>
    have hn := scan_gap_none_iff_aux t hs
    have e : ((t.length + 1) % 2 ^ 64 + (2 ^ 64 - 1)) % 2 ^ 64 = t.length := by omega
    simp only
    rw [e]
    simp only [Function.update_same, true_and]
    refine ⟨fun j hj => ?_, fun hex => ?_, fun _ => ⟨by omega, ?_⟩⟩
    · simp [Function.update_noteq hj]
    · obtain ⟨j, hj, hj0⟩ := hex
      exact absurd hj0 (hn j hj)
    · by_cases hc : t.length = t.capacity
      · simp only [hc, if_true]; omega
      · simp only [hc, if_false]

/-- Witness for C2: appending to `_fake_fds`, which has no hole and spare capacity. -/
theorem process_append_fd_effect_witness :
    (process_append_fd _fake_fds 7).2.entries (process_append_fd _fake_fds 7).1 = 7 ∧
    (process_append_fd _fake_fds 7).2.modes (process_append_fd _fake_fds 7).1 = 0 ∧
    (process_append_fd _fake_fds 7).2.offsets (process_append_fd _fake_fds 7).1 = 0 ∧
    (∀ j, j ≠ (process_append_fd _fake_fds 7).1 →
      (process_append_fd _fake_fds 7).2.entries j = _fake_fds.entries j ∧
      (process_append_fd _fake_fds 7).2.modes j = _fake_fds.modes j ∧
      (process_append_fd _fake_fds 7).2.offsets j = _fake_fds.offsets j) ∧
    (process_append_fd _fake_fds 7).2.refs = _fake_fds.refs ∧
    ((∃ j, j < _fake_fds.length ∧ _fake_fds.entries j = 0) →
      (process_append_fd _fake_fds 7).2.length = _fake_fds.length ∧
      (process_append_fd _fake_fds 7).2.capacity = _fake_fds.capacity) ∧
    ((∀ j, j < _fake_fds.length → _fake_fds.entries j ≠ 0) →
      (process_append_fd _fake_fds 7).2.length = _fake_fds.length + 1 ∧
      (process_append_fd _fake_fds 7).2.capacity =
        if _fake_fds.length = _fake_fds.capacity then 2 * _fake_fds.capacity
        else _fake_fds.capacity) :=
  process_append_fd_effect _fake_fds 7 (by decide)

/-! ## Integer conversions and `process_move_fd` -/

theorem to_size_t_natCast (n : Nat) (h : n < 2 ^ 64) : to_size_t (n : Int) = n := by
  unfold to_size_t
  have : ((n : Int) % (2 ^ 64 : Int)) = (n : Int) := by
    apply Int.emod_eq_of_lt <;> omega
  rw [this]; simp

theorem to_size_t_of_nonneg (x : Int) (h0 : 0 ≤ x) (h : x < 2 ^ 64) :
    to_size_t x = x.toNat := by
  unfold to_size_t
  have : (x % (2 ^ 64 : Int)) = x := by
    apply Int.emod_eq_of_lt <;> omega
  rw [this]

theorem to_size_t_of_neg (x : Int) (h0 : x < 0) (h : -(2 ^ 63) ≤ x) :
    2 ^ 63 ≤ to_size_t x := by
  unfold to_size_t
  have : (x % (2 ^ 64 : Int)) = x + 2 ^ 64 := by
    have h1 : (x + 2 ^ 64) % (2 ^ 64 : Int) = x + 2 ^ 64 := by
      apply Int.emod_eq_of_lt <;> omega
    rw [← h1]; simp
  rw [this]; omega

theorem to_long_of_lt (n : Nat) (h : n < 2 ^ 63) : to_long n = (n : Int) := by
  unfold to_long
  have : n % 2 ^ 64 = n := Nat.mod_eq_of_lt (by omega)
  rw [this, if_pos h]

theorem append_fst (t : fd_table_t) (node : Nat) (h : t.length < 2 ^ 64) :
    (process_append_fd t node).1 = gap_index t := by
  unfold process_append_fd gap_index
  cases hs : scan_gap t.entries 0 t.length with
  | some i => simp
  | none => simp only [Option.getD_none]; omega

theorem gap_index_le (t : fd_table_t) : gap_index t ≤ t.length := by
  unfold gap_index
  cases hs : scan_gap t.entries 0 t.length with
  | some i =>
    obtain ⟨_, h2, _, _⟩ := scan_gap_some t.entries t.length 0 i hs
    simp only [Option.getD_some]; omega
  | none => simp

theorem gap_index_unused (t : fd_table_t) (j : Nat) (hj : j < t.length) (hn : t.entries j ≠ 0) :
    gap_index t ≠ j := by
  unfold gap_index
  cases hs : scan_gap t.entries 0 t.length with
  | some i =>
    obtain ⟨_, _, h3, _⟩ := scan_gap_some t.entries t.length 0 i hs
    simp only [Option.getD_some]
    intro h; subst h; exact hn h3
  | none => simp only [Option.getD_none]; omega

theorem append_snd (t : fd_table_t) (node : Nat) :
    (process_append_fd t node).2 =
      { (process_append_fd t 0).2 with
          entries := Function.update t.entries (gap_index t) node } := by
  unfold process_append_fd gap_index
  cases hs : scan_gap t.entries 0 t.length with
  | some i => simp
  | none => simp

theorem append_zero_fields (t : fd_table_t) :
    (process_append_fd t 0).2.entries = Function.update t.entries (gap_index t) 0 ∧
    (process_append_fd t 0).2.modes = Function.update t.modes (gap_index t) 0 ∧
    (process_append_fd t 0).2.offsets = Function.update t.offsets (gap_index t) 0 := by
  unfold process_append_fd gap_index
  cases hs : scan_gap t.entries 0 t.length with
  | some i => simp
  | none => simp

/-- C3, amended. For a table of fewer than `2^63` entries and every `src` below
`length` whose entry is not null, `process_move_fd(proc, src, -1)` returns the
same index and leaves the same table as `process_append_fd(proc, entries[src])`
followed by copying `modes[src]` and `offsets[src]` into the returned slot, and
the returned index differs from `src`. -/
theorem process_move_fd_new_slot {F : Type} (ops : kernel_ops F) (t : fd_table_t) (fs : F)
    (src : Nat) (h : t.length < 2 ^ 63) (hs : src < t.length) (hn : t.entries src ≠ 0) :
    (process_move_fd ops t fs (src : Int) (-1)).1 = ((move_as_append_spec t src).1 : Int) ∧
    (process_move_fd ops t fs (src : Int) (-1)).2.1 = (move_as_append_spec t src).2 ∧
    (process_move_fd ops t fs (src : Int) (-1)).1 ≠ (src : Int) := by
  have h64 : t.length < 2 ^ 64 := by omega
  have hsz : to_size_t (src : Int) = src := to_size_t_natCast src (by omega)
  have hg := gap_index_le t
  have hgs : gap_index t ≠ src := gap_index_unused t src hs hn
  have hl : to_long (gap_index t) = (gap_index t : Int) := to_long_of_lt _ (by omega)
  obtain ⟨he, hm, ho⟩ := append_zero_fields t
  have hguard : ¬ (t.length ≤ to_size_t (src : Int) ∨
      ((-1 : Int) ≠ -1 ∧ t.length ≤ to_size_t (-1))) := by
    rw [hsz]; intro hc; rcases hc with hc | hc
    · omega
    · exact hc.1 rfl
  have hne : (process_append_fd t 0).2.entries (gap_index t) ≠
      (process_append_fd t 0).2.entries src := by
    rw [he, Function.update_same, Function.update_noteq (Ne.symm hgs)]
    exact Ne.symm hn
  unfold process_move_fd move_as_append_spec
  rw [if_neg hguard]
  simp only [if_true, append_fst t _ h64, hl, idx, Int.toNat_ofNat, if_pos hne]
  refine ⟨trivial, ?_, ?_⟩
  · rw [append_snd t (t.entries src)]
    simp only [he, hm, ho, Function.update_noteq (Ne.symm hgs), Function.update_idem]
  · intro hc; exact hgs (by exact_mod_cast hc)

/-- Witness for C3, amended: duplicating descriptor 1 of `_fake_fds`. -/
theorem process_move_fd_new_slot_witness :
    (process_move_fd unit_ops _fake_fds () ((1 : Nat) : Int) (-1)).1
      = ((move_as_append_spec _fake_fds 1).1 : Int) ∧
    (process_move_fd unit_ops _fake_fds () ((1 : Nat) : Int) (-1)).2.1
      = (move_as_append_spec _fake_fds 1).2 ∧
    (process_move_fd unit_ops _fake_fds () ((1 : Nat) : Int) (-1)).1 ≠ ((1 : Nat) : Int) :=
  process_move_fd_new_slot unit_ops _fake_fds () 1 (by decide) (by decide) (by decide)

/-- C3, counterexample. On a table whose slot 1 is a hole,
`process_move_fd(proc, 1, -1)` returns 1, the source index itself. -/
theorem process_move_fd_new_slot_counterexample :
    ¬ ((process_move_fd unit_ops hole_table () 1 (-1)).1
          = ((move_as_append_spec hole_table 1).1 : Int) ∧
       (process_move_fd unit_ops hole_table () 1 (-1)).2.1
          = (move_as_append_spec hole_table 1).2 ∧
       (process_move_fd unit_ops hole_table () 1 (-1)).1 ≠ 1) := by
  intro h
  exact h.2.2 (by decide)

theorem to_size_t_out_of_range (n : Nat) (x : Int) (hn : n ≤ 2 ^ 63)
    (hx : -(2 ^ 63) ≤ x ∧ x < 2 ^ 63) (hout : x < 0 ∨ (n : Int) ≤ x) : n ≤ to_size_t x := by
  rcases hout with h | h
  · have := to_size_t_of_neg x h hx.1
    omega
  · have h0 : 0 ≤ x := by omega
    rw [to_size_t_of_nonneg x h0 (by omega)]
    omega

theorem to_size_t_in_range (n : Nat) (x : Int) (hn : n ≤ 2 ^ 63)
    (h0 : 0 ≤ x) (h1 : x < (n : Int)) : to_size_t x < n := by
  rw [to_size_t_of_nonneg x h0 (by omega)]
  omega

/-- C4. For a table of at most `2^63` entries, `long` arguments and `dest`
other than -1: `process_move_fd(proc, src, dest)` returns -1 and changes
nothing when `src` or `dest` is negative or at or past `length`; otherwise it
returns `dest`, changes nothing if `entries[src]` and `entries[dest]` are the
same node, and otherwise leaves in slot `dest` the node, mode and offset of
slot `src` with every other slot, the length, the capacity and the reference
count unchanged. -/
theorem process_move_fd_dup2 {F : Type} (ops : kernel_ops F) (t : fd_table_t) (fs : F)
    (src dest : Int) (hl : t.length ≤ 2 ^ 63)
    (hs : -(2 ^ 63) ≤ src ∧ src < 2 ^ 63) (hd : -(2 ^ 63) ≤ dest ∧ dest < 2 ^ 63)
    (hne : dest ≠ -1) :
    ((src < 0 ∨ (t.length : Int) ≤ src ∨ dest < 0 ∨ (t.length : Int) ≤ dest) →
      process_move_fd ops t fs src dest = (-1, t, fs)) ∧
    ((0 ≤ src ∧ src < (t.length : Int) ∧ 0 ≤ dest ∧ dest < (t.length : Int)) →
      (process_move_fd ops t fs src dest).1 = dest ∧
      (t.entries (idx src) = t.entries (idx dest) →
        (process_move_fd ops t fs src dest).2 = (t, fs)) ∧
      (t.entries (idx src) ≠ t.entries (idx dest) →
        (process_move_fd ops t fs src dest).2.1.entries (idx dest) = t.entries (idx src) ∧
        (process_move_fd ops t fs src dest).2.1.modes (idx dest) = t.modes (idx src) ∧
        (process_move_fd ops t fs src dest).2.1.offsets (idx dest) = t.offsets (idx src) ∧
        (∀ j, j ≠ idx dest →
          (process_move_fd ops t fs src dest).2.1.entries j = t.entries j ∧
          (process_move_fd ops t fs src dest).2.1.modes j = t.modes j ∧
          (process_move_fd ops t fs src dest).2.1.offsets j = t.offsets j) ∧
        (process_move_fd ops t fs src dest).2.1.length = t.length ∧
        (process_move_fd ops t fs src dest).2.1.capacity = t.capacity ∧
        (process_move_fd ops t fs src dest).2.1.refs = t.refs)) := by
  constructor
  · intro hout
    have hg : t.length ≤ to_size_t src ∨ (dest ≠ -1 ∧ t.length ≤ to_size_t dest) := by
      rcases hout with h | h | h | h
      · exact Or.inl (to_size_t_out_of_range _ _ hl hs (Or.inl h))
      · exact Or.inl (to_size_t_out_of_range _ _ hl hs (Or.inr h))
      · exact Or.inr ⟨hne, to_size_t_out_of_range _ _ hl hd (Or.inl h)⟩
      · exact Or.inr ⟨hne, to_size_t_out_of_range _ _ hl hd (Or.inr h)⟩
    unfold process_move_fd
    rw [if_pos hg]
  · rintro ⟨hs0, hs1, hd0, hd1⟩
    have hg : ¬ (t.length ≤ to_size_t src ∨ (dest ≠ -1 ∧ t.length ≤ to_size_t dest)) := by
      have h1 := to_size_t_in_range _ _ hl hs0 hs1
      have h2 := to_size_t_in_range _ _ hl hd0 hd1
      intro hc
      rcases hc with hc | hc
      · omega
      · omega
    unfold process_move_fd
    rw [if_neg hg]
    simp only [if_neg hne]
    by_cases heq : t.entries (idx dest) = t.entries (idx src)
    · simp only [heq, ne_eq, not_true_eq_false, if_false, true_and]
      refine ⟨fun _ => trivial, fun hc => hc.elim⟩
    · rw [if_pos heq]
      simp only [Function.update_same, true_and]
      refine ⟨fun hc => absurd hc.symm heq, fun _ => ⟨fun j hj => ?_, trivial⟩⟩
      simp [Function.update_noteq hj]

/-- Witness for C4: `process_move_fd(proc, 0, 1)` on a table whose slot 1 is a
hole; slot 1 receives the node of slot 0. -/
theorem process_move_fd_dup2_witness :
    (process_move_fd unit_ops hole_table () 0 1).1 = 1 ∧
      (process_move_fd unit_ops hole_table () 0 1).2.1.entries (idx 1)
        = hole_table.entries (idx 0) :=
  ⟨((process_move_fd_dup2 unit_ops hole_table () 0 1 (by decide) (by decide) (by decide)
      (by decide)).2 (by decide)).1,
   (((process_move_fd_dup2 unit_ops hole_table () 0 1 (by decide) (by decide) (by decide)
      (by decide)).2 (by decide)).2.2 (by decide)).1⟩

/-! ## `get_next_pid` and `spawn_process` -/

theorem spawn_copy_fds_spec {F : Type} (ops : kernel_ops F) (pt : fd_table_t)
    (hlen : pt.length < 2 ^ 32) :
    ∀ (fuel i : Nat) (ct : fd_table_t) (fs : F), i ≤ pt.length → pt.length - i < fuel →
      ∃ ct' fs', spawn_copy_fds ops pt fuel i ct fs = some (ct', fs') ∧
        ct'.length = ct.length ∧ ct'.capacity = ct.capacity ∧ ct'.refs = ct.refs ∧
        (∀ j, i ≤ j → j < pt.length →
          ct'.modes j = pt.modes j ∧ ct'.offsets j = pt.offsets j) ∧
        (∀ j, j < i →
          ct'.entries j = ct.entries j ∧ ct'.modes j = ct.modes j ∧
          ct'.offsets j = ct.offsets j) := by
  intro fuel
  induction fuel with
  | zero => intro i ct fs _ h; omega
  | succ fuel ih =>
    intro i ct fs hi hf
    unfold spawn_copy_fds
    by_cases hlt : i < pt.length
    · rw [if_pos hlt]
      have hmod : (i + 1) % 2 ^ 32 = i + 1 := Nat.mod_eq_of_lt (by omega)
      rw [hmod]
      obtain ⟨ct', fs', h1, h2, h3, h4, h5, h6⟩ :=
        ih (i + 1)
          { ct with
              entries := Function.update ct.entries i (ops.clone_fs fs (pt.entries i)).1
              modes := Function.update ct.modes i (pt.modes i)
              offsets := Function.update ct.offsets i (pt.offsets i) }
          (ops.clone_fs fs (pt.entries i)).2 (by omega) (by omega)
      refine ⟨ct', fs', h1, h2, h3, h4, fun j hj1 hj2 => ?_, fun j hj => ?_⟩
      · by_cases hji : j = i
        · subst hji
          have := h6 j (by omega)
          simp only [Function.update_same] at this
          exact ⟨this.2.1, this.2.2⟩
        · exact h5 j (by omega) hj2
      · have := h6 j (by omega)
        have hne : j ≠ i := by omega
        simpa [Function.update_noteq hne] using this
    · rw [if_neg hlt]
      exact ⟨ct, fs, rfl, rfl, rfl, rfl, fun j h1 h2 => by omega, fun j _ => ⟨rfl, rfl, rfl⟩⟩

/-- C7. When the parent record is a live one and, for a spawn without
`PROC_REUSE_FDS`, the parent's table is a live table of fewer than `2^32`
entries, `spawn_process(parent, flags)` returns a record whose id is the value
of `get_next_pid`, whose group equals its id, and whose user, real_user, mask,
job and session are the parent's; without `PROC_REUSE_FDS` its descriptor table
is a new table with `refs = 1` whose length, capacity and, below length, modes
and offsets are the parent's. -/
theorem spawn_process_record {F : Type} (ops : kernel_ops F) (fuel : Nat) (s : kstate F)
    (parent : Nat) (flags : Int) (hp : parent < s.procs_brk)
    (hcopy : Int.land flags PROC_REUSE_FDS = 0 →
      (s.procs parent).fds < s.tables_brk ∧
      (s.tables (s.procs parent).fds).length < 2 ^ 32 ∧
      (s.tables (s.procs parent).fds).length < fuel) :
    ∃ c s', spawn_process ops fuel s parent flags = some (c, s') ∧
      (s'.procs c).id = (get_next_pid s).1 ∧
      (s'.procs c).group = (s'.procs c).id ∧
      (s'.procs c).user = (s.procs parent).user ∧
      (s'.procs c).real_user = (s.procs parent).real_user ∧
      (s'.procs c).mask = (s.procs parent).mask ∧
      (s'.procs c).job = (s.procs parent).job ∧
      (s'.procs c).session = (s.procs parent).session ∧
      (Int.land flags PROC_REUSE_FDS = 0 →
        (s'.procs c).fds = s.tables_brk ∧
        (s'.procs c).fds ≠ (s.procs parent).fds ∧
        (s'.tables (s'.procs c).fds).refs = 1 ∧
        (s'.tables (s'.procs c).fds).length = (s.tables (s.procs parent).fds).length ∧
        (s'.tables (s'.procs c).fds).capacity = (s.tables (s.procs parent).fds).capacity ∧
        ∀ i, i < (s.tables (s.procs parent).fds).length →
          (s'.tables (s'.procs c).fds).modes i = (s.tables (s.procs parent).fds).modes i ∧
          (s'.tables (s'.procs c).fds).offsets i
            = (s.tables (s.procs parent).fds).offsets i) := by
  have hpar : parent ≠ s.procs_brk := by omega
  unfold spawn_process
  simp only [calloc_process, get_next_pid, malloc_table, Function.update_noteq hpar]
  by_cases hflag : Int.land flags PROC_REUSE_FDS = 0
  · obtain ⟨ht, hlen, hfuel⟩ := hcopy hflag
    have htne : (s.procs parent).fds ≠ s.tables_brk := by omega
    simp only [hflag, ne_eq, not_true_eq_false, if_false, Function.update_noteq htne,
      Function.update_same]
    obtain ⟨ct', fs', h1, h2, h3, h4, h5, _⟩ :=
      spawn_copy_fds_spec ops (s.tables (s.procs parent).fds) hlen fuel 0
        { entries := fun _ => 0, offsets := fun _ => 0, modes := fun _ => 0,
          length := (s.tables (s.procs parent).fds).length,
          capacity := (s.tables (s.procs parent).fds).capacity, refs := 1 }
        (ops.valloc s.fs KERNEL_STACK_SIZE).2 (Nat.zero_le _) (by omega)
    rw [h1]
    refine ⟨_, _, rfl, ?_⟩
    simp only [Function.update_same, true_and]
    intro _
    rw [Function.update_same]
    simp only [Function.update_same]
    refine ⟨fun hc => by omega, h4, h2, h3, fun i hi => h5 i (Nat.zero_le _) hi⟩
  · simp only [hflag, ne_eq, not_false_eq_true, if_true]
    refine ⟨_, _, rfl, ?_⟩
    simp only [Function.update_same, true_and]
    intro hc
    exact hc.elim

/-- Witness for C7: a copying spawn from the boot state. -/
theorem spawn_process_record_witness :
    ∃ (c : Nat) (s' : kstate Unit), spawn_process unit_ops 4 boot_state 0 0 = some (c, s') ∧
      (s'.procs c).id = (get_next_pid boot_state).1 ∧
      (s'.procs c).group = (s'.procs c).id ∧
      (s'.tables (s'.procs c).fds).refs = 1 ∧
      (s'.tables (s'.procs c).fds).length = (boot_state.tables (boot_state.procs 0).fds).length := by
  obtain ⟨c, s', h⟩ := spawn_process_record unit_ops 4 boot_state 0 0 (by decide)
    (fun _ => ⟨by decide, by decide, by decide⟩)
  exact ⟨c, s', h.1, h.2.1, h.2.2.1, (h.2.2.2.2.2.2.2.2 (by decide)).2.2.1,
    (h.2.2.2.2.2.2.2.2 (by decide)).2.2.2.1⟩

/-! ## Sharing and isolation of descriptor tables -/

theorem step_op_frame {F : Type} (ops : kernel_ops F) (s : kstate F) (w : Nat × fd_op) :
    (step_op ops s w).procs = s.procs ∧
      ∀ a, a ≠ (s.procs w.1).fds → (step_op ops s w).tables a = s.tables a := by
  obtain ⟨who, op⟩ := w
  cases op with
  | append node =>
    simp only [step_op, do_op, Kernel.process_append_fd, true_and]
    intro a ha
    exact Function.update_noteq ha _ _
  | move src dest =>
    simp only [step_op, do_op, Kernel.process_move_fd, true_and]
    intro a ha
    exact Function.update_noteq ha _ _
  | close fd =>
    simp only [step_op, do_op, sys_close]
    split_ifs
    · simp only [set_FD_ENTRY, set_cur_table, cur_fds, true_and]
      intro a ha
      exact Function.update_noteq ha _ _
    · exact ⟨rfl, fun _ _ => rfl⟩
  | seek fd offset whence =>
    simp only [step_op, do_op, sys_seek]
    split_ifs <;>
      first
        | exact ⟨rfl, fun _ _ => rfl⟩
        | (simp only [set_FD_OFFSET, set_cur_table, cur_fds, true_and]
           intro a ha
           exact Function.update_noteq ha _ _)
  | read fd ptr len =>
    simp only [step_op, do_op, sys_read]
    cases ptr_validate { s with current_process := who } ptr <;>
      split_ifs <;>
      first
        | exact ⟨rfl, fun _ _ => rfl⟩
        | (simp only [set_FD_OFFSET, set_cur_table, cur_fds, true_and]
           intro a ha
           exact Function.update_noteq ha _ _)
  | write fd ptr len =>
    simp only [step_op, do_op, sys_write]
    cases ptr_validate { s with current_process := who } ptr <;>
      split_ifs <;>
      first
        | exact ⟨rfl, fun _ _ => rfl⟩
        | (simp only [set_FD_OFFSET, set_cur_table, cur_fds, true_and]
           intro a ha
           exact Function.update_noteq ha _ _)

theorem run_ops_procs {F : Type} (ops : kernel_ops F) (l : List (Nat × fd_op)) :
    ∀ s : kstate F, (run_ops ops s l).procs = s.procs := by
  induction l with
  | nil => intro s; rfl
  | cons w l ih =>
    intro s
    show (run_ops ops (step_op ops s w) l).procs = s.procs
    rw [ih, (step_op_frame ops s w).1]

theorem run_ops_frame {F : Type} (ops : kernel_ops F) (a : Nat) (l : List (Nat × fd_op)) :
    ∀ s : kstate F, (∀ w, w ∈ l → (s.procs w.1).fds ≠ a) →
      (run_ops ops s l).tables a = s.tables a := by
  induction l with
  | nil => intro s _; rfl
  | cons w l ih =>
    intro s h
    show (run_ops ops (step_op ops s w) l).tables a = s.tables a
    have hf := step_op_frame ops s w
    rw [ih (step_op ops s w) (fun v hv => by rw [hf.1]; exact h v (List.mem_cons_of_mem _ hv))]
    exact hf.2 a (Ne.symm (h w (List.mem_cons_self _ _)))

/-- C6. When `spawn_process` is called without `PROC_REUSE_FDS` on a live
parent whose table is a live table of fewer than `2^32` entries, it returns a
child, and after every sequence of `process_append_fd`, `process_move_fd`,
`sys_close`, `sys_seek`, `sys_read` and `sys_write` performed by the child the
parent still points to its table and that table (entries, modes, offsets,
length, capacity and reference count) is the one it was before the spawn. -/
theorem spawn_without_reuse_isolated {F : Type} (ops : kernel_ops F) (fuel : Nat)
    (s : kstate F) (parent : Nat) (flags : Int)
    (hflag : Int.land flags PROC_REUSE_FDS = 0) (hp : parent < s.procs_brk)
    (ht : (s.procs parent).fds < s.tables_brk)
    (hlen : (s.tables (s.procs parent).fds).length < 2 ^ 32)
    (hfuel : (s.tables (s.procs parent).fds).length < fuel) :
    ∃ c s', spawn_process ops fuel s parent flags = some (c, s') ∧
      ∀ l : List fd_op,
        ((run_ops ops s' (l.map (fun o => (c, o)))).procs parent).fds = (s.procs parent).fds ∧
        (run_ops ops s' (l.map (fun o => (c, o)))).tables (s.procs parent).fds
          = s.tables (s.procs parent).fds := by
  have hpar : parent ≠ s.procs_brk := by omega
  have htne : (s.procs parent).fds ≠ s.tables_brk := by omega
  obtain ⟨ct', fs', h1, -⟩ :=
    spawn_copy_fds_spec ops (s.tables (s.procs parent).fds) hlen fuel 0
      { entries := fun _ => 0, offsets := fun _ => 0, modes := fun _ => 0,
        length := (s.tables (s.procs parent).fds).length,
        capacity := (s.tables (s.procs parent).fds).capacity, refs := 1 }
      (ops.valloc s.fs KERNEL_STACK_SIZE).2 (Nat.zero_le _) (by omega)
  unfold spawn_process
  simp only [calloc_process, get_next_pid, malloc_table, Function.update_noteq hpar,
    hflag, ne_eq, not_true_eq_false, if_false, Function.update_noteq htne,
    Function.update_same]
  rw [h1]
  refine ⟨_, _, rfl, fun l => ?_⟩
  rw [run_ops_procs]
  simp only [Function.update_noteq hpar]
  refine ⟨trivial, ?_⟩
  rw [run_ops_frame]
  · simp only [Function.update_noteq htne]
  · intro w hw
    obtain ⟨o, _, rfl⟩ := List.mem_map.1 hw
    simp only [Function.update_same]
    exact Ne.symm htne

/-- Witness for C6: a copying spawn from the boot state, after which the child
closes descriptor 0, appends a node and writes ten bytes through descriptor 1. -/
theorem spawn_without_reuse_isolated_witness :
    ∃ (c : Nat) (s' : kstate Unit), spawn_process unit_ops 4 boot_state 0 0 = some (c, s') ∧
      (run_ops unit_ops s'
          ([fd_op.close 0, fd_op.append 9, fd_op.write 1 0x2000 10].map
            (fun o => (c, o)))).tables (boot_state.procs 0).fds
        = boot_state.tables (boot_state.procs 0).fds := by
  obtain ⟨c, s', h1, h2⟩ := spawn_without_reuse_isolated unit_ops 4 boot_state 0 0
    (by decide) (by decide) (by decide) (by decide) (by decide)
  exact ⟨c, s', h1, (h2 _).2⟩

theorem shared_after_run {F : Type} (ops : kernel_ops F) (s : kstate F) (c parent : Nat)
    (h : (s.procs c).fds = (s.procs parent).fds) (l : List (Nat × fd_op)) :
    ((run_ops ops s l).procs c).fds = ((run_ops ops s l).procs parent).fds ∧
    ∀ fd : Int,
      FD_ENTRY { run_ops ops s l with current_process := c } fd
        = FD_ENTRY { run_ops ops s l with current_process := parent } fd ∧
      FD_MODE { run_ops ops s l with current_process := c } fd
        = FD_MODE { run_ops ops s l with current_process := parent } fd ∧
      FD_OFFSET { run_ops ops s l with current_process := c } fd
        = FD_OFFSET { run_ops ops s l with current_process := parent } fd := by
  have hr : ((run_ops ops s l).procs c).fds = ((run_ops ops s l).procs parent).fds := by
    rw [run_ops_procs]; exact h
  refine ⟨hr, fun fd => ?_⟩
  simp only [FD_ENTRY, FD_MODE, FD_OFFSET, cur_table, cur_fds, hr, and_self]

/-- C5. When `spawn_process` is called with `PROC_REUSE_FDS` on a live parent,
the child's `fds` is the parent's table object and that table differs from
before only in its reference count, which is one higher; and after every
sequence of `process_append_fd`, `process_move_fd`, `sys_close`, `sys_seek`,
`sys_read` and `sys_write` by either process, both still point to one table, so
each observes the same node, mode and offset at every descriptor. -/
theorem spawn_reuse_shares {F : Type} (ops : kernel_ops F) (fuel : Nat)
    (s : kstate F) (parent : Nat) (flags : Int)
    (hflag : Int.land flags PROC_REUSE_FDS ≠ 0) (hp : parent < s.procs_brk)
    (hrefs : (s.tables (s.procs parent).fds).refs + 1 < 2 ^ 64) :
    ∃ c s', spawn_process ops fuel s parent flags = some (c, s') ∧
      (s'.procs c).fds = (s.procs parent).fds ∧
      (s'.procs parent).fds = (s.procs parent).fds ∧
      s'.tables (s.procs parent).fds =
        { s.tables (s.procs parent).fds with
            refs := (s.tables (s.procs parent).fds).refs + 1 } ∧
      ∀ l : List (Nat × fd_op),
        ((run_ops ops s' l).procs c).fds = ((run_ops ops s' l).procs parent).fds ∧
        ∀ fd : Int,
          FD_ENTRY { run_ops ops s' l with current_process := c } fd
            = FD_ENTRY { run_ops ops s' l with current_process := parent } fd ∧
          FD_MODE { run_ops ops s' l with current_process := c } fd
            = FD_MODE { run_ops ops s' l with current_process := parent } fd ∧
          FD_OFFSET { run_ops ops s' l with current_process := c } fd
            = FD_OFFSET { run_ops ops s' l with current_process := parent } fd := by
  have hpar : parent ≠ s.procs_brk := by omega
  have hm : ((s.tables (s.procs parent).fds).refs + 1) % 2 ^ 64
      = (s.tables (s.procs parent).fds).refs + 1 := Nat.mod_eq_of_lt hrefs
  unfold spawn_process
  simp only [calloc_process, get_next_pid, Function.update_noteq hpar, hflag, ne_eq,
    not_false_eq_true, if_true, hm]
  refine ⟨_, _, rfl, ?_, ?_, ?_, fun l => shared_after_run ops _ _ _ ?_ l⟩
  · simp only [Function.update_same]
  · simp only [Function.update_noteq hpar]
  · simp only [Function.update_same]
  · simp only [Function.update_same, Function.update_noteq hpar]

/-- Witness for C5: a sharing spawn from the boot state, after which the child
runs `process_move_fd(proc, 0, 2)` and the parent writes ten bytes through
descriptor 1. -/
theorem spawn_reuse_shares_witness :
    ∃ (c : Nat) (s' : kstate Unit), spawn_process unit_ops 0 boot_state 0 1 = some (c, s') ∧
      (s'.procs c).fds = (boot_state.procs 0).fds ∧
      (s'.tables (boot_state.procs 0).fds).refs = 2 ∧
      FD_OFFSET { run_ops unit_ops s' [(c, fd_op.move 0 2), (0, fd_op.write 1 0x2000 10)]
                    with current_process := c } 1
        = FD_OFFSET { run_ops unit_ops s' [(c, fd_op.move 0 2), (0, fd_op.write 1 0x2000 10)]
                        with current_process := 0 } 1 := by
  obtain ⟨c, s', h1, h2, _, h4, h5⟩ := spawn_reuse_shares unit_ops 0 boot_state 0 1
    (by decide) (by decide) (by decide)
  refine ⟨c, s', h1, h2, ?_, ((h5 _).2 1).2.2⟩
  rw [h4]
  decide

/-! ## The descriptor and pointer guards -/

theorem to_int_le (n : Nat) : to_int n ≤ (n : Int) := by
  unfold to_int
  have h := Nat.mod_le n (2 ^ 32)
  split_ifs <;> omega

theorem FD_CHECK_false {F : Type} (s : kstate F) (fd : Int)
    (h : ¬ (0 ≤ fd ∧ fd < ((cur_table s).length : Int)) ∨ FD_ENTRY s fd = 0) :
    ¬ FD_CHECK s fd := by
  rintro ⟨⟨h1, h2⟩, h3⟩
  rcases h with h | h
  · have := to_int_le (cur_table s).length
    exact h ⟨h2, by omega⟩
  · exact h3 h

/-- C9. For every `fd` that is outside `[0, fds.length)` or whose table entry is
null, each of `sys_read`, `sys_write`, `sys_close`, `sys_seek`, `sys_ioctl`,
`sys_readdir` and, when `ptr_validate` accepts the stat pointer, `sys_stat`
returns `-EBADF` and leaves the whole kernel state, the process record and its
descriptor table included, unchanged. -/
theorem bad_descriptor_rejected {F : Type} (ops : kernel_ops F) (s : kstate F) (fd : Int)
    (h : ¬ (0 ≤ fd ∧ fd < ((cur_table s).length : Int)) ∨ FD_ENTRY s fd = 0) :
    (∀ ptr len, sys_read ops s fd ptr len = Outcome.ret (-EBADF, s)) ∧
    (∀ ptr len, sys_write ops s fd ptr len = Outcome.ret (-EBADF, s)) ∧
    sys_close ops s fd = Outcome.ret (-EBADF, s) ∧
    (∀ offset whence, sys_seek ops s fd offset whence = Outcome.ret (-EBADF, s)) ∧
    (∀ request argp, sys_ioctl ops s fd request argp = Outcome.ret (-EBADF, s)) ∧
    (∀ index entry, sys_readdir ops s fd index entry = Outcome.ret (-EBADF, s)) ∧
    (∀ st, ptr_validate s st = Outcome.ret () →
      sys_stat ops s fd st = Outcome.ret (-EBADF, s)) := by
  have hc := FD_CHECK_false s fd h
  refine ⟨?_, ?_, ?_, ?_, ?_, ?_, ?_⟩
  · intro ptr len; unfold sys_read; rw [if_neg hc]
  · intro ptr len; unfold sys_write; rw [if_neg hc]
  · unfold sys_close; rw [if_neg hc]
  · intro offset whence; unfold sys_seek; rw [if_neg hc]
  · intro request argp; unfold sys_ioctl; rw [if_neg hc]
  · intro index entry; unfold sys_readdir; rw [if_neg hc]
  · intro st hst; unfold sys_stat; rw [hst]; simp only; rw [if_neg hc]

/-- Witness for C9: descriptor 3 of the boot process, whose table has length 3. -/
theorem bad_descriptor_rejected_witness :
    sys_close unit_ops boot_state 3 = Outcome.ret (-EBADF, boot_state) ∧
    sys_write unit_ops boot_state 3 0x2000 10 = Outcome.ret (-EBADF, boot_state) ∧
    sys_stat unit_ops boot_state 3 0x2000 = Outcome.ret (-EBADF, boot_state) :=
  ⟨(bad_descriptor_rejected unit_ops boot_state 3 (Or.inl (by decide))).2.2.1,
   (bad_descriptor_rejected unit_ops boot_state 3 (Or.inl (by decide))).2.1 0x2000 10,
   (bad_descriptor_rejected unit_ops boot_state 3 (Or.inl (by decide))).2.2.2.2.2.2 0x2000
     (by rfl)⟩

/-- C10, amended. `ptr_validate` halts the kernel exactly for the pointers that
are not null and not strictly between the calling process's `image.entry` and
`0x8000000000000000`; it returns for the null pointer and for every pointer
strictly inside that window. -/
theorem ptr_validate_halts_iff {F : Type} (s : kstate F) (ptr : Nat) :
    (ptr_validate s ptr = Outcome.halt ↔
      (ptr ≠ 0 ∧ ¬ ((s.procs s.current_process).image.entry < ptr ∧
        ptr < 0x8000000000000000))) ∧
    (ptr_validate s ptr = Outcome.ret () ↔
      (ptr = 0 ∨ ((s.procs s.current_process).image.entry < ptr ∧
        ptr < 0x8000000000000000))) := by
  unfold ptr_validate
  by_cases h0 : ptr = 0
  · simp [h0]
  · by_cases hr : (s.procs s.current_process).image.entry < ptr ∧ ptr < 0x8000000000000000
    · simp [h0, hr]
    · simp [h0, hr]

/-- C10, counterexample. The null pointer is not strictly above `image.entry`,
yet `ptr_validate` returns for it instead of halting. -/
theorem ptr_validate_null_counterexample :
    ¬ (¬ ((boot_state.procs boot_state.current_process).image.entry < 0 ∧
          (0 : Nat) < 0x8000000000000000) →
        ptr_validate boot_state 0 = Outcome.halt) := by
  intro h
  have h1 : ptr_validate boot_state 0 = Outcome.halt := h (by decide)
  have h2 : ptr_validate boot_state 0 = Outcome.ret () := by rfl
  rw [h2] at h1
  exact Outcome.noConfusion h1

/-! ## The dispatcher and the identity handlers -/

/-- C12. For every register state whose system call number is at or above
`num_syscalls`, `syscall_handler` stores `-EINVAL` in `rax`, leaves the other
registers and the whole kernel state (the `syscall_registers` field of the
caller included) unchanged, and no collaborator is called. -/
theorem syscall_handler_out_of_range {F : Type} (abi : syscall_abi) (ops : kernel_ops F)
    (s : kstate F) (rp : Nat) (r : regs) (h : num_syscalls abi ≤ arch_syscall_number r) :
    syscall_handler abi ops s rp r = Outcome.ret (arch_syscall_return r (-EINVAL), s) ∧
    (arch_syscall_return r (-EINVAL)).rax = to_size_t (-EINVAL) ∧
    (arch_syscall_return r (-EINVAL)).rbx = r.rbx ∧
    (arch_syscall_return r (-EINVAL)).rcx = r.rcx ∧
    (arch_syscall_return r (-EINVAL)).rdx = r.rdx ∧
    (arch_syscall_return r (-EINVAL)).rsi = r.rsi ∧
    (arch_syscall_return r (-EINVAL)).rdi = r.rdi ∧
    syscall_handler abi (log_ops ops) (logged s) rp r
      = Outcome.ret (arch_syscall_return r (-EINVAL), logged s) := by
  refine ⟨?_, rfl, rfl, rfl, rfl, rfl, rfl, ?_⟩
  · unfold syscall_handler
    rw [if_pos h]
  · unfold syscall_handler
    rw [if_pos h]

set_option maxRecDepth 20000 in
/-- Witness for C12: call number 55 under a numbering whose largest number is 54. -/
theorem syscall_handler_out_of_range_witness :
    syscall_handler toy_abi toy_ops toy_state 0x9000 ⟨55, 1, 2, 3, 4, 5⟩
        = Outcome.ret (arch_syscall_return ⟨55, 1, 2, 3, 4, 5⟩ (-EINVAL), toy_state) ∧
      (arch_syscall_return ⟨55, 1, 2, 3, 4, 5⟩ (-EINVAL)).rax = 2 ^ 64 - 22 :=
  ⟨(syscall_handler_out_of_range toy_abi toy_ops toy_state 0x9000 ⟨55, 1, 2, 3, 4, 5⟩
      (by decide)).1, by decide⟩

/-- C14. `sys_setuid(new_uid)` returns 0 exactly when the caller's effective
user is `USER_ROOT_UID`, whatever its real user is, and then sets both `user`
and `real_user` of the caller to `new_uid` and changes nothing else; for every
other caller it returns `-EPERM` and changes nothing. -/
theorem sys_setuid_spec {F : Type} (s : kstate F) (new_uid : Nat) :
    ((cur_proc s).user = USER_ROOT_UID →
      sys_setuid s new_uid =
        Outcome.ret (0, set_cur_proc s
          { cur_proc s with user := new_uid, real_user := new_uid })) ∧
    ((cur_proc s).user ≠ USER_ROOT_UID → sys_setuid s new_uid = Outcome.ret (-EPERM, s)) ∧
    ((sys_setuid s new_uid).returns (fun r => r.1 = 0) ↔ (cur_proc s).user = USER_ROOT_UID) ∧
    (sys_setuid s new_uid).returns (fun r =>
      (r.1 = 0 → (cur_proc r.2).user = new_uid ∧ (cur_proc r.2).real_user = new_uid) ∧
      (r.1 ≠ 0 → r.1 = -EPERM ∧ (cur_proc r.2).user = (cur_proc s).user ∧
        (cur_proc r.2).real_user = (cur_proc s).real_user)) := by
  unfold sys_setuid
  by_cases h : (cur_proc s).user = USER_ROOT_UID
  · rw [if_pos h]
    refine ⟨fun _ => rfl, fun hn => absurd h hn, ⟨fun _ => h, fun _ => rfl⟩, ?_⟩
    show (_ → _) ∧ (_ → _)
    refine ⟨fun _ => ?_, fun hn => absurd rfl hn⟩
    simp only [cur_proc, set_cur_proc, Function.update_same, and_self]
  · rw [if_neg h]
    refine ⟨fun hr => absurd hr h, fun _ => rfl, ⟨fun h0 => ?_, fun hr => absurd hr h⟩, ?_⟩
    · have h1 : (-EPERM : Int) = 0 := h0
      exact absurd h1 (by decide)
    · show (_ → _) ∧ (_ → _)
      refine ⟨fun h0 => ?_, fun _ => ⟨rfl, rfl, rfl⟩⟩
      have h1 : (-EPERM : Int) = 0 := h0
      exact absurd h1 (by decide)

/-- Witness for C14: a caller of effective user 1000 is refused. -/
theorem sys_setuid_spec_witness :
    sys_setuid toy_state_user 0 = Outcome.ret (-EPERM, toy_state_user) :=
  (sys_setuid_spec toy_state_user 0).2.1 (by decide)

theorem ptr_validate_logged {F : Type} (s : kstate F) (ptr : Nat) :
    ptr_validate (logged s) ptr = ptr_validate s ptr := rfl

/-- C15. For a path pointer that `ptr_validate` accepts: when the path resolves
to no node, `sys_chmod` and `sys_chown` return `-ENOENT`; when it resolves,
`sys_chmod` returns `-EACCES` to a caller whose effective user is neither 0 nor
the node's uid and `sys_chown` returns `-EACCES` to a caller whose effective
user is not 0, in both cases after nothing but the lookup and `close_fs`; and
`chmod_fs` is called only for a caller of effective user 0 or the node's uid,
`chown_fs` only for a caller of effective user 0. -/
theorem chmod_chown_gate {F : Type} (ops : kernel_ops F) (s : kstate F)
    (file : Nat) (mode : Int) (uid gid : Nat) (hv : ptr_validate s file = Outcome.ret ()) :
    ((ops.kopen s.fs (cur_proc s) file 0).1 = 0 →
      sys_chmod ops s file mode
        = Outcome.ret (-ENOENT, { s with fs := (ops.kopen s.fs (cur_proc s) file 0).2 }) ∧
      sys_chown ops s file uid gid
        = Outcome.ret (-ENOENT, { s with fs := (ops.kopen s.fs (cur_proc s) file 0).2 })) ∧
    ((ops.kopen s.fs (cur_proc s) file 0).1 ≠ 0 → (cur_proc s).user ≠ 0 →
      (cur_proc s).user ≠ ops.node_uid (ops.kopen s.fs (cur_proc s) file 0).2
        (ops.kopen s.fs (cur_proc s) file 0).1 →
      sys_chmod ops s file mode
        = Outcome.ret (-EACCES,
            { s with fs := (ops.close_fs (ops.kopen s.fs (cur_proc s) file 0).2
                (ops.kopen s.fs (cur_proc s) file 0).1) }) ∧
      calls (sys_chmod (log_ops ops) (logged s) file mode)
        = [vfs_call.kopen file 0, vfs_call.close_fs (ops.kopen s.fs (cur_proc s) file 0).1]) ∧
    ((ops.kopen s.fs (cur_proc s) file 0).1 ≠ 0 → (cur_proc s).user ≠ 0 →
      sys_chown ops s file uid gid
        = Outcome.ret (-EACCES,
            { s with fs := (ops.close_fs (ops.kopen s.fs (cur_proc s) file 0).2
                (ops.kopen s.fs (cur_proc s) file 0).1) }) ∧
      calls (sys_chown (log_ops ops) (logged s) file uid gid)
        = [vfs_call.kopen file 0, vfs_call.close_fs (ops.kopen s.fs (cur_proc s) file 0).1]) ∧
    (∀ n m, vfs_call.chmod_fs n m ∈ calls (sys_chmod (log_ops ops) (logged s) file mode) →
      (ops.kopen s.fs (cur_proc s) file 0).1 ≠ 0 ∧
      ((cur_proc s).user = 0 ∨
        (cur_proc s).user = ops.node_uid (ops.kopen s.fs (cur_proc s) file 0).2
          (ops.kopen s.fs (cur_proc s) file 0).1)) ∧
    (∀ n u g, vfs_call.chown_fs n u g ∈ calls (sys_chown (log_ops ops) (logged s) file uid gid) →
      (ops.kopen s.fs (cur_proc s) file 0).1 ≠ 0 ∧ (cur_proc s).user = 0) := by
  have hl : ptr_validate (logged s) file = Outcome.ret () := hv
  have kmod : calls (sys_chmod (log_ops ops) (logged s) file mode) =
      if (ops.kopen s.fs (cur_proc s) file 0).1 ≠ 0 then
        if (cur_proc s).user ≠ 0 ∧
            (cur_proc s).user ≠ ops.node_uid (ops.kopen s.fs (cur_proc s) file 0).2
              (ops.kopen s.fs (cur_proc s) file 0).1 then
          [vfs_call.kopen file 0, vfs_call.close_fs (ops.kopen s.fs (cur_proc s) file 0).1]
        else
          [vfs_call.kopen file 0,
            vfs_call.chmod_fs (ops.kopen s.fs (cur_proc s) file 0).1 mode,
            vfs_call.close_fs (ops.kopen s.fs (cur_proc s) file 0).1]
      else [vfs_call.kopen file 0] := by
    unfold sys_chmod
    simp only [hl]
    split_ifs <;> simp_all [calls, log_ops, logged, cur_proc]
  have kown : calls (sys_chown (log_ops ops) (logged s) file uid gid) =
      if (ops.kopen s.fs (cur_proc s) file 0).1 ≠ 0 then
        if (cur_proc s).user ≠ 0 then
          [vfs_call.kopen file 0, vfs_call.close_fs (ops.kopen s.fs (cur_proc s) file 0).1]
        else
          [vfs_call.kopen file 0,
            vfs_call.chown_fs (ops.kopen s.fs (cur_proc s) file 0).1 uid gid,
            vfs_call.close_fs (ops.kopen s.fs (cur_proc s) file 0).1]
      else [vfs_call.kopen file 0] := by
    unfold sys_chown
    simp only [hl]
    split_ifs <;> simp_all [calls, log_ops, logged, cur_proc]
  refine ⟨fun h0 => ?_, fun hn hu hd => ?_, fun hn hu => ?_, fun n m hm => ?_, fun n u g hm => ?_⟩
  · unfold sys_chmod sys_chown
    simp only [hv, h0, ne_eq, not_true_eq_false, if_false, and_self]
  · refine ⟨?_, ?_⟩
    · unfold sys_chmod
      simp only [hv, hn, hu, hd, ne_eq, not_false_eq_true, and_self, if_true]
    · rw [kmod, if_pos hn, if_pos ⟨hu, hd⟩]
  · refine ⟨?_, ?_⟩
    · unfold sys_chown
      simp only [hv, hn, hu, ne_eq, not_false_eq_true, if_true]
    · rw [kown, if_pos hn, if_pos hu]
  · rw [kmod] at hm
    by_cases hn : (ops.kopen s.fs (cur_proc s) file 0).1 ≠ 0
    · refine ⟨hn, ?_⟩
      rw [if_pos hn] at hm
      by_contra hc
      push_neg at hc
      rw [if_pos hc] at hm
      simp at hm
    · rw [if_neg hn] at hm
      simp at hm
  · rw [kown] at hm
    by_cases hn : (ops.kopen s.fs (cur_proc s) file 0).1 ≠ 0
    · refine ⟨hn, ?_⟩
      rw [if_pos hn] at hm
      by_contra hc
      rw [if_pos hc] at hm
      simp at hm
    · rw [if_neg hn] at hm
      simp at hm

/-- Witness for C15: a caller of effective user 1000 on the node at path
`0x3000`; `sys_chown` refuses it. -/
theorem chmod_chown_gate_witness :
    sys_chown toy_ops toy_state_user 0x3000 0 0
      = Outcome.ret (-EACCES,
          { toy_state_user with fs := (toy_ops.close_fs
              (toy_ops.kopen toy_state_user.fs (cur_proc toy_state_user) 0x3000 0).2
              (toy_ops.kopen toy_state_user.fs (cur_proc toy_state_user) 0x3000 0).1) }) :=
  ((chmod_chown_gate toy_ops toy_state_user 0x3000 0 0 0 (by rfl)).2.2.1
    (by decide) (by decide)).1

theorem syscalls_hostname_swapped (abi : syscall_abi)
    (hs : ∀ n, abi.num n = abi.num syscall_name.SYS_SETHOSTNAME →
      n = syscall_name.SYS_SETHOSTNAME)
    (hg : ∀ n, abi.num n = abi.num syscall_name.SYS_GETHOSTNAME →
      n = syscall_name.SYS_GETHOSTNAME) :
    syscalls abi (abi.num syscall_name.SYS_SETHOSTNAME) = some handler.sys_gethostname ∧
    syscalls abi (abi.num syscall_name.SYS_GETHOSTNAME) = some handler.sys_sethostname := by
  have es : ∀ n, decide (abi.num n = abi.num syscall_name.SYS_SETHOSTNAME)
      = decide (n = syscall_name.SYS_SETHOSTNAME) := by
    intro n
    by_cases h : n = syscall_name.SYS_SETHOSTNAME
    · simp [h]
    · have h2 : abi.num n ≠ abi.num syscall_name.SYS_SETHOSTNAME := fun hc => h (hs n hc)
      simp [h, h2]
  have eg : ∀ n, decide (abi.num n = abi.num syscall_name.SYS_GETHOSTNAME)
      = decide (n = syscall_name.SYS_GETHOSTNAME) := by
    intro n
    by_cases h : n = syscall_name.SYS_GETHOSTNAME
    · simp [h]
    · have h2 : abi.num n ≠ abi.num syscall_name.SYS_GETHOSTNAME := fun hc => h (hg n hc)
      simp [h, h2]
  constructor
  · unfold syscalls
    simp only [es]
    rfl
  · unfold syscalls
    simp only [eg]
    rfl

theorem sys_sethostname_gate {F : Type} (ops : kernel_ops F) (s : kstate F) (p : Nat)
    (h : (cur_proc s).user ≠ USER_ROOT_UID) :
    sys_sethostname ops s p = Outcome.ret (-EPERM, s) := by
  unfold sys_sethostname
  rw [if_neg h]

theorem sys_mount_gate {F : Type} (ops : kernel_ops F) (s : kstate F)
    (arg mountpoint type flags data : Nat) (h : (cur_proc s).user ≠ USER_ROOT_UID) :
    sys_mount ops s arg mountpoint type flags data = Outcome.ret (-EPERM, s) := by
  unfold sys_mount
  rw [if_pos h]

set_option maxRecDepth 20000 in
/-- C13, the code at the failing inputs. Under a numbering that gives the two
calls different numbers (24 and 25), a caller of effective user 1000 that
dispatches `SYS_SETHOSTNAME` gets `hostname_len` (here 0) in `rax`, not
`-EPERM`, because the table entry is `sys_gethostname`; and a superuser that
dispatches `SYS_GETHOSTNAME` has the stored host name overwritten with the
bytes at its buffer pointer, because the table entry is `sys_sethostname`. -/
theorem hostname_dispatch_swapped :
    syscalls toy_abi (toy_abi.num syscall_name.SYS_SETHOSTNAME) = some handler.sys_gethostname ∧
    syscalls toy_abi (toy_abi.num syscall_name.SYS_GETHOSTNAME) = some handler.sys_sethostname ∧
    (syscall_handler toy_abi toy_ops toy_state_user 0x9000
        ⟨toy_abi.num syscall_name.SYS_SETHOSTNAME, 0x5000, 0, 0, 0, 0⟩).returns
      (fun r => r.1.rax = 0 ∧ r.1.rax ≠ to_size_t (-EPERM)) ∧
    (syscall_handler toy_abi toy_ops toy_state 0x9000
        ⟨toy_abi.num syscall_name.SYS_GETHOSTNAME, 0x5000, 0, 0, 0, 0⟩).returns
      (fun r => r.2.hostname_len = 4 ∧ r.2.hostname.take 4 = [97, 97, 97, 97] ∧
        r.2.hostname ≠ toy_state.hostname) := by
  refine ⟨by decide, by decide, by decide, by decide⟩

/-- C11, amended. `sys_mount` called by the superuser with `arg`, `mountpoint`
or `type` outside the window (the null pointer included) returns `-EFAULT`
with the state unchanged and `vfs_mount_type` not called; it does not halt.
`sys_sysfunc` with `TOARU_SYS_FUNC_THREADNAME` halts the kernel when the
argument vector pointer is not null and outside the window, and when the first
element of the vector is not null and outside the window. -/
theorem user_pointer_checks {F : Type} (ops : kernel_ops F) (s : kstate F) :
    (∀ arg mountpoint type flags data, (cur_proc s).user = USER_ROOT_UID →
      ¬ (PTR_INRANGE s arg ∧ PTR_INRANGE s mountpoint ∧ PTR_INRANGE s type) →
      sys_mount ops s arg mountpoint type flags data = Outcome.ret (-EFAULT, s)) ∧
    (∀ args, args ≠ 0 → ¬ PTR_INRANGE s args →
      sys_sysfunc ops s sysfunc_case.THREADNAME args = Outcome.halt) ∧
    (∀ args, ops.load_ptr s.fs args ≠ 0 → ¬ PTR_INRANGE s (ops.load_ptr s.fs args) →
      sys_sysfunc ops s sysfunc_case.THREADNAME args = Outcome.halt) := by
  refine ⟨fun arg mountpoint type flags data hu hr => ?_, fun args h0 hr => ?_,
    fun args h0 hr => ?_⟩
  · unfold sys_mount
    rw [if_neg (not_not.mpr hu), if_neg hr]
  · have hv : ptr_validate s args = Outcome.halt := by
      unfold ptr_validate
      rw [if_pos ⟨h0, hr⟩]
    simp only [sys_sysfunc, sys_sysfunc_threadname, hv]
  · have hv : ptr_validate s (ops.load_ptr s.fs args) = Outcome.halt := by
      unfold ptr_validate
      rw [if_pos ⟨h0, hr⟩]
    have h61 : (2 : Nat) ^ 61 = (2 ^ 61 - 1) + 1 := by norm_num
    simp only [sys_sysfunc, sys_sysfunc_threadname]
    cases ptr_validate s args with
    | halt => rfl
    | ret u =>
      simp only
      rw [h61, threadname_scan, if_neg h0, hv]

/-- Witness for C11, amended: the superuser mounting with a null `arg`. -/
theorem user_pointer_checks_witness :
    sys_mount toy_ops toy_state 0 0x3000 0x3000 0 0 = Outcome.ret (-EFAULT, toy_state) :=
  (user_pointer_checks toy_ops toy_state).1 0 0x3000 0x3000 0 0 (by decide) (by decide)

/-- C11, counterexample. The superuser calls `sys_mount` with `arg = 2^63`, a
pointer that is not null and lies outside the window: the handler returns
instead of halting the kernel. -/
theorem sys_mount_counterexample :
    ¬ (((2 ^ 63 : Nat) ≠ 0 ∧ ¬ PTR_INRANGE toy_state (2 ^ 63)) →
        sys_mount toy_ops toy_state (2 ^ 63) 0x3000 0x3000 0 0 = Outcome.halt) := by
  intro h
  have h1 := h (by decide)
  have h2 : sys_mount toy_ops toy_state (2 ^ 63) 0x3000 0x3000 0 0
      = Outcome.ret (-EFAULT, toy_state) := by rfl
  rw [h2] at h1
  exact Outcome.noConfusion h1

theorem sys_mkdir_returns {F : Type} (ops : kernel_ops F) (s : kstate F) (path mode : Nat) :
    sys_mkdir ops s path mode
      = Outcome.ret ((ops.mkdir_fs s.fs (cur_proc s) path mode).1,
          { s with fs := (ops.mkdir_fs s.fs (cur_proc s) path mode).2 }) := rfl

set_option maxRecDepth 20000 in
theorem threadname_second_element_unchecked :
    calls (sys_sysfunc (log_ops argv_ops) (logged toy_state) sysfunc_case.THREADNAME 0x6000)
      = [vfs_call.make_cmdline [0x7000, 2 ^ 63]] := by
  decide

/-! ## `sys_open` -/

theorem sys_open_elim {F : Type} (ops : kernel_ops F) (s : kstate F) (file : Nat)
    (flags mode : Int) (P : Outcome (Int × kstate F) → Prop)
    (hhalt : ptr_validate s file = Outcome.halt → P Outcome.halt)
    (hexcl : (open_lookup ops s file flags).1 ≠ 0 →
      Int.land flags O_CREAT ≠ 0 → Int.land flags O_EXCL ≠ 0 →
      P (Outcome.ret (-EEXIST,
        { s with fs := (ops.close_fs (open_lookup ops s file flags).2
            (open_lookup ops s file flags).1) })))
    (hrd : (open_lookup ops s file flags).1 ≠ 0 →
      (Int.land flags O_WRONLY = 0 ∨ Int.land flags O_RDWR ≠ 0) →
      ops.has_permission (open_lookup ops s file flags).2 (cur_proc s)
        (open_lookup ops s file flags).1 4 = false →
      P (Outcome.ret (-EACCES,
        { s with fs := (ops.close_fs (open_lookup ops s file flags).2
            (open_lookup ops s file flags).1) })))
    (hwr : (open_lookup ops s file flags).1 ≠ 0 →
      (Int.land flags O_RDWR ≠ 0 ∨ Int.land flags O_WRONLY ≠ 0) →
      ops.has_permission (open_lookup ops s file flags).2 (cur_proc s)
        (open_lookup ops s file flags).1 2 = false →
      P (Outcome.ret (-EACCES,
        { s with fs := (ops.close_fs (open_lookup ops s file flags).2
            (open_lookup ops s file flags).1) })))
    (hdir : (open_lookup ops s file flags).1 ≠ 0 →
      (Int.land flags O_RDWR ≠ 0 ∨ Int.land flags O_WRONLY ≠ 0) →
      P (Outcome.ret (-EISDIR, { s with fs := (open_lookup ops s file flags).2 })))
    (hfail : (open_lookup ops s file flags).1 = 0 → Int.land flags O_CREAT ≠ 0 →
      (open_create ops s file flags mode).1 ≠ 0 →
      P (Outcome.ret ((open_create ops s file flags mode).1,
        { s with fs := (open_create ops s file flags mode).2 })))
    (hnew : (open_lookup ops s file flags).1 = 0 → Int.land flags O_CREAT ≠ 0 →
      (open_create ops s file flags mode).1 = 0 →
      P (sys_open_finish ops s flags (open_access_bits flags)
        (open_relookup ops s file flags mode).1 (open_relookup ops s file flags mode).2))
    (hold : ¬ ((open_lookup ops s file flags).1 = 0 ∧ Int.land flags O_CREAT ≠ 0) →
      ((open_lookup ops s file flags).1 ≠ 0 →
        (Int.land flags O_RDWR ≠ 0 ∨ Int.land flags O_WRONLY ≠ 0) →
        ops.has_permission (open_lookup ops s file flags).2 (cur_proc s)
          (open_lookup ops s file flags).1 2 = true) →
      P (sys_open_finish ops s flags (open_access_bits flags)
        (open_lookup ops s file flags).1 (open_lookup ops s file flags).2)) :
    P (sys_open ops s file flags mode) := by
  simp only [open_lookup, open_create, open_relookup] at *
  unfold sys_open
  cases hp : ptr_validate s file with
  | halt => exact hhalt hp
  | ret u =>
    dsimp only
    by_cases c1 : (ops.kopen s.fs (cur_proc s) file flags).1 ≠ 0 ∧
        Int.land flags O_CREAT ≠ 0 ∧ Int.land flags O_EXCL ≠ 0
    · rw [if_pos c1]; exact hexcl c1.1 c1.2.1 c1.2.2
    rw [if_neg c1]
    by_cases c2 : (Int.land flags O_WRONLY = 0 ∨ Int.land flags O_RDWR ≠ 0) ∧
        (ops.kopen s.fs (cur_proc s) file flags).1 ≠ 0 ∧
        ops.has_permission (ops.kopen s.fs (cur_proc s) file flags).2 (cur_proc s)
          (ops.kopen s.fs (cur_proc s) file flags).1 4 = false
    · rw [if_pos c2]; exact hrd c2.2.1 c2.1 c2.2.2
    rw [if_neg c2]
    by_cases c3 : (Int.land flags O_RDWR ≠ 0 ∨ Int.land flags O_WRONLY ≠ 0) ∧
        (ops.kopen s.fs (cur_proc s) file flags).1 ≠ 0 ∧
        ops.has_permission (ops.kopen s.fs (cur_proc s) file flags).2 (cur_proc s)
          (ops.kopen s.fs (cur_proc s) file flags).1 2 = false
    · rw [if_pos c3]; exact hwr c3.2.1 c3.1 c3.2.2
    rw [if_neg c3]
    by_cases c4 : (Int.land flags O_RDWR ≠ 0 ∨ Int.land flags O_WRONLY ≠ 0) ∧
        (ops.kopen s.fs (cur_proc s) file flags).1 ≠ 0 ∧
        Nat.land (ops.node_flags (ops.kopen s.fs (cur_proc s) file flags).2
          (ops.kopen s.fs (cur_proc s) file flags).1) FS_DIRECTORY ≠ 0
    · rw [if_pos c4]; exact hdir c4.2.1 c4.1
    rw [if_neg c4]
    by_cases c5 : (ops.kopen s.fs (cur_proc s) file flags).1 = 0 ∧ Int.land flags O_CREAT ≠ 0
    · rw [if_pos c5]
      by_cases c6 : (ops.create_file_fs (ops.kopen s.fs (cur_proc s) file flags).2
          (cur_proc s) file mode).1 = 0
      · rw [if_pos c6]; exact hnew c5.1 c5.2 c6
      · rw [if_neg c6]; exact hfail c5.1 c5.2 c6
    · rw [if_neg c5]
      refine hold c5 (fun hn hw => ?_)
      cases hb : ops.has_permission (ops.kopen s.fs (cur_proc s) file flags).2 (cur_proc s)
          (ops.kopen s.fs (cur_proc s) file flags).1 2 with
      | true => rfl
      | false => exact absurd ⟨hw, hn, hb⟩ c3

theorem sys_open_finish_elim {F : Type} (ops : kernel_ops F) (s : kstate F)
    (flags ab : Int) (node : Nat) (fs2 : F) (P : Outcome (Int × kstate F) → Prop)
    (hnotdir : node ≠ 0 → Int.land flags O_DIRECTORY ≠ 0 →
      Nat.land (ops.node_flags fs2 node) FS_DIRECTORY = 0 →
      P (Outcome.ret (-ENOTDIR, { s with fs := fs2 })))
    (hinval : node ≠ 0 → Int.land flags O_TRUNC ≠ 0 → Int.land ab 2 = 0 →
      P (Outcome.ret (-EINVAL, { s with fs := ops.close_fs fs2 node })))
    (hnoent : node = 0 → P (Outcome.ret (-ENOENT, { s with fs := fs2 })))
    (hisdir : node ≠ 0 → Int.land flags O_CREAT ≠ 0 →
      (Int.land flags O_TRUNC ≠ 0 → Int.land ab 2 ≠ 0) →
      P (Outcome.ret (-EISDIR,
        { s with fs := (ops.close_fs
            (if node ≠ 0 ∧ Int.land flags O_TRUNC ≠ 0 then ops.truncate_fs fs2 node else fs2)
            node) })))
    (hok : node ≠ 0 → (Int.land flags O_TRUNC ≠ 0 → Int.land ab 2 ≠ 0) →
      P (Outcome.ret
        (to_long (Kernel.process_append_fd
            { s with fs :=
                (if node ≠ 0 ∧ Int.land flags O_TRUNC ≠ 0 then ops.truncate_fs fs2 node
                 else fs2) } s.current_process node).1,
          set_FD_OFFSET
            (set_FD_MODE
              (Kernel.process_append_fd
                { s with fs :=
                    (if node ≠ 0 ∧ Int.land flags O_TRUNC ≠ 0 then ops.truncate_fs fs2 node
                     else fs2) } s.current_process node).2
              (to_long (Kernel.process_append_fd
                { s with fs :=
                    (if node ≠ 0 ∧ Int.land flags O_TRUNC ≠ 0 then ops.truncate_fs fs2 node
                     else fs2) } s.current_process node).1)
              ab)
            (to_long (Kernel.process_append_fd
                { s with fs :=
                    (if node ≠ 0 ∧ Int.land flags O_TRUNC ≠ 0 then ops.truncate_fs fs2 node
                     else fs2) } s.current_process node).1)
            (if Int.land flags O_APPEND ≠ 0 then
              ops.node_length
                (if node ≠ 0 ∧ Int.land flags O_TRUNC ≠ 0 then ops.truncate_fs fs2 node
                 else fs2) node
             else 0)))) :
    P (sys_open_finish ops s flags ab node fs2) := by
  unfold sys_open_finish
  by_cases c1 : node ≠ 0 ∧ Int.land flags O_DIRECTORY ≠ 0 ∧
      Nat.land (ops.node_flags fs2 node) FS_DIRECTORY = 0
  · rw [if_pos c1]; exact hnotdir c1.1 c1.2.1 c1.2.2
  rw [if_neg c1]
  by_cases c2 : node ≠ 0 ∧ Int.land flags O_TRUNC ≠ 0 ∧ Int.land ab 2 = 0
  · rw [if_pos c2]; exact hinval c2.1 c2.2.1 c2.2.2
  rw [if_neg c2]
  dsimp only
  by_cases c3 : node = 0
  · rw [if_pos c3]
    have e : (if node ≠ 0 ∧ Int.land flags O_TRUNC ≠ 0 then ops.truncate_fs fs2 node else fs2)
        = fs2 := if_neg (fun hc => hc.1 c3)
    rw [e]
    exact hnoent c3
  rw [if_neg c3]
  have htr : Int.land flags O_TRUNC ≠ 0 → Int.land ab 2 ≠ 0 :=
    fun ht hb => c2 ⟨c3, ht, hb⟩
  by_cases c4 : Int.land flags O_CREAT ≠ 0 ∧
      Nat.land (ops.node_flags
        (if node ≠ 0 ∧ Int.land flags O_TRUNC ≠ 0 then ops.truncate_fs fs2 node else fs2)
        node) FS_DIRECTORY ≠ 0
  · rw [if_pos c4]; exact hisdir c3 c4.1 htr
  · rw [if_neg c4]; exact hok c3 htr

theorem sys_open_finish_error_shape {F : Type} (ops : kernel_ops F) (s : kstate F)
    (flags ab : Int) (node : Nat) (fs2 : F) (hlen : (cur_table s).length < 2 ^ 63)
    (v : Int) (s' : kstate F)
    (h : sys_open_finish ops s flags ab node fs2 = Outcome.ret (v, s')) (hneg : v < 0) :
    s' = { s with fs := s'.fs } := by
  have hlen' : (s.tables (s.procs s.current_process).fds).length < 2 ^ 63 := hlen
  have hgi : 0 ≤ to_long (gap_index (s.tables (s.procs s.current_process).fds)) := by
    rw [to_long_of_lt _ (by
      have := gap_index_le (s.tables (s.procs s.current_process).fds); omega)]
    omega
  have hfst : ∀ nd, (process_append_fd (s.tables (s.procs s.current_process).fds) nd).1
      = gap_index (s.tables (s.procs s.current_process).fds) :=
    fun nd => append_fst _ nd (by omega)
  revert h
  refine sys_open_finish_elim ops s flags ab node fs2
    (fun o => o = Outcome.ret (v, s') → s' = { s with fs := s'.fs }) ?_ ?_ ?_ ?_ ?_
  · intro _ _ _ h; injection h with h1; injection h1 with h2 h3; subst h3; rfl
  · intro _ _ _ h; injection h with h1; injection h1 with h2 h3; subst h3; rfl
  · intro _ h; injection h with h1; injection h1 with h2 h3; subst h3; rfl
  · intro _ _ _ h; injection h with h1; injection h1 with h2 h3; subst h3; rfl
  · intro _ _ h
    exfalso
    injection h with h1
    injection h1 with h2 h3
    simp only [Kernel.process_append_fd, hfst] at h2
    omega

/-- C17. For a path pointer that `ptr_validate` accepts and that resolves to a
node, and every flags value containing both `O_CREAT` and `O_EXCL`, `sys_open`
returns `-EEXIST`; the kernel state differs from the one before only in the
filesystem state, which has gone through the lookup and `close_fs` and through
no other call (no creation, no truncation, no write), so that whatever the
lookup and `close_fs` preserve is preserved. -/
theorem sys_open_create_exclusive {F : Type} (ops : kernel_ops F) (s : kstate F)
    (file : Nat) (flags mode : Int) (hv : ptr_validate s file = Outcome.ret ())
    (hk : (ops.kopen s.fs (cur_proc s) file flags).1 ≠ 0)
    (hc : Int.land flags O_CREAT ≠ 0) (he : Int.land flags O_EXCL ≠ 0) :
    sys_open ops s file flags mode
      = Outcome.ret (-EEXIST,
          { s with fs := (ops.close_fs (ops.kopen s.fs (cur_proc s) file flags).2
              (ops.kopen s.fs (cur_proc s) file flags).1) }) ∧
    calls (sys_open (log_ops ops) (logged s) file flags mode)
      = [vfs_call.kopen file flags,
          vfs_call.close_fs (ops.kopen s.fs (cur_proc s) file flags).1] ∧
    ∀ (O : Type) (obs : F → O),
      (∀ f p path fl, obs (ops.kopen f p path fl).2 = obs f) →
      (∀ f n, obs (ops.close_fs f n) = obs f) →
      (sys_open ops s file flags mode).returns (fun r => obs r.2.fs = obs s.fs) := by
  have hl : ptr_validate (logged s) file = Outcome.ret () := hv
  have h1 : sys_open ops s file flags mode
      = Outcome.ret (-EEXIST,
          { s with fs := (ops.close_fs (ops.kopen s.fs (cur_proc s) file flags).2
              (ops.kopen s.fs (cur_proc s) file flags).1) }) := by
    unfold sys_open
    simp only [hv, hk, hc, he, ne_eq, not_false_eq_true, and_self, if_true]
  refine ⟨h1, ?_, fun O obs ho hcl => ?_⟩
  · have hk2 : ((log_ops ops).kopen (logged s).fs (cur_proc (logged s)) file flags).1 ≠ 0 := hk
    unfold sys_open
    simp only [hl, hk2, hc, he, ne_eq, not_false_eq_true, and_self, if_true]
    rfl
  · rw [h1]
    show obs (ops.close_fs _ _) = obs s.fs
    rw [hcl, ho]

/-- Witness for C17: the file at path `0x3000` opened with `O_CREAT | O_EXCL`. -/
theorem sys_open_create_exclusive_witness :
    sys_open toy_ops toy_state 0x3000 (Int.lor O_CREAT O_EXCL) 0o644
      = Outcome.ret (-EEXIST,
          { toy_state with fs := (toy_ops.close_fs
              (toy_ops.kopen toy_state.fs (cur_proc toy_state) 0x3000 (Int.lor O_CREAT O_EXCL)).2
              (toy_ops.kopen toy_state.fs (cur_proc toy_state) 0x3000
                (Int.lor O_CREAT O_EXCL)).1) }) :=
  (sys_open_create_exclusive toy_ops toy_state 0x3000 (Int.lor O_CREAT O_EXCL) 0o644
    (by rfl) (by decide) (by decide) (by decide)).1

/-- C19. For a path pointer that `ptr_validate` accepts and that resolves to a
node: when the caller lacks a permission the flags request (read when
`O_WRONLY` is clear or `O_RDWR` is set, write when `O_WRONLY` or `O_RDWR` is
set), `sys_open` returns `-EEXIST` if the flags contain `O_CREAT` and `O_EXCL`
and `-EACCES` otherwise; when the permissions are granted and the call is not
create-exclusive, it returns `-EISDIR` for write flags on a directory, and
otherwise `-ENOTDIR` for `O_DIRECTORY` on a node that is not a directory. In
each case the state returned differs from the one before only in the filesystem
state, so no descriptor is added. -/
theorem sys_open_rejections {F : Type} (ops : kernel_ops F) (s : kstate F)
    (file : Nat) (flags mode : Int) (hv : ptr_validate s file = Outcome.ret ())
    (hk : (ops.kopen s.fs (cur_proc s) file flags).1 ≠ 0) :
    ((((Int.land flags O_WRONLY = 0 ∨ Int.land flags O_RDWR ≠ 0) ∧
        ops.has_permission (ops.kopen s.fs (cur_proc s) file flags).2 (cur_proc s)
          (ops.kopen s.fs (cur_proc s) file flags).1 4 = false) ∨
      ((Int.land flags O_RDWR ≠ 0 ∨ Int.land flags O_WRONLY ≠ 0) ∧
        ops.has_permission (ops.kopen s.fs (cur_proc s) file flags).2 (cur_proc s)
          (ops.kopen s.fs (cur_proc s) file flags).1 2 = false)) →
      sys_open ops s file flags mode
        = Outcome.ret
            (if Int.land flags O_CREAT ≠ 0 ∧ Int.land flags O_EXCL ≠ 0 then -EEXIST else -EACCES,
              { s with fs := (ops.close_fs (ops.kopen s.fs (cur_proc s) file flags).2
                  (ops.kopen s.fs (cur_proc s) file flags).1) })) ∧
    (¬ (Int.land flags O_CREAT ≠ 0 ∧ Int.land flags O_EXCL ≠ 0) →
      ((Int.land flags O_WRONLY = 0 ∨ Int.land flags O_RDWR ≠ 0) →
        ops.has_permission (ops.kopen s.fs (cur_proc s) file flags).2 (cur_proc s)
          (ops.kopen s.fs (cur_proc s) file flags).1 4 = true) →
      ((Int.land flags O_RDWR ≠ 0 ∨ Int.land flags O_WRONLY ≠ 0) →
        ops.has_permission (ops.kopen s.fs (cur_proc s) file flags).2 (cur_proc s)
          (ops.kopen s.fs (cur_proc s) file flags).1 2 = true) →
      ((Int.land flags O_RDWR ≠ 0 ∨ Int.land flags O_WRONLY ≠ 0) →
        Nat.land (ops.node_flags (ops.kopen s.fs (cur_proc s) file flags).2
          (ops.kopen s.fs (cur_proc s) file flags).1) FS_DIRECTORY ≠ 0 →
        sys_open ops s file flags mode
          = Outcome.ret (-EISDIR, { s with fs := (ops.kopen s.fs (cur_proc s) file flags).2 })) ∧
      (¬ ((Int.land flags O_RDWR ≠ 0 ∨ Int.land flags O_WRONLY ≠ 0) ∧
          Nat.land (ops.node_flags (ops.kopen s.fs (cur_proc s) file flags).2
            (ops.kopen s.fs (cur_proc s) file flags).1) FS_DIRECTORY ≠ 0) →
        Int.land flags O_DIRECTORY ≠ 0 →
        Nat.land (ops.node_flags (ops.kopen s.fs (cur_proc s) file flags).2
          (ops.kopen s.fs (cur_proc s) file flags).1) FS_DIRECTORY = 0 →
        sys_open ops s file flags mode
          = Outcome.ret (-ENOTDIR,
              { s with fs := (ops.kopen s.fs (cur_proc s) file flags).2 }))) ∧
    -EEXIST < 0 ∧ -EACCES < 0 ∧ -EISDIR < 0 ∧ -ENOTDIR < 0 := by
  refine ⟨fun hp => ?_, fun hx hr hw => ⟨fun hwr hd => ?_, fun hnd ho hf => ?_⟩,
    by decide, by decide, by decide, by decide⟩
  · unfold sys_open
    simp only [hv, hk, ne_eq, not_false_eq_true, true_and]
    by_cases hx : ¬ Int.land flags O_CREAT = 0 ∧ ¬ Int.land flags O_EXCL = 0
    · rw [if_pos hx, if_pos hx]
    · rw [if_neg hx, if_neg hx]
      rcases hp with ⟨hrd, hp4⟩ | ⟨hwr, hp2⟩
      · rw [if_pos ⟨hrd, hp4⟩]
      · by_cases h4 : (Int.land flags O_WRONLY = 0 ∨ ¬ Int.land flags O_RDWR = 0) ∧
            ops.has_permission (ops.kopen s.fs (cur_proc s) file flags).2 (cur_proc s)
              (ops.kopen s.fs (cur_proc s) file flags).1 4 = false
        · rw [if_pos h4]
        · rw [if_neg h4, if_pos ⟨hwr, hp2⟩]
  · unfold sys_open
    simp only [hv, hk, ne_eq, not_false_eq_true, true_and]
    have h4 : ¬ ((Int.land flags O_WRONLY = 0 ∨ ¬ Int.land flags O_RDWR = 0) ∧
        ops.has_permission (ops.kopen s.fs (cur_proc s) file flags).2 (cur_proc s)
          (ops.kopen s.fs (cur_proc s) file flags).1 4 = false) := by
      rintro ⟨a, b⟩
      rw [hr a] at b
      exact Bool.noConfusion b
    have h2 : ¬ ((¬ Int.land flags O_RDWR = 0 ∨ ¬ Int.land flags O_WRONLY = 0) ∧
        ops.has_permission (ops.kopen s.fs (cur_proc s) file flags).2 (cur_proc s)
          (ops.kopen s.fs (cur_proc s) file flags).1 2 = false) := by
      rintro ⟨a, b⟩
      rw [hw a] at b
      exact Bool.noConfusion b
    rw [if_neg hx, if_neg h4, if_neg h2, if_pos ⟨hwr, hd⟩]
  · unfold sys_open
    simp only [hv, hk, ne_eq, not_false_eq_true, true_and]
    have h4 : ¬ ((Int.land flags O_WRONLY = 0 ∨ ¬ Int.land flags O_RDWR = 0) ∧
        ops.has_permission (ops.kopen s.fs (cur_proc s) file flags).2 (cur_proc s)
          (ops.kopen s.fs (cur_proc s) file flags).1 4 = false) := by
      rintro ⟨a, b⟩
      rw [hr a] at b
      exact Bool.noConfusion b
    have h2 : ¬ ((¬ Int.land flags O_RDWR = 0 ∨ ¬ Int.land flags O_WRONLY = 0) ∧
        ops.has_permission (ops.kopen s.fs (cur_proc s) file flags).2 (cur_proc s)
          (ops.kopen s.fs (cur_proc s) file flags).1 2 = false) := by
      rintro ⟨a, b⟩
      rw [hw a] at b
      exact Bool.noConfusion b
    rw [if_neg hx, if_neg h4, if_neg h2, if_neg hnd]
    simp only [hk, false_and, if_false, ho, hf, ne_eq, not_false_eq_true, and_self, if_true,
      sys_open_finish, true_and]

/-- Witness for C19: the directory at path `0x4000` opened with `O_WRONLY`. -/
theorem sys_open_rejections_witness :
    sys_open toy_ops toy_state 0x4000 O_WRONLY 0
      = Outcome.ret (-EISDIR,
          { toy_state with
              fs := (toy_ops.kopen toy_state.fs (cur_proc toy_state) 0x4000 O_WRONLY).2 }) :=
  ((sys_open_rejections toy_ops toy_state 0x4000 O_WRONLY 0 (by rfl) (by decide)).2.1
    (by decide) (fun _ => by decide) (fun _ => by decide)).1 (by decide) (by decide)

theorem cur_table_set_cur_table {F : Type} (s : kstate F) (t : fd_table_t) :
    cur_table (set_cur_table s t) = t := by
  simp [cur_table, set_cur_table, cur_fds]

theorem open_slot_fields {F : Type} (s : kstate F) (fd : Int) (m : Int) (off : Nat) :
    FD_MODE (set_FD_OFFSET (set_FD_MODE s fd m) fd off) fd = m ∧
    FD_OFFSET (set_FD_OFFSET (set_FD_MODE s fd m) fd off) fd = off ∧
    FD_ENTRY (set_FD_OFFSET (set_FD_MODE s fd m) fd off) fd = FD_ENTRY s fd ∧
    (set_FD_OFFSET (set_FD_MODE s fd m) fd off).fs = s.fs := by
  simp [FD_MODE, FD_OFFSET, FD_ENTRY, set_FD_OFFSET, set_FD_MODE, cur_table_set_cur_table]
  simp [set_cur_table]

/-- C16, amended. For a path pointer that `ptr_validate` accepts, naming no
node, and flags containing `O_CREAT` but neither `O_DIRECTORY` nor `O_TRUNC`:
when `create_file_fs(file, mode)` succeeds and the path then resolves to a node
that is not a directory, `sys_open` makes exactly the lookup, the creation with
the given mode and the second lookup, and returns the smallest unused
descriptor; that slot holds the node, its offset is 0 (the node's length when
`O_APPEND` is set) and its access mode is the bits computed from the flags: the
read bit 01 when `O_WRONLY` is clear or `O_RDWR` is set, the write bit 02 when
`O_WRONLY` or `O_RDWR` is set. The mode argument (such as 0644) has no part in
the access mode: with `O_CREAT` alone the descriptor is read-only, and it has
both bits exactly when the flags ask for reading and writing. -/
theorem sys_open_create {F : Type} (ops : kernel_ops F) (s : kstate F)
    (file : Nat) (flags mode : Int) (hv : ptr_validate s file = Outcome.ret ())
    (hlen : (cur_table s).length < 2 ^ 63)
    (hk : (open_lookup ops s file flags).1 = 0)
    (hc : Int.land flags O_CREAT ≠ 0)
    (hcr : (open_create ops s file flags mode).1 = 0)
    (hk2 : (open_relookup ops s file flags mode).1 ≠ 0)
    (hnd : Nat.land (ops.node_flags (open_relookup ops s file flags mode).2
      (open_relookup ops s file flags mode).1) FS_DIRECTORY = 0)
    (hd : Int.land flags O_DIRECTORY = 0) (ht : Int.land flags O_TRUNC = 0) :
    (sys_open ops s file flags mode).returns (fun r =>
      r.1 = (gap_index (cur_table s) : Int) ∧
      FD_ENTRY r.2 r.1 = (open_relookup ops s file flags mode).1 ∧
      FD_MODE r.2 r.1 = open_access_bits flags ∧
      FD_OFFSET r.2 r.1 =
        (if Int.land flags O_APPEND ≠ 0 then
          ops.node_length (open_relookup ops s file flags mode).2
            (open_relookup ops s file flags mode).1
        else 0) ∧
      r.2.fs = (open_relookup ops s file flags mode).2) ∧
    calls (sys_open (log_ops ops) (logged s) file flags mode)
      = [vfs_call.kopen file flags, vfs_call.create_file_fs file mode,
          vfs_call.kopen file flags] ∧
    (Int.land flags O_RDWR ≠ 0 → open_access_bits flags = 3) ∧
    (Int.land flags O_RDWR = 0 → Int.land flags O_WRONLY ≠ 0 → open_access_bits flags = 2) ∧
    (Int.land flags O_RDWR = 0 → Int.land flags O_WRONLY = 0 → open_access_bits flags = 1) := by
  have hl : ptr_validate (logged s) file = Outcome.ret () := hv
  have hlen' : (s.tables (s.procs s.current_process).fds).length < 2 ^ 63 := hlen
  have hgi : to_long (gap_index (s.tables (s.procs s.current_process).fds))
      = (gap_index (s.tables (s.procs s.current_process).fds) : Int) :=
    to_long_of_lt _ (by
      have := gap_index_le (s.tables (s.procs s.current_process).fds); omega)
  have hfst : ∀ node, (process_append_fd (s.tables (s.procs s.current_process).fds) node).1
      = gap_index (s.tables (s.procs s.current_process).fds) :=
    fun node => append_fst _ node (by omega)
  have hidx : idx ((gap_index (s.tables (s.procs s.current_process).fds) : Nat) : Int)
      = gap_index (s.tables (s.procs s.current_process).fds) :=
    Int.toNat_ofNat _
  simp only [open_lookup, open_create, open_relookup] at hk hcr hk2 hnd
  refine ⟨?_, ?_, ?_, ?_, ?_⟩
  · unfold sys_open
    simp only [hv, hk, hc, hcr, hk2, hnd, hd, ht, ne_eq, not_true_eq_false, not_false_eq_true,
      false_and, and_false, and_true, if_false, if_true, and_self, open_lookup, open_create,
      open_relookup, Outcome.returns, Kernel.process_append_fd, sys_open_finish, true_and]
    simp only [hfst, hgi, open_slot_fields, true_and, open_access_bits, ne_eq, cur_table,
      cur_fds]
    simp only [FD_ENTRY, cur_table, cur_fds, Function.update_same, hidx]
    rw [append_snd]
    simp only [Function.update_same, and_self]
  · have hk' := hk
    have hcr' := hcr
    have hk2' := hk2
    have hnd' := hnd
    simp only [cur_proc] at hk' hcr' hk2' hnd'
    unfold sys_open
    simp only [hl]
    simp only [log_ops, logged, cur_proc, hk', hc, hcr', hk2', hnd', hd, ht, ne_eq,
      not_true_eq_false, not_false_eq_true, false_and, and_false, and_true, if_false, if_true,
      and_self, calls, Kernel.process_append_fd, open_slot_fields, List.nil_append,
      List.cons_append, sys_open_finish, true_and]
  · intro h; simp [open_access_bits, h]; decide
  · intro h1 h2; simp [open_access_bits, h1, h2]; decide
  · intro h1 h2; simp [open_access_bits, h1, h2]; decide

/-- Witness for C16, amended: the new path `0x2000` opened with
`O_CREAT | O_RDWR` and mode 0644. -/
theorem sys_open_create_witness :
    (sys_open toy_ops toy_state 0x2000 (Int.lor O_CREAT O_RDWR) 0o644).returns (fun r =>
      r.1 = (gap_index (cur_table toy_state) : Int) ∧
      FD_ENTRY r.2 r.1 = (open_relookup toy_ops toy_state 0x2000 (Int.lor O_CREAT O_RDWR) 0o644).1 ∧
      FD_MODE r.2 r.1 = open_access_bits (Int.lor O_CREAT O_RDWR) ∧
      FD_OFFSET r.2 r.1 =
        (if Int.land (Int.lor O_CREAT O_RDWR) O_APPEND ≠ 0 then
          toy_ops.node_length (open_relookup toy_ops toy_state 0x2000 (Int.lor O_CREAT O_RDWR) 0o644).2
            (open_relookup toy_ops toy_state 0x2000 (Int.lor O_CREAT O_RDWR) 0o644).1
        else 0) ∧
      r.2.fs = (open_relookup toy_ops toy_state 0x2000 (Int.lor O_CREAT O_RDWR) 0o644).2) :=
  (sys_open_create toy_ops toy_state 0x2000 (Int.lor O_CREAT O_RDWR) 0o644 (by rfl) (by decide)
    (by decide) (by decide) (by decide) (by decide) (by decide) (by decide) (by decide)).1

/-- C16, counterexample. The new path `0x2000` opened with the flag `O_CREAT`
and mode 0644: the file is created and descriptor 3 is returned with offset 0,
but its access mode is 01, without the write bit. -/
theorem sys_open_create_counterexample :
    ¬ ((open_lookup toy_ops toy_state 0x2000 O_CREAT).1 = 0 ∧
        (open_create toy_ops toy_state 0x2000 O_CREAT 0o644).1 = 0 →
      (sys_open toy_ops toy_state 0x2000 O_CREAT 0o644).returns (fun r =>
        FD_OFFSET r.2 r.1 = 0 ∧ Int.land (FD_MODE r.2 r.1) 1 ≠ 0 ∧
          Int.land (FD_MODE r.2 r.1) 2 ≠ 0)) := by
  decide

theorem open_access_bits_write (flags : Int) :
    Int.land (open_access_bits flags) 2 ≠ 0 ↔
      (Int.land flags O_RDWR ≠ 0 ∨ Int.land flags O_WRONLY ≠ 0) := by
  unfold open_access_bits
  by_cases hw : Int.land flags O_RDWR ≠ 0 ∨ Int.land flags O_WRONLY ≠ 0
  · by_cases hr : Int.land flags O_WRONLY = 0 ∨ Int.land flags O_RDWR ≠ 0
    · rw [if_pos hw, if_pos hr]; simp only [hw, iff_true]; decide
    · rw [if_pos hw, if_neg hr]; simp only [hw, iff_true]; decide
  · by_cases hr : Int.land flags O_WRONLY = 0 ∨ Int.land flags O_RDWR ≠ 0
    · rw [if_neg hw, if_pos hr]; simp only [hw, iff_false, not_not]; decide
    · rw [if_neg hw, if_neg hr]; simp only [hw, iff_false, not_not]; decide

theorem sys_open_finish_log {F : Type} (ops : kernel_ops F) (sl0 : kstate (F × List vfs_call))
    (flags ab : Int) (node : Nat) (f : F) (l : List vfs_call)
    (hlen : (cur_table sl0).length < 2 ^ 63) (v : Int) (sl : kstate (F × List vfs_call))
    (h : sys_open_finish (log_ops ops) sl0 flags ab node (f, l) = Outcome.ret (v, sl)) :
    (∀ p m, vfs_call.create_file_fs p m ∈ sl.fs.2 → vfs_call.create_file_fs p m ∈ l) ∧
    (∀ n, vfs_call.truncate_fs n ∈ sl.fs.2 →
      vfs_call.truncate_fs n ∈ l ∨
        (n = node ∧ node ≠ 0 ∧ Int.land flags O_TRUNC ≠ 0 ∧ Int.land ab 2 ≠ 0 ∧
          (v < 0 → v = -EISDIR ∧ Int.land flags O_CREAT ≠ 0))) := by
  have hlen' : (sl0.tables (sl0.procs sl0.current_process).fds).length < 2 ^ 63 := hlen
  have hgi : 0 ≤ to_long (gap_index (sl0.tables (sl0.procs sl0.current_process).fds)) := by
    rw [to_long_of_lt _ (by
      have := gap_index_le (sl0.tables (sl0.procs sl0.current_process).fds); omega)]
    omega
  have hfst : ∀ nd, (process_append_fd (sl0.tables (sl0.procs sl0.current_process).fds) nd).1
      = gap_index (sl0.tables (sl0.procs sl0.current_process).fds) :=
    fun nd => append_fst _ nd (by omega)
  revert h
  refine sys_open_finish_elim (log_ops ops) sl0 flags ab node (f, l)
    (fun o => o = Outcome.ret (v, sl) → _) ?_ ?_ ?_ ?_ ?_
  · intro _ _ _ h; injection h with h1; injection h1 with h2 h3; subst h3
    exact ⟨fun p m hm => hm, fun n hm => Or.inl hm⟩
  · intro _ _ _ h; injection h with h1; injection h1 with h2 h3; subst h3
    simp only [log_ops, List.mem_append, List.mem_singleton]
    refine ⟨fun p m hm => ?_, fun n hm => ?_⟩
    · rcases hm with hm | hm
      · exact hm
      · exact absurd hm (by simp)
    · rcases hm with hm | hm
      · exact Or.inl hm
      · exact absurd hm (by simp)
  · intro _ h; injection h with h1; injection h1 with h2 h3; subst h3
    exact ⟨fun p m hm => hm, fun n hm => Or.inl hm⟩
  · intro hn hc htr h; injection h with h1; injection h1 with h2 h3; subst h3; subst h2
    by_cases ht : Int.land flags O_TRUNC ≠ 0
    · have e : (node ≠ 0 ∧ Int.land flags O_TRUNC ≠ 0) := ⟨hn, ht⟩
      simp only [if_pos e, log_ops, List.mem_append, List.mem_singleton]
      refine ⟨fun p m hm => ?_, fun n hm => ?_⟩
      · rcases hm with (hm | hm) | hm
        · exact hm
        · exact absurd hm (by simp)
        · exact absurd hm (by simp)
      · rcases hm with (hm | hm) | hm
        · exact Or.inl hm
        · injection hm with hm
          exact Or.inr ⟨hm, hn, ht, htr ht, fun _ => ⟨trivial, hc⟩⟩
        · exact absurd hm (by simp)
    · have e : ¬ (node ≠ 0 ∧ Int.land flags O_TRUNC ≠ 0) := fun hc => ht hc.2
      simp only [if_neg e, log_ops, List.mem_append, List.mem_singleton]
      refine ⟨fun p m hm => ?_, fun n hm => ?_⟩
      · rcases hm with hm | hm
        · exact hm
        · exact absurd hm (by simp)
      · rcases hm with hm | hm
        · exact Or.inl hm
        · exact absurd hm (by simp)
  · intro hn htr h; injection h with h1; injection h1 with h2 h3; subst h3
    have hv0 : ¬ v < 0 := by
      rw [← h2]
      simp only [Kernel.process_append_fd, hfst]
      omega
    simp only [open_slot_fields, Kernel.process_append_fd]
    by_cases ht : Int.land flags O_TRUNC ≠ 0
    · have e : (node ≠ 0 ∧ Int.land flags O_TRUNC ≠ 0) := ⟨hn, ht⟩
      simp only [if_pos e, log_ops, List.mem_append, List.mem_singleton]
      refine ⟨fun p m hm => ?_, fun n hm => ?_⟩
      · rcases hm with hm | hm
        · exact hm
        · exact absurd hm (by simp)
      · rcases hm with hm | hm
        · exact Or.inl hm
        · injection hm with hm
          exact Or.inr ⟨hm, hn, ht, htr ht, fun hc => absurd hc hv0⟩
    · have e : ¬ (node ≠ 0 ∧ Int.land flags O_TRUNC ≠ 0) := fun hc => ht hc.2
      simp only [if_neg e]
      exact ⟨fun p m hm => hm, fun n hm => Or.inl hm⟩

theorem open_lookup_logged {F : Type} (ops : kernel_ops F) (s : kstate F) (file : Nat)
    (flags mode : Int) :
    open_lookup (log_ops ops) (logged s) file flags
      = ((open_lookup ops s file flags).1, (open_lookup ops s file flags).2,
          [vfs_call.kopen file flags]) ∧
    open_create (log_ops ops) (logged s) file flags mode
      = ((open_create ops s file flags mode).1, (open_create ops s file flags mode).2,
          [vfs_call.kopen file flags, vfs_call.create_file_fs file mode]) ∧
    open_relookup (log_ops ops) (logged s) file flags mode
      = ((open_relookup ops s file flags mode).1, (open_relookup ops s file flags mode).2,
          [vfs_call.kopen file flags, vfs_call.create_file_fs file mode,
            vfs_call.kopen file flags]) :=
  ⟨rfl, rfl, rfl⟩

theorem sys_open_log {F : Type} (ops : kernel_ops F) (s : kstate F) (file : Nat)
    (flags mode : Int) (hlen : (cur_table s).length < 2 ^ 63) (v : Int)
    (sl : kstate (F × List vfs_call))
    (h : sys_open (log_ops ops) (logged s) file flags mode = Outcome.ret (v, sl)) :
    (∀ p m, vfs_call.create_file_fs p m ∈ sl.fs.2 →
      (open_lookup ops s file flags).1 = 0 ∧ Int.land flags O_CREAT ≠ 0) ∧
    (∀ n, vfs_call.truncate_fs n ∈ sl.fs.2 →
      (Int.land flags O_RDWR ≠ 0 ∨ Int.land flags O_WRONLY ≠ 0) ∧
      Int.land flags O_TRUNC ≠ 0 ∧
      ((open_lookup ops s file flags).1 ≠ 0 →
        n = (open_lookup ops s file flags).1 ∧
        ops.has_permission (open_lookup ops s file flags).2 (cur_proc s)
          (open_lookup ops s file flags).1 2 = true) ∧
      (v < 0 → v = -EISDIR ∧ Int.land flags O_CREAT ≠ 0)) := by
  obtain ⟨e1, e2, e3⟩ := open_lookup_logged ops s file flags mode
  have hlen' : (cur_table (logged s)).length < 2 ^ 63 := hlen
  revert h
  refine sys_open_elim (log_ops ops) (logged s) file flags mode
    (fun o => o = Outcome.ret (v, sl) → _) ?_ ?_ ?_ ?_ ?_ ?_ ?_ ?_
  · intro _ h; exact Outcome.noConfusion h
  · intro _ _ _ h; injection h with h1; injection h1 with h2 h3; subst h3
    simp only [e1]
    simp [log_ops]
  · intro _ _ _ h; injection h with h1; injection h1 with h2 h3; subst h3
    simp only [e1]
    simp [log_ops]
  · intro _ _ _ h; injection h with h1; injection h1 with h2 h3; subst h3
    simp only [e1]
    simp [log_ops]
  · intro _ _ h; injection h with h1; injection h1 with h2 h3; subst h3
    simp only [e1]
    simp
  · intro hk hc _ h; injection h with h1; injection h1 with h2 h3; subst h3
    rw [e1] at hk
    simp only [e2]
    refine ⟨fun p m _ => ⟨hk, hc⟩, fun n hm => ?_⟩
    simp at hm
  · intro hk hc _ h
    rw [e1] at hk
    rw [e3] at h
    obtain ⟨h1, h2⟩ := sys_open_finish_log ops (logged s) flags (open_access_bits flags) _ _ _
      hlen' v sl h
    refine ⟨fun p m _ => ⟨hk, hc⟩, fun n hm => ?_⟩
    rcases h2 n hm with hm2 | ⟨_, _, ht, hab, hv⟩
    · simp at hm2
    · exact ⟨(open_access_bits_write flags).1 hab, ht, fun hn => absurd hk hn, hv⟩
  · intro hnc hperm h
    rw [e1] at h hnc hperm
    obtain ⟨h1, h2⟩ := sys_open_finish_log ops (logged s) flags (open_access_bits flags) _ _ _
      hlen' v sl h
    refine ⟨fun p m hm => ?_, fun n hm => ?_⟩
    · have := h1 p m hm
      simp at this
    · rcases h2 n hm with hm2 | ⟨hn, hn0, ht, hab, hv⟩
      · simp at hm2
      · have hw := (open_access_bits_write flags).1 hab
        exact ⟨hw, ht, fun hk => ⟨hn, hperm hk hw⟩, hv⟩

theorem sys_open_finish_read_only {F : Type} (ops : kernel_ops F) (s : kstate F)
    (flags ab : Int) (node : Nat) (fs2 : F) (ht : Int.land flags O_TRUNC ≠ 0)
    (hab : Int.land ab 2 = 0) (v : Int) (s' : kstate F)
    (h : sys_open_finish ops s flags ab node fs2 = Outcome.ret (v, s')) :
    s' = { s with fs := s'.fs } ∧ (v = -ENOTDIR ∨ v = -EINVAL ∨ v = -ENOENT) := by
  revert h
  refine sys_open_finish_elim ops s flags ab node fs2
    (fun o => o = Outcome.ret (v, s') → _) ?_ ?_ ?_ ?_ ?_
  · intro _ _ _ h; injection h with h1; injection h1 with h2 h3; subst h3; subst h2
    exact ⟨rfl, Or.inl rfl⟩
  · intro _ _ _ h; injection h with h1; injection h1 with h2 h3; subst h3; subst h2
    exact ⟨rfl, Or.inr (Or.inl rfl)⟩
  · intro _ h; injection h with h1; injection h1 with h2 h3; subst h3; subst h2
    exact ⟨rfl, Or.inr (Or.inr rfl)⟩
  · intro _ _ hx _; exact absurd hab (hx ht)
  · intro _ hx _; exact absurd hab (hx ht)

theorem sys_open_shape {F : Type} (ops : kernel_ops F) (s : kstate F) (file : Nat)
    (flags mode : Int) (hlen : (cur_table s).length < 2 ^ 63) (v : Int) (s' : kstate F)
    (h : sys_open ops s file flags mode = Outcome.ret (v, s')) (hneg : v < 0) :
    s' = { s with fs := s'.fs } := by
  revert h
  refine sys_open_elim ops s file flags mode
    (fun o => o = Outcome.ret (v, s') → _) ?_ ?_ ?_ ?_ ?_ ?_ ?_ ?_
  · intro _ h; exact Outcome.noConfusion h
  · intro _ _ _ h; injection h with h1; injection h1 with h2 h3; subst h3; rfl
  · intro _ _ _ h; injection h with h1; injection h1 with h2 h3; subst h3; rfl
  · intro _ _ _ h; injection h with h1; injection h1 with h2 h3; subst h3; rfl
  · intro _ _ h; injection h with h1; injection h1 with h2 h3; subst h3; rfl
  · intro _ _ _ h; injection h with h1; injection h1 with h2 h3; subst h3; rfl
  · intro _ _ _ h; exact sys_open_finish_error_shape ops s flags _ _ _ hlen v s' h hneg
  · intro _ _ h; exact sys_open_finish_error_shape ops s flags _ _ _ hlen v s' h hneg

theorem sys_open_read_only_shape {F : Type} (ops : kernel_ops F) (s : kstate F) (file : Nat)
    (flags mode : Int) (ht : Int.land flags O_TRUNC ≠ 0) (hw : Int.land flags O_WRONLY = 0)
    (hrw : Int.land flags O_RDWR = 0) (v : Int) (s' : kstate F)
    (h : sys_open ops s file flags mode = Outcome.ret (v, s')) :
    s' = { s with fs := s'.fs } := by
  have hab : Int.land (open_access_bits flags) 2 = 0 := by
    by_contra hc
    rcases (open_access_bits_write flags).1 hc with h1 | h1
    · exact h1 hrw
    · exact h1 hw
  revert h
  refine sys_open_elim ops s file flags mode
    (fun o => o = Outcome.ret (v, s') → _) ?_ ?_ ?_ ?_ ?_ ?_ ?_ ?_
  · intro _ h; exact Outcome.noConfusion h
  · intro _ _ _ h; injection h with h1; injection h1 with h2 h3; subst h3; rfl
  · intro _ _ _ h; injection h with h1; injection h1 with h2 h3; subst h3; rfl
  · intro _ _ _ h; injection h with h1; injection h1 with h2 h3; subst h3; rfl
  · intro _ _ h; injection h with h1; injection h1 with h2 h3; subst h3; rfl
  · intro _ _ _ h; injection h with h1; injection h1 with h2 h3; subst h3; rfl
  · intro _ _ _ h; exact (sys_open_finish_read_only ops s flags _ _ _ ht hab v s' h).1
  · intro _ _ h; exact (sys_open_finish_read_only ops s flags _ _ _ ht hab v s' h).1

theorem sys_open_read_only_einval {F : Type} (ops : kernel_ops F) (s : kstate F) (file : Nat)
    (flags mode : Int) (ht : Int.land flags O_TRUNC ≠ 0) (hw : Int.land flags O_WRONLY = 0)
    (hrw : Int.land flags O_RDWR = 0)
    (hv : ptr_validate s file = Outcome.ret ())
    (hk : (open_lookup ops s file flags).1 ≠ 0)
    (hx : ¬ (Int.land flags O_CREAT ≠ 0 ∧ Int.land flags O_EXCL ≠ 0))
    (hr : ops.has_permission (open_lookup ops s file flags).2 (cur_proc s)
      (open_lookup ops s file flags).1 4 = true)
    (hd : ¬ (Int.land flags O_DIRECTORY ≠ 0 ∧
      Nat.land (ops.node_flags (open_lookup ops s file flags).2
        (open_lookup ops s file flags).1) FS_DIRECTORY = 0)) :
    sys_open ops s file flags mode
      = Outcome.ret (-EINVAL,
          { s with fs := (ops.close_fs (open_lookup ops s file flags).2
              (open_lookup ops s file flags).1) }) := by
  have hab : Int.land (open_access_bits flags) 2 = 0 := by
    by_contra hc
    rcases (open_access_bits_write flags).1 hc with h1 | h1
    · exact h1 hrw
    · exact h1 hw
  refine sys_open_elim ops s file flags mode
    (fun o => o = Outcome.ret (-EINVAL,
          { s with fs := (ops.close_fs (open_lookup ops s file flags).2
              (open_lookup ops s file flags).1) })) ?_ ?_ ?_ ?_ ?_ ?_ ?_ ?_
  · intro h; rw [hv] at h; exact Outcome.noConfusion h
  · intro _ h1 h2; exact absurd ⟨h1, h2⟩ hx
  · intro _ _ h; rw [hr] at h; exact Bool.noConfusion h
  · intro _ h _; rcases h with h | h
    · exact absurd hrw h
    · exact absurd hw h
  · intro _ h; rcases h with h | h
    · exact absurd hrw h
    · exact absurd hw h
  · intro h; exact absurd h hk
  · intro h; exact absurd h hk
  · intro _ _
    refine sys_open_finish_elim ops s flags (open_access_bits flags) _ _
      (fun o => o = Outcome.ret (-EINVAL,
          { s with fs := (ops.close_fs (open_lookup ops s file flags).2
              (open_lookup ops s file flags).1) })) ?_ ?_ ?_ ?_ ?_
    · intro _ h1 h2; exact absurd ⟨h1, h2⟩ hd
    · intro _ _ _; rfl
    · intro h; exact absurd h hk
    · intro _ _ h; exact absurd hab (h ht)
    · intro _ h; exact absurd hab (h ht)

theorem sys_open_calls {F : Type} (ops : kernel_ops F) (s : kstate F) (file : Nat)
    (flags mode : Int) (hlen : (cur_table s).length < 2 ^ 63) (n : Nat)
    (h : vfs_call.truncate_fs n ∈ calls (sys_open (log_ops ops) (logged s) file flags mode)) :
    (Int.land flags O_RDWR ≠ 0 ∨ Int.land flags O_WRONLY ≠ 0) ∧
    Int.land flags O_TRUNC ≠ 0 ∧
    ((open_lookup ops s file flags).1 ≠ 0 →
      n = (open_lookup ops s file flags).1 ∧
      ops.has_permission (open_lookup ops s file flags).2 (cur_proc s)
        (open_lookup ops s file flags).1 2 = true) := by
  cases ho : sys_open (log_ops ops) (logged s) file flags mode with
  | halt => rw [ho] at h; simp [calls] at h
  | ret r =>
    rw [ho] at h
    obtain ⟨v, sl⟩ := r
    have := (sys_open_log ops s file flags mode hlen v sl ho).2 n h
    exact ⟨this.1, this.2.1, this.2.2.1⟩
/-- C18, amended. With a descriptor table shorter than 2^63, whenever `sys_open`
returns a negative value the processes and the descriptor tables are those from
before the call: the state returned differs from the state before at most in
the filesystem state, so no descriptor was added or altered. In such a call
`create_file_fs` was called only if the first lookup found no node and the
flags contain `O_CREAT`, and `truncate_fs` was called only if the flags contain
`O_CREAT` and the value returned is `-EISDIR`; a call without `O_CREAT` that
returns a negative value creates no file and truncates none. -/
theorem sys_open_error_effects {F : Type} (ops : kernel_ops F) (s : kstate F)
    (file : Nat) (flags mode : Int) (hlen : (cur_table s).length < 2 ^ 63) :
    (∀ (v : Int) (s' : kstate F), sys_open ops s file flags mode = Outcome.ret (v, s') →
      v < 0 → s' = { s with fs := s'.fs }) ∧
    (∀ (v : Int) (sl : kstate (F × List vfs_call)),
      sys_open (log_ops ops) (logged s) file flags mode = Outcome.ret (v, sl) → v < 0 →
      (∀ p m, vfs_call.create_file_fs p m ∈ sl.fs.2 →
        (open_lookup ops s file flags).1 = 0 ∧ Int.land flags O_CREAT ≠ 0) ∧
      (∀ n, vfs_call.truncate_fs n ∈ sl.fs.2 →
        v = -EISDIR ∧ Int.land flags O_CREAT ≠ 0)) := by
  refine ⟨fun v s' h hneg => sys_open_shape ops s file flags mode hlen v s' h hneg,
    fun v sl h hneg => ?_⟩
  obtain ⟨h1, h2⟩ := sys_open_log ops s file flags mode hlen v sl h
  exact ⟨h1, fun n hn => (h2 n hn).2.2.2 hneg⟩

/-- Witness for C18: the new path `0x2000` opened with `O_CREAT | O_DIRECTORY`;
the call returns `-ENOTDIR` and the state differs from the one before in the
filesystem state only. -/
theorem sys_open_error_effects_witness :
    (cur_table toy_state).length < 2 ^ 63 ∧
    sys_open toy_ops toy_state 0x2000 (Int.lor O_CREAT O_DIRECTORY) 0o644
      = Outcome.ret (-ENOTDIR,
          { toy_state with
              fs := { toy_state.fs with present := 0x2000 :: toy_state.fs.present } }) ∧
    ({ toy_state with
        fs := { toy_state.fs with present := 0x2000 :: toy_state.fs.present } } : kstate toy_fs)
      = { toy_state with
          fs := { toy_state.fs with present := 0x2000 :: toy_state.fs.present } } :=
  ⟨by decide, by rfl,
    (sys_open_error_effects toy_ops toy_state 0x2000 (Int.lor O_CREAT O_DIRECTORY) 0o644
      (by decide)).1 (-ENOTDIR) _ (by rfl) (by decide)⟩

/-- C18, counterexample. The path `0x2000` names no node; opened with
`O_CREAT | O_DIRECTORY` and mode 0644, `sys_open` calls `create_file_fs`, which
creates the file, and then returns the negative value `-ENOTDIR`: the path that
was absent before the call is present after it. -/
theorem sys_open_error_counterexample :
    0x2000 ∉ toy_state.fs.present ∧
    (sys_open toy_ops toy_state 0x2000 (Int.lor O_CREAT O_DIRECTORY) 0o644).returns (fun r =>
      r.1 = -ENOTDIR ∧ r.1 < 0 ∧ 0x2000 ∈ r.2.fs.present ∧ r.2.fs ≠ toy_state.fs) ∧
    calls (sys_open (log_ops toy_ops) (logged toy_state) 0x2000
        (Int.lor O_CREAT O_DIRECTORY) 0o644)
      = [vfs_call.kopen 0x2000 (Int.lor O_CREAT O_DIRECTORY),
          vfs_call.create_file_fs 0x2000 0o644,
          vfs_call.kopen 0x2000 (Int.lor O_CREAT O_DIRECTORY)] := by
  decide

/-- C20, amended. With a descriptor table shorter than 2^63: for every flags
value containing `O_TRUNC` but neither `O_WRONLY` nor `O_RDWR`, `truncate_fs` is
never called and every return of `sys_open` leaves the processes and descriptor
tables as before (no descriptor is added); the value returned is `-EINVAL` when
the path pointer is accepted, the path resolves to a node, the call is not
create-exclusive, read permission is granted and the call does not ask for
`O_DIRECTORY` on a node that is not a directory. For all flags, whenever
`truncate_fs` is called the flags contain `O_TRUNC` and `O_WRONLY` or `O_RDWR`,
and if the first lookup found a node, that node is the one truncated and
`has_permission(node, 02)` answered yes. -/
theorem sys_open_truncate_gate {F : Type} (ops : kernel_ops F) (s : kstate F)
    (file : Nat) (flags mode : Int) (hlen : (cur_table s).length < 2 ^ 63) :
    (Int.land flags O_TRUNC ≠ 0 → Int.land flags O_WRONLY = 0 → Int.land flags O_RDWR = 0 →
      (∀ n, vfs_call.truncate_fs n ∉
        calls (sys_open (log_ops ops) (logged s) file flags mode)) ∧
      (∀ (v : Int) (s' : kstate F), sys_open ops s file flags mode = Outcome.ret (v, s') →
        s' = { s with fs := s'.fs }) ∧
      (ptr_validate s file = Outcome.ret () →
        (open_lookup ops s file flags).1 ≠ 0 →
        ¬ (Int.land flags O_CREAT ≠ 0 ∧ Int.land flags O_EXCL ≠ 0) →
        ops.has_permission (open_lookup ops s file flags).2 (cur_proc s)
          (open_lookup ops s file flags).1 4 = true →
        ¬ (Int.land flags O_DIRECTORY ≠ 0 ∧
          Nat.land (ops.node_flags (open_lookup ops s file flags).2
            (open_lookup ops s file flags).1) FS_DIRECTORY = 0) →
        sys_open ops s file flags mode
          = Outcome.ret (-EINVAL,
              { s with fs := (ops.close_fs (open_lookup ops s file flags).2
                  (open_lookup ops s file flags).1) }))) ∧
    (∀ n, vfs_call.truncate_fs n ∈ calls (sys_open (log_ops ops) (logged s) file flags mode) →
      (Int.land flags O_RDWR ≠ 0 ∨ Int.land flags O_WRONLY ≠ 0) ∧
      Int.land flags O_TRUNC ≠ 0 ∧
      ((open_lookup ops s file flags).1 ≠ 0 →
        n = (open_lookup ops s file flags).1 ∧
        ops.has_permission (open_lookup ops s file flags).2 (cur_proc s)
          (open_lookup ops s file flags).1 2 = true)) := by
  refine ⟨fun ht hw hrw => ⟨fun n hn => ?_,
    fun v s' h => sys_open_read_only_shape ops s file flags mode ht hw hrw v s' h,
    fun hv hk hx hr hd =>
      sys_open_read_only_einval ops s file flags mode ht hw hrw hv hk hx hr hd⟩,
    fun n hn => sys_open_calls ops s file flags mode hlen n hn⟩
  rcases (sys_open_calls ops s file flags mode hlen n hn).1 with h | h
  · exact h hrw
  · exact h hw

/-- Witness for C20: the file at path `0x3000` opened with `O_TRUNC` alone;
the call returns `-EINVAL`, and the state is the one before. -/
theorem sys_open_truncate_gate_witness :
    (cur_table toy_state).length < 2 ^ 63 ∧
    sys_open toy_ops toy_state 0x3000 O_TRUNC 0
      = Outcome.ret (-EINVAL,
          { toy_state with fs := (toy_ops.close_fs
              (open_lookup toy_ops toy_state 0x3000 O_TRUNC).2
              (open_lookup toy_ops toy_state 0x3000 O_TRUNC).1) }) :=
  ⟨by decide,
    ((sys_open_truncate_gate toy_ops toy_state 0x3000 O_TRUNC 0 (by decide)).1
      (by decide) (by decide) (by decide)).2.2 (by rfl) (by decide) (by decide) (by decide)
      (by decide)⟩

/-- C20, counterexample. The flags `O_TRUNC` alone contain neither `O_WRONLY`
nor `O_RDWR`; on the path `0x2000`, which names no node, `sys_open` returns
`-ENOENT`, not `-EINVAL`. And with `O_CREAT | O_TRUNC | O_WRONLY` on the same
path, in a filesystem where `has_permission` answers no for the node of that
path, the file is created and `truncate_fs` is called on the new node, on which
no permission check was made. -/
theorem sys_open_truncate_counterexample :
    Int.land O_TRUNC O_TRUNC ≠ 0 ∧ Int.land O_TRUNC O_WRONLY = 0 ∧
    Int.land O_TRUNC O_RDWR = 0 ∧
    (sys_open toy_ops toy_state 0x2000 O_TRUNC 0).returns (fun r => r.1 = -ENOENT) ∧
    ¬ (sys_open toy_ops toy_state 0x2000 O_TRUNC 0).returns (fun r => r.1 = -EINVAL) ∧
    toy_ops.has_permission { toy_state.fs with denied := [0x2000] } (cur_proc toy_state)
      0x2000 2 = false ∧
    calls (sys_open (log_ops toy_ops)
        (logged { toy_state with fs := { toy_state.fs with denied := [0x2000] } }) 0x2000
        (Int.lor O_CREAT (Int.lor O_TRUNC O_WRONLY)) 0o644)
      = [vfs_call.kopen 0x2000 (Int.lor O_CREAT (Int.lor O_TRUNC O_WRONLY)),
          vfs_call.create_file_fs 0x2000 0o644,
          vfs_call.kopen 0x2000 (Int.lor O_CREAT (Int.lor O_TRUNC O_WRONLY)),
          vfs_call.truncate_fs 0x2000] := by
  decide

/-! ## Sessions and jobs -/

/-- C22. `sys_setsid` returns `-EPERM` and changes nothing when the caller's
`job` equals its `group`; otherwise it sets both `session` and `job` of the
caller to its `group`, changes nothing else and returns that value. In either
case a `sys_setsid` that follows by the same process returns `-EPERM` and
changes nothing. -/
theorem sys_setsid_spec {F : Type} (s : kstate F) :
    ((cur_proc s).job = (cur_proc s).group → sys_setsid s = Outcome.ret (-EPERM, s)) ∧
    ((cur_proc s).job ≠ (cur_proc s).group →
      sys_setsid s
        = Outcome.ret ((cur_proc s).group,
            set_cur_proc s
              { cur_proc s with session := (cur_proc s).group, job := (cur_proc s).group })) ∧
    (sys_setsid s).returns (fun r =>
      (r.2.current_process = s.current_process) ∧
      ((cur_proc s).job ≠ (cur_proc s).group →
        r.1 = (cur_proc s).group ∧ (cur_proc r.2).session = (cur_proc s).group ∧
        (cur_proc r.2).job = (cur_proc s).group ∧ (cur_proc r.2).group = (cur_proc s).group) ∧
      sys_setsid r.2 = Outcome.ret (-EPERM, r.2)) := by
  by_cases h : (cur_proc s).job = (cur_proc s).group
  · have e : sys_setsid s = Outcome.ret (-EPERM, s) := by
      unfold sys_setsid
      rw [if_pos h]
    refine ⟨fun _ => e, fun hn => absurd h hn, ?_⟩
    rw [e]
    exact ⟨rfl, fun hn => absurd h hn, e⟩
  · have e : sys_setsid s
        = Outcome.ret ((cur_proc s).group,
            set_cur_proc s
              { cur_proc s with session := (cur_proc s).group, job := (cur_proc s).group }) := by
      unfold sys_setsid
      rw [if_neg h]
    refine ⟨fun hn => absurd hn h, fun _ => e, ?_⟩
    rw [e]
    have hc : cur_proc (set_cur_proc s
        { cur_proc s with session := (cur_proc s).group, job := (cur_proc s).group })
        = { cur_proc s with session := (cur_proc s).group, job := (cur_proc s).group } := by
      simp [cur_proc, set_cur_proc]
    refine ⟨rfl, fun _ => ⟨rfl, ?_, ?_, ?_⟩, ?_⟩
    · show (cur_proc _).session = _
      rw [hc]
    · show (cur_proc _).job = _
      rw [hc]
    · show (cur_proc _).group = _
      rw [hc]
    · show sys_setsid _ = _
      unfold sys_setsid
      rw [hc, if_pos rfl]

/-- Witness for C22: a process of group 5 in job 3 becomes the leader of
session 5, and its second call is refused. -/
theorem sys_setsid_spec_witness :
    (sys_setsid toy_state_member).returns (fun r =>
      r.1 = 5 ∧ (cur_proc r.2).session = 5 ∧ (cur_proc r.2).job = 5 ∧
        sys_setsid r.2 = Outcome.ret (-EPERM, r.2)) := by
  have h := (sys_setsid_spec toy_state_member).2.1 (by decide)
  have h2 := (sys_setsid_spec toy_state_member).2.2
  rw [h] at h2 ⊢
  obtain ⟨_, h3, h4⟩ := h2
  obtain ⟨_, h5, h6, _⟩ := h3 (by decide)
  exact ⟨rfl, h5, h6, h4⟩

/-- C23. `sys_setpgid(pid, pgid)` always returns. When it returns 0, `pid` and
`pgid` are both 0, the caller is not the leader of its session (its `session`
differs from its `group`), and the state afterwards differs from the state
before only in the caller's `job`, which is now the caller's own `group`; the
other records, and the `group` and `session` of the caller, are unchanged, and
`sys_getpgid(0)` then returns that group. When it returns any other value, the
value is `-EINVAL` if `pgid < 0`, else `-ESRCH` if `pid` is not 0 (no target),
else `-EPERM`, each negative, and the state is unchanged. -/
theorem sys_setpgid_spec {F : Type} (s : kstate F) (pid pgid : Int) :
    (∃ v s', sys_setpgid s pid pgid = Outcome.ret (v, s')) ∧
    (∀ s', sys_setpgid s pid pgid = Outcome.ret (0, s') →
      pid = 0 ∧ pgid = 0 ∧ (cur_proc s).session ≠ (cur_proc s).group ∧
      s' = set_cur_proc s { cur_proc s with job := (cur_proc s).group } ∧
      (∀ p, p ≠ s.current_process → s'.procs p = s.procs p) ∧
      (cur_proc s').job = (cur_proc s).group ∧
      (cur_proc s').group = (cur_proc s).group ∧
      (cur_proc s').session = (cur_proc s).session ∧
      sys_getpgid s' 0 = Outcome.ret ((cur_proc s).group, s')) ∧
    (∀ v s', sys_setpgid s pid pgid = Outcome.ret (v, s') → v ≠ 0 →
      s' = s ∧ v < 0 ∧
      v = (if pgid < 0 then -EINVAL else if pid ≠ 0 then -ESRCH else -EPERM)) := by
  unfold sys_setpgid
  by_cases h1 : pgid < 0
  · rw [if_pos h1]
    refine ⟨⟨_, _, rfl⟩, fun s' h => ?_, fun v s' h hv => ?_⟩
    · injection h with h; injection h with h2 h3
      exact absurd h2 (by decide)
    · injection h with h; injection h with h2 h3
      subst h2; subst h3
      exact ⟨rfl, by decide, by rw [if_pos h1]⟩
  rw [if_neg h1]
  by_cases h2 : pid ≠ 0
  · rw [if_pos h2]
    refine ⟨⟨_, _, rfl⟩, fun s' h => ?_, fun v s' h hv => ?_⟩
    · injection h with h; injection h with h2 h3
      exact absurd h2 (by decide)
    · injection h with h; injection h with h2 h3
      subst h2; subst h3
      exact ⟨rfl, by decide, by rw [if_neg h1, if_pos h2]⟩
  rw [if_neg h2]
  by_cases h3 : (cur_proc s).session ≠ (cur_proc s).session ∨
      (cur_proc s).session = (cur_proc s).group
  · rw [if_pos h3]
    refine ⟨⟨_, _, rfl⟩, fun s' h => ?_, fun v s' h hv => ?_⟩
    · injection h with h; injection h with h2 h3
      exact absurd h2 (by decide)
    · injection h with h; injection h with h2 h3
      subst h2; subst h3
      exact ⟨rfl, by decide, by rw [if_neg h1, if_neg h2]⟩
  rw [if_neg h3]
  by_cases h4 : pgid = 0
  · rw [if_pos h4]
    refine ⟨⟨_, _, rfl⟩, fun s' h => ?_, fun v s' h hv => ?_⟩
    · injection h with h; injection h with h5 h6
      subst h6
      have hc : cur_proc (set_cur_proc s { cur_proc s with job := (cur_proc s).group })
          = { cur_proc s with job := (cur_proc s).group } := by
        simp [cur_proc, set_cur_proc]
      refine ⟨not_not.mp h2, h4, fun hc => h3 (Or.inr hc), rfl, fun p hp => ?_, ?_, ?_, ?_, ?_⟩
      · simp [set_cur_proc, Function.update_noteq hp]
      · rw [hc]
      · rw [hc]
      · rw [hc]
      · unfold sys_getpgid
        rw [if_pos rfl, hc]
    · injection h with h; injection h with h5 h6
      exact absurd h5.symm hv
  · rw [if_neg h4]
    refine ⟨⟨_, _, rfl⟩, fun s' h => ?_, fun v s' h hv => ?_⟩
    · injection h with h; injection h with h2 h3
      exact absurd h2 (by decide)
    · injection h with h; injection h with h5 h6
      subst h5; subst h6
      exact ⟨rfl, by decide, by rw [if_neg h1, if_neg h2]⟩

/-- Witness for C23: a process of group 5 in job 3 of session 3 moves itself to
its own job, and a request to join job 3 is refused. -/
theorem sys_setpgid_spec_witness :
    sys_getpgid (set_cur_proc toy_state_member
        { cur_proc toy_state_member with job := (cur_proc toy_state_member).group }) 0
      = Outcome.ret (5, set_cur_proc toy_state_member
        { cur_proc toy_state_member with job := (cur_proc toy_state_member).group }) ∧
    (-EPERM : Int) < 0 :=
  ⟨((sys_setpgid_spec toy_state_member 0 0).2.1 _ (by rfl)).2.2.2.2.2.2.2.2,
    ((sys_setpgid_spec toy_state_member 0 3).2.2 (-EPERM) toy_state_member (by rfl)
      (by decide)).2.1⟩

theorem open_access_bits_read (flags : Int) :
    Int.land (open_access_bits flags) 1 ≠ 0 ↔
      (Int.land flags O_WRONLY = 0 ∨ Int.land flags O_RDWR ≠ 0) := by
  unfold open_access_bits
  by_cases hw : Int.land flags O_RDWR ≠ 0 ∨ Int.land flags O_WRONLY ≠ 0
  · by_cases hr : Int.land flags O_WRONLY = 0 ∨ Int.land flags O_RDWR ≠ 0
    · rw [if_pos hw, if_pos hr]; simp only [hr, iff_true]; decide
    · rw [if_pos hw, if_neg hr]; simp only [hr, iff_false, not_not]; decide
  · by_cases hr : Int.land flags O_WRONLY = 0 ∨ Int.land flags O_RDWR ≠ 0
    · rw [if_neg hw, if_pos hr]; simp only [hr, iff_true]; decide
    · rw [if_neg hw, if_neg hr]; simp only [hr, iff_false, not_not]; decide

theorem open_access_bits_range (flags : Int) :
    open_access_bits flags = 1 ∨ open_access_bits flags = 2 ∨ open_access_bits flags = 3 := by
  unfold open_access_bits
  by_cases hw : Int.land flags O_RDWR ≠ 0 ∨ Int.land flags O_WRONLY ≠ 0
  · by_cases hr : Int.land flags O_WRONLY = 0 ∨ Int.land flags O_RDWR ≠ 0
    · rw [if_pos hw, if_pos hr]; decide
    · rw [if_pos hw, if_neg hr]; decide
  · by_cases hr : Int.land flags O_WRONLY = 0 ∨ Int.land flags O_RDWR ≠ 0
    · rw [if_neg hw, if_pos hr]; decide
    · exfalso
      apply hr
      by_contra hc
      apply hw
      right
      intro h0
      exact hc (Or.inl h0)

theorem open_final_table {F : Type} (s : kstate F) (node : Nat) (ab : Int) (off : Nat)
    (hlen : (cur_table s).length < 2 ^ 63) :
    cur_table (set_FD_OFFSET
        (set_FD_MODE (Kernel.process_append_fd s s.current_process node).2
          (to_long (Kernel.process_append_fd s s.current_process node).1) ab)
        (to_long (Kernel.process_append_fd s s.current_process node).1) off)
      = { (process_append_fd (cur_table s) node).2 with
            modes := Function.update (process_append_fd (cur_table s) node).2.modes
              (gap_index (cur_table s)) ab
            offsets := Function.update (process_append_fd (cur_table s) node).2.offsets
              (gap_index (cur_table s)) off } ∧
    (set_FD_OFFSET
        (set_FD_MODE (Kernel.process_append_fd s s.current_process node).2
          (to_long (Kernel.process_append_fd s s.current_process node).1) ab)
        (to_long (Kernel.process_append_fd s s.current_process node).1) off).procs = s.procs ∧
    (set_FD_OFFSET
        (set_FD_MODE (Kernel.process_append_fd s s.current_process node).2
          (to_long (Kernel.process_append_fd s s.current_process node).1) ab)
        (to_long (Kernel.process_append_fd s s.current_process node).1) off).current_process
      = s.current_process ∧
    (set_FD_OFFSET
        (set_FD_MODE (Kernel.process_append_fd s s.current_process node).2
          (to_long (Kernel.process_append_fd s s.current_process node).1) ab)
        (to_long (Kernel.process_append_fd s s.current_process node).1) off).fs = s.fs ∧
    (∀ a, a ≠ cur_fds s →
      (set_FD_OFFSET
        (set_FD_MODE (Kernel.process_append_fd s s.current_process node).2
          (to_long (Kernel.process_append_fd s s.current_process node).1) ab)
        (to_long (Kernel.process_append_fd s s.current_process node).1) off).tables a
        = s.tables a) := by
  have hlen' : (s.tables (s.procs s.current_process).fds).length < 2 ^ 63 := hlen
  have hfst : (process_append_fd (s.tables (s.procs s.current_process).fds) node).1
      = gap_index (s.tables (s.procs s.current_process).fds) :=
    append_fst _ node (by omega)
  have hgi : to_long (gap_index (s.tables (s.procs s.current_process).fds))
      = (gap_index (s.tables (s.procs s.current_process).fds) : Int) :=
    to_long_of_lt _ (by
      have := gap_index_le (s.tables (s.procs s.current_process).fds); omega)
  have hidx : idx ((gap_index (s.tables (s.procs s.current_process).fds) : Nat) : Int)
      = gap_index (s.tables (s.procs s.current_process).fds) :=
    Int.toNat_ofNat _
  refine ⟨?_, rfl, rfl, rfl, fun a ha => ?_⟩
  · simp only [set_FD_OFFSET, set_FD_MODE, set_cur_table, cur_table, cur_fds,
      Kernel.process_append_fd, Function.update_same, hfst, hgi, hidx]
  · have ha' : a ≠ (s.procs s.current_process).fds := ha
    simp only [set_FD_OFFSET, set_FD_MODE, set_cur_table, cur_table, cur_fds,
      Kernel.process_append_fd, Function.update_noteq ha']
theorem sys_open_finish_success {F : Type} (ops : kernel_ops F) (s : kstate F)
    (flags ab : Int) (node : Nat) (fs2 : F) (hlen : (cur_table s).length < 2 ^ 63)
    (v : Int) (s' : kstate F)
    (h : sys_open_finish ops s flags ab node fs2 = Outcome.ret (v, s')) (hv : 0 ≤ v) :
    node ≠ 0 ∧ v = (gap_index (cur_table s) : Int) ∧
    (cur_table s').entries (gap_index (cur_table s)) = node ∧
    (cur_table s').modes (gap_index (cur_table s)) = ab ∧
    (cur_table s').offsets (gap_index (cur_table s))
      = (if Int.land flags O_APPEND ≠ 0 then ops.node_length s'.fs node else 0) ∧
    (∀ j, j ≠ gap_index (cur_table s) →
      (cur_table s').entries j = (cur_table s).entries j ∧
      (cur_table s').modes j = (cur_table s).modes j ∧
      (cur_table s').offsets j = (cur_table s).offsets j) ∧
    (cur_table s').refs = (cur_table s).refs ∧
    s'.procs = s.procs ∧ s'.current_process = s.current_process ∧
    (∀ a, a ≠ cur_fds s → s'.tables a = s.tables a) := by
  revert h
  refine sys_open_finish_elim ops s flags ab node fs2
    (fun o => o = Outcome.ret (v, s') → _) ?_ ?_ ?_ ?_ ?_
  · intro _ _ _ h; injection h with h1; injection h1 with h2 h3; subst h2
    exact absurd hv (by decide)
  · intro _ _ _ h; injection h with h1; injection h1 with h2 h3; subst h2
    exact absurd hv (by decide)
  · intro _ h; injection h with h1; injection h1 with h2 h3; subst h2
    exact absurd hv (by decide)
  · intro _ _ _ h; injection h with h1; injection h1 with h2 h3; subst h2
    exact absurd hv (by decide)
  · intro hn _ h
    injection h with h1
    injection h1 with h2 h3
    obtain ⟨e1, e2, e3, e4, e5⟩ :=
      open_final_table
        ({ s with fs :=
            (if node ≠ 0 ∧ Int.land flags O_TRUNC ≠ 0 then ops.truncate_fs fs2 node
             else fs2) } : kstate F) node ab
        (if Int.land flags O_APPEND ≠ 0 then
          ops.node_length
            (if node ≠ 0 ∧ Int.land flags O_TRUNC ≠ 0 then ops.truncate_fs fs2 node
             else fs2) node
         else 0) hlen
    rw [h3] at e1 e2 e3 e4 e5
    have hlen' : (cur_table s).length < 2 ^ 64 := by omega
    have hfst : (Kernel.process_append_fd
        ({ s with fs :=
            (if node ≠ 0 ∧ Int.land flags O_TRUNC ≠ 0 then ops.truncate_fs fs2 node
             else fs2) } : kstate F) s.current_process node).1 = gap_index (cur_table s) :=
      append_fst _ node hlen'
    have hgi : to_long (gap_index (cur_table s)) = (gap_index (cur_table s) : Int) :=
      to_long_of_lt _ (by have := gap_index_le (cur_table s); omega)
    have ct : cur_table ({ s with fs :=
            (if node ≠ 0 ∧ Int.land flags O_TRUNC ≠ 0 then ops.truncate_fs fs2 node
             else fs2) } : kstate F) = cur_table s := rfl
    have cf : cur_fds ({ s with fs :=
            (if node ≠ 0 ∧ Int.land flags O_TRUNC ≠ 0 then ops.truncate_fs fs2 node
             else fs2) } : kstate F) = cur_fds s := rfl
    rw [ct] at e1
    rw [cf] at e5
    obtain ⟨z1, z2, z3⟩ := append_zero_fields (cur_table s)
    have hsnd := append_snd (cur_table s) node
    refine ⟨hn, ?_, ?_, ?_, ?_, fun j hj => ⟨?_, ?_, ?_⟩, ?_, e2, e3, e5⟩
    · rw [← h2, hfst, hgi]
    · rw [e1]
      show (process_append_fd (cur_table s) node).2.entries _ = node
      rw [hsnd]
      simp only [Function.update_same]
    · rw [e1]
      simp only [Function.update_same]
    · rw [e1, e4]
      simp only [Function.update_same]
    · rw [e1]
      show (process_append_fd (cur_table s) node).2.entries _ = _
      rw [hsnd]
      simp only [Function.update_noteq hj]
    · rw [e1]
      show Function.update (process_append_fd (cur_table s) node).2.modes _ _ _ = _
      rw [Function.update_noteq hj, hsnd]
      show (process_append_fd (cur_table s) 0).2.modes j = _
      rw [z2, Function.update_noteq hj]
    · rw [e1]
      show Function.update (process_append_fd (cur_table s) node).2.offsets _ _ _ = _
      rw [Function.update_noteq hj, hsnd]
      show (process_append_fd (cur_table s) 0).2.offsets j = _
      rw [z3, Function.update_noteq hj]
    · rw [e1]
      show (process_append_fd (cur_table s) node).2.refs = _
      unfold process_append_fd
      cases scan_gap (cur_table s).entries 0 (cur_table s).length <;> rfl

theorem sys_open_success_slot {F : Type} (ops : kernel_ops F) (s : kstate F)
    (file : Nat) (flags mode : Int) (hlen : (cur_table s).length < 2 ^ 63)
    (hres : (open_create ops s file flags mode).1 ≤ 0)
    (v : Int) (s' : kstate F)
    (h : sys_open ops s file flags mode = Outcome.ret (v, s')) (hv : 0 ≤ v) :
    v = (gap_index (cur_table s) : Int) ∧
    (cur_table s').entries (gap_index (cur_table s)) ≠ 0 ∧
    (cur_table s').entries (gap_index (cur_table s))
      = (if (open_lookup ops s file flags).1 = 0 then (open_relookup ops s file flags mode).1
         else (open_lookup ops s file flags).1) ∧
    (cur_table s').modes (gap_index (cur_table s)) = open_access_bits flags ∧
    (cur_table s').offsets (gap_index (cur_table s))
      = (if Int.land flags O_APPEND ≠ 0 then
          ops.node_length s'.fs ((cur_table s').entries (gap_index (cur_table s)))
         else 0) ∧
    (∀ j, j ≠ gap_index (cur_table s) →
      (cur_table s').entries j = (cur_table s).entries j ∧
      (cur_table s').modes j = (cur_table s).modes j ∧
      (cur_table s').offsets j = (cur_table s).offsets j) ∧
    (cur_table s').refs = (cur_table s).refs ∧
    s'.procs = s.procs ∧ s'.current_process = s.current_process ∧
    (∀ a, a ≠ cur_fds s → s'.tables a = s.tables a) := by
  revert h
  refine sys_open_elim ops s file flags mode
    (fun o => o = Outcome.ret (v, s') → _) ?_ ?_ ?_ ?_ ?_ ?_ ?_ ?_
  · intro _ h; exact Outcome.noConfusion h
  · intro _ _ _ h; injection h with h1; injection h1 with h2 h3; subst h2
    exact absurd hv (by decide)
  · intro _ _ _ h; injection h with h1; injection h1 with h2 h3; subst h2
    exact absurd hv (by decide)
  · intro _ _ _ h; injection h with h1; injection h1 with h2 h3; subst h2
    exact absurd hv (by decide)
  · intro _ _ h; injection h with h1; injection h1 with h2 h3; subst h2
    exact absurd hv (by decide)
  · intro _ _ hne h; injection h with h1; injection h1 with h2 h3; subst h2
    exact absurd (le_antisymm hres hv) hne
  · intro hk _ _ h
    obtain ⟨a1, a2, a3, a4, a5, a6, a7, a8, a9, a10⟩ :=
      sys_open_finish_success ops s flags _ _ _ hlen v s' h hv
    rw [if_pos hk]
    refine ⟨a2, ?_, a3, a4, ?_, a6, a7, a8, a9, a10⟩
    · rw [a3]; exact a1
    · rw [a5, a3]
  · intro hk _ h
    obtain ⟨a1, a2, a3, a4, a5, a6, a7, a8, a9, a10⟩ :=
      sys_open_finish_success ops s flags _ _ _ hlen v s' h hv
    have hk0 : (open_lookup ops s file flags).1 ≠ 0 := a1
    rw [if_neg hk0]
    refine ⟨a2, ?_, a3, a4, ?_, a6, a7, a8, a9, a10⟩
    · rw [a3]; exact a1
    · rw [a5, a3]
/-- C21. With a descriptor table shorter than 2^63 and a `create_file_fs` that
answers 0 or a negative code, every `sys_open` that returns a value `v ≥ 0`
returns the smallest unused index of the caller's table (unused before the
call, and no smaller index was). Afterwards slot `v` holds the opened node (the
node of the first lookup, or of the second lookup when the first found none),
which is not null; its mode is exactly the access bits computed from the flags,
with the read bit 01 set iff `O_WRONLY` is clear or `O_RDWR` is set and the
write bit 02 set iff `O_WRONLY` or `O_RDWR` is set, and no other bit; its offset
is the node's length if `O_APPEND` is set and 0 otherwise; every other slot of
the table, its reference count, every other table and every process record are
unchanged. -/
theorem sys_open_descriptor {F : Type} (ops : kernel_ops F) (s : kstate F)
    (file : Nat) (flags mode : Int) (hlen : (cur_table s).length < 2 ^ 63)
    (hres : (open_create ops s file flags mode).1 ≤ 0)
    (v : Int) (s' : kstate F)
    (h : sys_open ops s file flags mode = Outcome.ret (v, s')) (hv : 0 ≤ v) :
    fd_unused (cur_table s) (idx v) ∧ (∀ j, j < idx v → ¬ fd_unused (cur_table s) j) ∧
    FD_ENTRY s' v ≠ 0 ∧
    FD_ENTRY s' v
      = (if (open_lookup ops s file flags).1 = 0 then (open_relookup ops s file flags mode).1
         else (open_lookup ops s file flags).1) ∧
    FD_MODE s' v = open_access_bits flags ∧
    (Int.land (FD_MODE s' v) 1 ≠ 0 ↔
      (Int.land flags O_WRONLY = 0 ∨ Int.land flags O_RDWR ≠ 0)) ∧
    (Int.land (FD_MODE s' v) 2 ≠ 0 ↔
      (Int.land flags O_RDWR ≠ 0 ∨ Int.land flags O_WRONLY ≠ 0)) ∧
    (FD_MODE s' v = 1 ∨ FD_MODE s' v = 2 ∨ FD_MODE s' v = 3) ∧
    FD_OFFSET s' v
      = (if Int.land flags O_APPEND ≠ 0 then ops.node_length s'.fs (FD_ENTRY s' v) else 0) ∧
    (∀ j, j ≠ idx v →
      (cur_table s').entries j = (cur_table s).entries j ∧
      (cur_table s').modes j = (cur_table s).modes j ∧
      (cur_table s').offsets j = (cur_table s).offsets j) ∧
    (cur_table s').refs = (cur_table s).refs ∧
    s'.procs = s.procs ∧ (∀ a, a ≠ cur_fds s → s'.tables a = s.tables a) := by
  obtain ⟨a1, a2, a3, a4, a5, a6, a7, a8, _, a10⟩ :=
    sys_open_success_slot ops s file flags mode hlen hres v s' h hv
  have hi : idx v = gap_index (cur_table s) := by
    rw [a1]; exact Int.toNat_ofNat _
  have hl := append_index_least (cur_table s) 0 (by omega)
  rw [append_fst (cur_table s) 0 (by omega)] at hl
  simp only [FD_ENTRY, FD_MODE, FD_OFFSET, hi]
  refine ⟨hl.1, hl.2, a2, a3, a4, ?_, ?_, ?_, a5, a6, a7, a8, a10⟩
  · rw [a4]; exact open_access_bits_read flags
  · rw [a4]; exact open_access_bits_write flags
  · rw [a4]; exact open_access_bits_range flags

/-- Witness for C21: the file at path `0x3000` opened with `O_RDWR` from the
boot table, whose first unused index is 3. -/
theorem sys_open_descriptor_witness :
    (cur_table toy_state).length < 2 ^ 63 ∧
    sys_open toy_ops toy_state 0x3000 O_RDWR 0
      = Outcome.ret (3,
          set_FD_OFFSET (set_FD_MODE (Kernel.process_append_fd toy_state 0 0x3000).2 3 3) 3 0) ∧
    FD_MODE
      (set_FD_OFFSET (set_FD_MODE (Kernel.process_append_fd toy_state 0 0x3000).2 3 3) 3 0) 3
      = open_access_bits O_RDWR ∧
    open_access_bits O_RDWR = 3 :=
  ⟨by decide, by rfl,
    (sys_open_descriptor toy_ops toy_state 0x3000 O_RDWR 0 (by decide) (by decide) 3 _
      (by rfl) (by decide)).2.2.2.2.1, by decide⟩

/-! ## The access mode of a descriptor in `sys_read` and `sys_write` -/

theorem set_FD_OFFSET_frame {F : Type} (s : kstate F) (f : F) (fd : Int) (x : Nat) :
    FD_OFFSET (set_FD_OFFSET ({ s with fs := f } : kstate F) fd x) fd = x ∧
    (∀ j, j ≠ idx fd →
      (cur_table (set_FD_OFFSET ({ s with fs := f } : kstate F) fd x)).offsets j
        = (cur_table s).offsets j) ∧
    (cur_table (set_FD_OFFSET ({ s with fs := f } : kstate F) fd x)).entries
      = (cur_table s).entries ∧
    (cur_table (set_FD_OFFSET ({ s with fs := f } : kstate F) fd x)).modes
      = (cur_table s).modes ∧
    (cur_table (set_FD_OFFSET ({ s with fs := f } : kstate F) fd x)).length
      = (cur_table s).length ∧
    (cur_table (set_FD_OFFSET ({ s with fs := f } : kstate F) fd x)).capacity
      = (cur_table s).capacity ∧
    (cur_table (set_FD_OFFSET ({ s with fs := f } : kstate F) fd x)).refs
      = (cur_table s).refs ∧
    (set_FD_OFFSET ({ s with fs := f } : kstate F) fd x).procs = s.procs ∧
    (∀ a, a ≠ cur_fds s →
      (set_FD_OFFSET ({ s with fs := f } : kstate F) fd x).tables a = s.tables a) ∧
    (set_FD_OFFSET ({ s with fs := f } : kstate F) fd x).fs = f := by
  refine ⟨?_, fun j hj => ?_, ?_, ?_, ?_, ?_, ?_, rfl, fun a ha => ?_, rfl⟩
  · simp [FD_OFFSET, set_FD_OFFSET, set_cur_table, cur_table, cur_fds]
  · simp [set_FD_OFFSET, set_cur_table, cur_table, cur_fds, Function.update_noteq hj]
  · simp [set_FD_OFFSET, set_cur_table, cur_table, cur_fds]
  · simp [set_FD_OFFSET, set_cur_table, cur_table, cur_fds]
  · simp [set_FD_OFFSET, set_cur_table, cur_table, cur_fds]
  · simp [set_FD_OFFSET, set_cur_table, cur_table, cur_fds]
  · simp [set_FD_OFFSET, set_cur_table, cur_table, cur_fds]
  · have ha' : a ≠ (s.procs s.current_process).fds := ha
    simp [set_FD_OFFSET, set_cur_table, cur_table, cur_fds, Function.update_noteq ha']

theorem offset_advance_exact (off : Nat) (n : Int) (h0 : 0 ≤ n)
    (h : (off : Int) + n < 2 ^ 64) :
    (((off + to_size_t n) % 2 ^ 64 : Nat) : Int) = (off : Int) + n := by
  have hn : n < 2 ^ 64 := by omega
  rw [to_size_t_of_nonneg n h0 hn]
  have h1 : (n.toNat : Int) = n := Int.toNat_of_nonneg h0
  have h2 : off + n.toNat < 2 ^ 64 := by omega
  rw [Nat.mod_eq_of_lt h2]
  push_cast
  omega

theorem sys_write_no_write_bit {F : Type} (ops : kernel_ops F) (s : kstate F) (fd : Int)
    (ptr len : Nat) (hm : Int.land (FD_MODE s fd) 2 = 0) :
    calls (sys_write (log_ops ops) (logged s) fd ptr len) = [] := by
  have hm' : Int.land (FD_MODE (logged s) fd) 2 = 0 := hm
  unfold sys_write
  by_cases hc : FD_CHECK (logged s) fd
  · rw [if_pos hc]
    cases hp : ptr_validate (logged s) ptr with
    | halt => rfl
    | ret u =>
      simp only
      rw [if_pos hm']
      rfl
  · rw [if_neg hc]
    rfl

theorem sys_read_no_read_bit {F : Type} (ops : kernel_ops F) (s : kstate F) (fd : Int)
    (ptr len : Nat) (hm : Int.land (FD_MODE s fd) 1 = 0) :
    calls (sys_read (log_ops ops) (logged s) fd ptr len) = [] := by
  have hm' : Int.land (FD_MODE (logged s) fd) 1 = 0 := hm
  unfold sys_read
  by_cases hc : FD_CHECK (logged s) fd
  · rw [if_pos hc]
    cases hp : ptr_validate (logged s) ptr with
    | halt => rfl
    | ret u =>
      simp only
      rw [if_pos hm']
      rfl
  · rw [if_neg hc]
    rfl

/-- C27, amended. For a descriptor `fd` that passes `FD_CHECK` and a buffer
pointer that `ptr_validate` accepts: when the mode of `fd` lacks the write bit 02,
`sys_write` returns `-EACCES`, changes nothing and makes no call; otherwise it
calls `write_fs` once on the node of `fd` at the offset of `fd`, returns the
count `n` that `write_fs` answers and adds `n` to the offset of `fd` (as a
64-bit value: exactly `n` more when `n ≥ 0` and the sum is below 2^64), while
the other offsets, every entry and mode, the length, capacity and reference
count of the table, every other table and every process record are unchanged.
`sys_read` does the same with the read bit 01 and `read_fs`. And a descriptor
returned by `sys_open` for flags with neither `O_WRONLY` nor `O_RDWR` has no
write bit: a `sys_write` on it, whatever the buffer, makes no call to
`write_fs`. -/
theorem sys_write_read_access {F : Type} (ops : kernel_ops F) (s : kstate F) (fd : Int)
    (ptr len : Nat) (hfd : FD_CHECK s fd) (hp : ptr_validate s ptr = Outcome.ret ()) :
    (Int.land (FD_MODE s fd) 2 = 0 →
      sys_write ops s fd ptr len = Outcome.ret (-EACCES, s) ∧
      calls (sys_write (log_ops ops) (logged s) fd ptr len) = []) ∧
    (Int.land (FD_MODE s fd) 2 ≠ 0 →
      calls (sys_write (log_ops ops) (logged s) fd ptr len)
        = [vfs_call.write_fs (FD_ENTRY s fd) (FD_OFFSET s fd) len ptr] ∧
      (sys_write ops s fd ptr len).returns (fun r =>
        r.1 = (ops.write_fs s.fs (FD_ENTRY s fd) (FD_OFFSET s fd) len ptr).1 ∧
        r.2.fs = (ops.write_fs s.fs (FD_ENTRY s fd) (FD_OFFSET s fd) len ptr).2 ∧
        FD_OFFSET r.2 fd = (FD_OFFSET s fd + to_size_t r.1) % 2 ^ 64 ∧
        (0 ≤ r.1 → (FD_OFFSET s fd : Int) + r.1 < 2 ^ 64 →
          (FD_OFFSET r.2 fd : Int) = (FD_OFFSET s fd : Int) + r.1) ∧
        (∀ j, j ≠ idx fd → (cur_table r.2).offsets j = (cur_table s).offsets j) ∧
        (cur_table r.2).entries = (cur_table s).entries ∧
        (cur_table r.2).modes = (cur_table s).modes ∧
        (cur_table r.2).length = (cur_table s).length ∧
        (cur_table r.2).capacity = (cur_table s).capacity ∧
        (cur_table r.2).refs = (cur_table s).refs ∧
        r.2.procs = s.procs ∧ (∀ a, a ≠ cur_fds s → r.2.tables a = s.tables a))) ∧
    (Int.land (FD_MODE s fd) 1 = 0 →
      sys_read ops s fd ptr len = Outcome.ret (-EACCES, s) ∧
      calls (sys_read (log_ops ops) (logged s) fd ptr len) = []) ∧
    (Int.land (FD_MODE s fd) 1 ≠ 0 →
      calls (sys_read (log_ops ops) (logged s) fd ptr len)
        = [vfs_call.read_fs (FD_ENTRY s fd) (FD_OFFSET s fd) len ptr] ∧
      (sys_read ops s fd ptr len).returns (fun r =>
        r.1 = (ops.read_fs s.fs (FD_ENTRY s fd) (FD_OFFSET s fd) len ptr).1 ∧
        r.2.fs = (ops.read_fs s.fs (FD_ENTRY s fd) (FD_OFFSET s fd) len ptr).2 ∧
        FD_OFFSET r.2 fd = (FD_OFFSET s fd + to_size_t r.1) % 2 ^ 64 ∧
        (0 ≤ r.1 → (FD_OFFSET s fd : Int) + r.1 < 2 ^ 64 →
          (FD_OFFSET r.2 fd : Int) = (FD_OFFSET s fd : Int) + r.1) ∧
        (∀ j, j ≠ idx fd → (cur_table r.2).offsets j = (cur_table s).offsets j) ∧
        (cur_table r.2).entries = (cur_table s).entries ∧
        (cur_table r.2).modes = (cur_table s).modes ∧
        (cur_table r.2).length = (cur_table s).length ∧
        (cur_table r.2).capacity = (cur_table s).capacity ∧
        (cur_table r.2).refs = (cur_table s).refs ∧
        r.2.procs = s.procs ∧ (∀ a, a ≠ cur_fds s → r.2.tables a = s.tables a))) ∧
    (∀ (s0 : kstate F) (file : Nat) (flags mode : Int) (v : Int),
      (cur_table s0).length < 2 ^ 63 → (open_create ops s0 file flags mode).1 ≤ 0 →
      sys_open ops s0 file flags mode = Outcome.ret (v, s) → 0 ≤ v →
      Int.land flags O_WRONLY = 0 → Int.land flags O_RDWR = 0 →
      ∀ (p l : Nat) (c : vfs_call),
        c ∈ calls (sys_write (log_ops ops) (logged s) v p l) →
        ∀ n o k q, c ≠ vfs_call.write_fs n o k q) := by
  have hfdl : FD_CHECK (logged s) fd := hfd
  have hpl : ptr_validate (logged s) ptr = Outcome.ret () := hp
  refine ⟨fun hm => ⟨?_, sys_write_no_write_bit ops s fd ptr len hm⟩, fun hm => ⟨?_, ?_⟩,
    fun hm => ⟨?_, sys_read_no_read_bit ops s fd ptr len hm⟩, fun hm => ⟨?_, ?_⟩, ?_⟩
  · unfold sys_write
    rw [if_pos hfd, hp]
    simp only
    rw [if_pos hm]
  · have hm' : ¬ Int.land (FD_MODE (logged s) fd) 2 = 0 := hm
    unfold sys_write
    rw [if_pos hfdl, hpl]
    simp only
    rw [if_neg hm']
    rfl
  · unfold sys_write
    rw [if_pos hfd, hp]
    simp only
    rw [if_neg hm]
    obtain ⟨f1, f2, f3, f4, f5, f6, f7, f8, f9, f10⟩ :=
      set_FD_OFFSET_frame s (ops.write_fs s.fs (FD_ENTRY s fd) (FD_OFFSET s fd) len ptr).2 fd
        ((FD_OFFSET s fd + to_size_t
          (ops.write_fs s.fs (FD_ENTRY s fd) (FD_OFFSET s fd) len ptr).1) % 2 ^ 64)
    refine ⟨rfl, f10, f1, fun h0 h1 => ?_, f2, f3, f4, f5, f6, f7, f8, f9⟩
    have e := offset_advance_exact (FD_OFFSET s fd) _ h0 h1
    rw [← f1] at e
    exact e
  · unfold sys_read
    rw [if_pos hfd, hp]
    simp only
    rw [if_pos hm]
  · have hm' : ¬ Int.land (FD_MODE (logged s) fd) 1 = 0 := hm
    unfold sys_read
    rw [if_pos hfdl, hpl]
    simp only
    rw [if_neg hm']
    rfl
  · unfold sys_read
    rw [if_pos hfd, hp]
    simp only
    rw [if_neg hm]
    obtain ⟨f1, f2, f3, f4, f5, f6, f7, f8, f9, f10⟩ :=
      set_FD_OFFSET_frame s (ops.read_fs s.fs (FD_ENTRY s fd) (FD_OFFSET s fd) len ptr).2 fd
        ((FD_OFFSET s fd + to_size_t
          (ops.read_fs s.fs (FD_ENTRY s fd) (FD_OFFSET s fd) len ptr).1) % 2 ^ 64)
    refine ⟨rfl, f10, f1, fun h0 h1 => ?_, f2, f3, f4, f5, f6, f7, f8, f9⟩
    have e := offset_advance_exact (FD_OFFSET s fd) _ h0 h1
    rw [← f1] at e
    exact e
  · intro s0 file flags mode v hlen hres ho hv hw hrw p l c hc
    obtain ⟨a1, _, _, a4, _⟩ := sys_open_success_slot ops s0 file flags mode hlen hres v s ho hv
    have hi : idx v = gap_index (cur_table s0) := by
      rw [a1]; exact Int.toNat_ofNat _
    have hm : Int.land (FD_MODE s v) 2 = 0 := by
      unfold FD_MODE
      rw [hi, a4]
      by_contra hne
      rcases (open_access_bits_write flags).1 hne with h1 | h1
      · exact h1 hrw
      · exact h1 hw
    rw [sys_write_no_write_bit ops s v p l hm] at hc
    simp at hc

/-- Witness for C27: on the boot table descriptor 0 is read-only and
descriptor 1 is write-only; a write of ten bytes is refused on the first and
advances the offset of the second by ten. -/
theorem sys_write_read_access_witness :
    sys_write toy_ops toy_state 0 0x5000 10 = Outcome.ret (-EACCES, toy_state) ∧
    (sys_write toy_ops toy_state 1 0x5000 10).returns (fun r =>
      r.1 = (toy_ops.write_fs toy_state.fs (FD_ENTRY toy_state 1) (FD_OFFSET toy_state 1)
        10 0x5000).1 ∧
      r.2.fs = (toy_ops.write_fs toy_state.fs (FD_ENTRY toy_state 1) (FD_OFFSET toy_state 1)
        10 0x5000).2 ∧
      FD_OFFSET r.2 1 = (FD_OFFSET toy_state 1 + to_size_t r.1) % 2 ^ 64) :=
  ⟨((sys_write_read_access toy_ops toy_state 0 0x5000 10 (by decide) (by rfl)).1
      (by decide)).1,
    by
      have h := ((sys_write_read_access toy_ops toy_state 1 0x5000 10 (by decide)
        (by rfl)).2.1 (by decide)).2
      cases ho : sys_write toy_ops toy_state 1 0x5000 10 with
      | halt => rw [ho] at h; exact h
      | ret r => rw [ho] at h; exact ⟨h.1, h.2.1, h.2.2.1⟩⟩

/-- C27, counterexample. Descriptor 0 of the boot table is valid and has
no write bit, yet a `sys_write` on it from the address 2^63, outside the
window of the caller, never returns: `ptr_validate` stops the kernel before
the mode is looked at, and `-EACCES` is not returned. `sys_read` on the
write-only descriptor 1 does the same. -/
theorem sys_write_bad_pointer_counterexample :
    FD_CHECK toy_state 0 ∧ Int.land (FD_MODE toy_state 0) 2 = 0 ∧
    sys_write toy_ops toy_state 0 (2 ^ 63) 10 = Outcome.halt ∧
    ¬ (sys_write toy_ops toy_state 0 (2 ^ 63) 10).returns (fun r => r.1 = -EACCES) ∧
    FD_CHECK toy_state 1 ∧ Int.land (FD_MODE toy_state 1) 1 = 0 ∧
    sys_read toy_ops toy_state 1 (2 ^ 63) 10 = Outcome.halt := by
  refine ⟨by decide, by decide, rfl, by decide, by decide, by decide, rfl⟩

/-! ## The bounds of a descriptor table -/

theorem append_bounds (t : fd_table_t) (node : Nat) (h1 : 1 ≤ t.capacity)
    (h2 : t.length ≤ t.capacity) (hc : t.capacity < 2 ^ 63) :
    1 ≤ (process_append_fd t node).2.capacity ∧
    (process_append_fd t node).2.length ≤ (process_append_fd t node).2.capacity ∧
    (process_append_fd t node).1 < (process_append_fd t node).2.capacity ∧
    t.length ≤ (process_append_fd t node).2.length ∧
    t.capacity ≤ (process_append_fd t node).2.capacity := by
  unfold process_append_fd
  cases hs : scan_gap t.entries 0 t.length with
  | some i =>
    obtain ⟨_, hi, _, _⟩ := scan_gap_some t.entries t.length 0 i hs
    simp only
    omega
  | none =>
    simp only
    by_cases he : t.length = t.capacity
    · rw [if_pos he]
      omega
    · rw [if_neg he]
      omega

theorem append_frame (t : fd_table_t) (node : Nat) (j : Nat) (hj : j ≠ gap_index t) :
    (process_append_fd t node).2.entries j = t.entries j ∧
    (process_append_fd t node).2.modes j = t.modes j ∧
    (process_append_fd t node).2.offsets j = t.offsets j := by
  obtain ⟨_, z2, z3⟩ := append_zero_fields t
  rw [append_snd t node]
  refine ⟨?_, ?_, ?_⟩
  · simp only [Function.update_noteq hj]
  · show (process_append_fd t 0).2.modes j = _
    rw [z2, Function.update_noteq hj]
  · show (process_append_fd t 0).2.offsets j = _
    rw [z3, Function.update_noteq hj]

theorem move_bounds {F : Type} (ops : kernel_ops F) (t : fd_table_t) (fs : F)
    (src dest : Int) (h1 : 1 ≤ t.capacity) (h2 : t.length ≤ t.capacity)
    (hc : t.capacity < 2 ^ 63) (hd : -(2 ^ 63) ≤ dest ∧ dest < 2 ^ 63) :
    1 ≤ (process_move_fd ops t fs src dest).2.1.capacity ∧
    (process_move_fd ops t fs src dest).2.1.length
      ≤ (process_move_fd ops t fs src dest).2.1.capacity ∧
    t.length ≤ (process_move_fd ops t fs src dest).2.1.length ∧
    (((process_move_fd ops t fs src dest).1 = -1 ∧
        (process_move_fd ops t fs src dest).2 = (t, fs)) ∨
      (0 ≤ (process_move_fd ops t fs src dest).1 ∧
        idx (process_move_fd ops t fs src dest).1
          < (process_move_fd ops t fs src dest).2.1.capacity ∧
        ∀ j, j ≠ idx (process_move_fd ops t fs src dest).1 →
          (process_move_fd ops t fs src dest).2.1.entries j = t.entries j ∧
          (process_move_fd ops t fs src dest).2.1.modes j = t.modes j ∧
          (process_move_fd ops t fs src dest).2.1.offsets j = t.offsets j)) := by
  unfold process_move_fd
  by_cases hg : t.length ≤ to_size_t src ∨ (dest ≠ -1 ∧ t.length ≤ to_size_t dest)
  · rw [if_pos hg]
    exact ⟨h1, h2, le_refl _, Or.inl ⟨rfl, rfl⟩⟩
  rw [if_neg hg]
  by_cases hm : dest = -1
  · rw [if_pos hm]
    obtain ⟨b1, b2, b3, b4, _⟩ := append_bounds t 0 h1 h2 hc
    have hfst : (process_append_fd t 0).1 = gap_index t := append_fst t 0 (by omega)
    have hgl := gap_index_le t
    have hgi : to_long (gap_index t) = (gap_index t : Int) := to_long_of_lt _ (by omega)
    have hidx : idx ((gap_index t : Nat) : Int) = gap_index t := Int.toNat_ofNat _
    simp only [hfst, hgi, hidx]
    rw [hfst] at b3
    by_cases he : (process_append_fd t 0).2.entries (gap_index t)
        ≠ (process_append_fd t 0).2.entries (idx src)
    · rw [if_pos he]
      refine ⟨b1, b2, b4, Or.inr ⟨Int.natCast_nonneg _, ?_, fun j hj => ?_⟩⟩
      · simp only [hidx]; exact b3
      · simp only [hidx] at hj
        simp only [Function.update_noteq hj]
        exact append_frame t 0 j hj
    · rw [if_neg he]
      refine ⟨b1, b2, b4, Or.inr ⟨Int.natCast_nonneg _, ?_, fun j hj => ?_⟩⟩
      · simp only [hidx]; exact b3
      · simp only [hidx] at hj
        exact append_frame t 0 j hj
  · rw [if_neg hm]
    have hdl : to_size_t dest < t.length := by
      by_contra hcon
      exact hg (Or.inr ⟨hm, by omega⟩)
    have hd0 : 0 ≤ dest := by
      by_contra hneg
      have := to_size_t_of_neg dest (by omega) hd.1
      omega
    have hdi : idx dest = to_size_t dest := by
      rw [to_size_t_of_nonneg dest hd0 (by omega)]
      rfl
    simp only
    by_cases he : t.entries (idx dest) ≠ t.entries (idx src)
    · rw [if_pos he]
      refine ⟨h1, h2, le_refl _, Or.inr ⟨hd0, ?_, fun j hj => ?_⟩⟩
      · show idx dest < t.capacity
        omega
      · have hj' : j ≠ idx dest := hj
        simp only [Function.update_noteq hj', and_self]
    · rw [if_neg he]
      refine ⟨h1, h2, le_refl _, Or.inr ⟨hd0, ?_, fun j _ => ⟨rfl, rfl, rfl⟩⟩⟩
      show idx dest < t.capacity
      omega

theorem spawn_copy_fds_above {F : Type} (ops : kernel_ops F) (pt : fd_table_t) :
    ∀ (fuel i : Nat) (ct : fd_table_t) (fs : F) (ct' : fd_table_t) (fs' : F),
      spawn_copy_fds ops pt fuel i ct fs = some (ct', fs') →
      ∀ j, pt.length ≤ j →
        ct'.entries j = ct.entries j ∧ ct'.modes j = ct.modes j ∧
        ct'.offsets j = ct.offsets j := by
  intro fuel
  induction fuel with
  | zero => intro i ct fs ct' fs' h; simp [spawn_copy_fds] at h
  | succ fuel ih =>
    intro i ct fs ct' fs' h j hj
    unfold spawn_copy_fds at h
    by_cases hlt : i < pt.length
    · rw [if_pos hlt] at h
      have := ih _ _ _ _ _ h j hj
      have hne : j ≠ i := by omega
      simpa [Function.update_noteq hne] using this
    · rw [if_neg hlt] at h
      injection h with h
      injection h with h3 h4
      subst h3
      exact ⟨rfl, rfl, rfl⟩
theorem spawn_child_table {F : Type} (ops : kernel_ops F) (fuel : Nat) (s : kstate F)
    (parent : Nat) (flags : Int) (hflag : Int.land flags PROC_REUSE_FDS = 0)
    (hp : parent < s.procs_brk) (ht : (s.procs parent).fds < s.tables_brk)
    (hlen : (s.tables (s.procs parent).fds).length < 2 ^ 32)
    (hfuel : (s.tables (s.procs parent).fds).length < fuel) :
    ∃ c s', spawn_process ops fuel s parent flags = some (c, s') ∧
      (s'.procs c).fds = s.tables_brk ∧
      (s'.tables (s'.procs c).fds).length = (s.tables (s.procs parent).fds).length ∧
      (s'.tables (s'.procs c).fds).capacity = (s.tables (s.procs parent).fds).capacity ∧
      (∀ j, (s.tables (s.procs parent).fds).length ≤ j →
        (s'.tables (s'.procs c).fds).entries j = 0 ∧
        (s'.tables (s'.procs c).fds).modes j = 0 ∧
        (s'.tables (s'.procs c).fds).offsets j = 0) ∧
      s'.tables (s.procs parent).fds = s.tables (s.procs parent).fds := by
  have hpar : parent ≠ s.procs_brk := by omega
  have htne : (s.procs parent).fds ≠ s.tables_brk := by omega
  obtain ⟨ct', fs', h1, h2, h3, _, _, _⟩ :=
    spawn_copy_fds_spec ops (s.tables (s.procs parent).fds) hlen fuel 0
      { entries := fun _ => 0, offsets := fun _ => 0, modes := fun _ => 0,
        length := (s.tables (s.procs parent).fds).length,
        capacity := (s.tables (s.procs parent).fds).capacity, refs := 1 }
      (ops.valloc s.fs KERNEL_STACK_SIZE).2 (Nat.zero_le _) (by omega)
  have h6 := spawn_copy_fds_above ops (s.tables (s.procs parent).fds) fuel 0 _ _ _ _ h1
  unfold spawn_process
  simp only [calloc_process, get_next_pid, malloc_table, Function.update_noteq hpar,
    hflag, ne_eq, not_true_eq_false, if_false, Function.update_noteq htne,
    Function.update_same]
  rw [h1]
  refine ⟨_, _, rfl, ?_⟩
  simp only [Function.update_same, true_and]
  rw [Function.update_same]
  simp only [Function.update_same]
  refine ⟨h2, h3, fun j hj => h6 j hj, ?_⟩
  simp only [Function.update_noteq htne]

/-- C26. A descriptor table with `capacity ≥ 1`, `length ≤ capacity` and a
capacity below 2^63 still has `capacity ≥ 1` and `length ≤ capacity` after
`process_append_fd` and after `process_move_fd` with any `src` and any `long`
`dest`, -1 included; the length does not decrease; the only slot
`process_append_fd` writes is the index it returns and the only slot
`process_move_fd` writes is the index it returns (it writes none when it
returns -1), and that index is below the capacity afterwards. The table that
`spawn_process` builds for a child without `PROC_REUSE_FDS` has the length and
the capacity of the parent's table, so it has `capacity ≥ 1` and
`length ≤ capacity` whenever the parent's table does, and the copy loop writes
no slot at or above that length. -/
theorem fd_table_bounds {F : Type} (ops : kernel_ops F) (t : fd_table_t) (fs : F)
    (node : Nat) (src dest : Int) (h1 : 1 ≤ t.capacity) (h2 : t.length ≤ t.capacity)
    (hc : t.capacity < 2 ^ 63) (hd : -(2 ^ 63) ≤ dest ∧ dest < 2 ^ 63) :
    (1 ≤ (process_append_fd t node).2.capacity ∧
      (process_append_fd t node).2.length ≤ (process_append_fd t node).2.capacity ∧
      (process_append_fd t node).1 < (process_append_fd t node).2.capacity ∧
      t.length ≤ (process_append_fd t node).2.length ∧
      ∀ j, j ≠ (process_append_fd t node).1 →
        (process_append_fd t node).2.entries j = t.entries j ∧
        (process_append_fd t node).2.modes j = t.modes j ∧
        (process_append_fd t node).2.offsets j = t.offsets j) ∧
    (1 ≤ (process_move_fd ops t fs src dest).2.1.capacity ∧
      (process_move_fd ops t fs src dest).2.1.length
        ≤ (process_move_fd ops t fs src dest).2.1.capacity ∧
      t.length ≤ (process_move_fd ops t fs src dest).2.1.length ∧
      (((process_move_fd ops t fs src dest).1 = -1 ∧
          (process_move_fd ops t fs src dest).2 = (t, fs)) ∨
        (0 ≤ (process_move_fd ops t fs src dest).1 ∧
          idx (process_move_fd ops t fs src dest).1
            < (process_move_fd ops t fs src dest).2.1.capacity ∧
          ∀ j, j ≠ idx (process_move_fd ops t fs src dest).1 →
            (process_move_fd ops t fs src dest).2.1.entries j = t.entries j ∧
            (process_move_fd ops t fs src dest).2.1.modes j = t.modes j ∧
            (process_move_fd ops t fs src dest).2.1.offsets j = t.offsets j))) ∧
    (∀ (fuel : Nat) (s : kstate F) (parent : Nat) (flags : Int),
      Int.land flags PROC_REUSE_FDS = 0 → parent < s.procs_brk →
      (s.procs parent).fds < s.tables_brk → s.tables (s.procs parent).fds = t →
      t.length < 2 ^ 32 → t.length < fuel →
      ∃ c s', spawn_process ops fuel s parent flags = some (c, s') ∧
        1 ≤ (s'.tables (s'.procs c).fds).capacity ∧
        (s'.tables (s'.procs c).fds).length ≤ (s'.tables (s'.procs c).fds).capacity ∧
        (s'.tables (s'.procs c).fds).length = t.length ∧
        (s'.tables (s'.procs c).fds).capacity = t.capacity ∧
        (∀ j, t.length ≤ j →
          (s'.tables (s'.procs c).fds).entries j = 0 ∧
          (s'.tables (s'.procs c).fds).modes j = 0 ∧
          (s'.tables (s'.procs c).fds).offsets j = 0) ∧
        s'.tables (s.procs parent).fds = t) := by
  obtain ⟨b1, b2, b3, b4, _⟩ := append_bounds t node h1 h2 hc
  refine ⟨⟨b1, b2, b3, b4, fun j hj => ?_⟩, move_bounds ops t fs src dest h1 h2 hc hd, ?_⟩
  · rw [append_fst t node (by omega)] at hj
    exact append_frame t node j hj
  · intro fuel s parent flags hflag hp ht htab hlen hfuel
    subst htab
    obtain ⟨c, s', e1, _, e3, e4, e5, e6⟩ :=
      spawn_child_table ops fuel s parent flags hflag hp ht hlen hfuel
    refine ⟨c, s', e1, ?_, ?_, e3, e4, e5, e6⟩
    · rw [e4]; exact h1
    · rw [e3, e4]; exact h2

/-- Witness for C26: the boot table `_fake_fds` (length 3, capacity 24), an
append, a `process_move_fd(proc, 0, -1)` and a copying spawn. -/
theorem fd_table_bounds_witness :
    (process_append_fd _fake_fds 7).1 < (process_append_fd _fake_fds 7).2.capacity ∧
    (process_move_fd unit_ops _fake_fds () 0 (-1)).2.1.length
      ≤ (process_move_fd unit_ops _fake_fds () 0 (-1)).2.1.capacity ∧
    ∃ (c : Nat) (s' : kstate Unit), spawn_process unit_ops 4 boot_state 0 0 = some (c, s') ∧
      (s'.tables (s'.procs c).fds).length ≤ (s'.tables (s'.procs c).fds).capacity := by
  have h := fd_table_bounds unit_ops _fake_fds () 7 0 (-1) (by decide) (by decide) (by decide)
    (by decide)
  obtain ⟨c, s', e1, _, e2, _⟩ :=
    h.2.2 4 boot_state 0 0 (by decide) (by decide) (by decide) (by rfl) (by decide) (by decide)
  exact ⟨h.1.2.2.1, h.2.1.2.1, c, s', e1, e2⟩

/-! ## The user ids across system calls -/

theorem same_users_of_procs {F : Type} (s s' : kstate F) (h1 : s'.procs = s.procs)
    (h2 : s'.current_process = s.current_process) : same_users s s' := by
  refine ⟨h2, fun p => ?_⟩
  rw [h1]
  exact ⟨rfl, rfl⟩

theorem same_users_trans {F : Type} (s s1 s2 : kstate F) (h1 : same_users s s1)
    (h2 : same_users s1 s2) : same_users s s2 := by
  refine ⟨h2.1.trans h1.1, fun p => ?_⟩
  exact ⟨(h2.2 p).1.trans (h1.2 p).1, (h2.2 p).2.trans (h1.2 p).2⟩

theorem same_users_set_cur_proc {F : Type} (s s1 : kstate F) (p' : process_t)
    (h1 : s1.procs = s.procs) (h2 : s1.current_process = s.current_process)
    (hu : p'.user = (cur_proc s).user) (hr : p'.real_user = (cur_proc s).real_user) :
    same_users s (set_cur_proc s1 p') := by
  refine ⟨h2, fun p => ?_⟩
  show (Function.update s1.procs s1.current_process p' p).user = _ ∧
    (Function.update s1.procs s1.current_process p' p).real_user = _
  rw [h1, h2]
  by_cases hp : p = s.current_process
  · subst hp
    rw [Function.update_same]
    exact ⟨hu, hr⟩
  · rw [Function.update_noteq hp]
    exact ⟨rfl, rfl⟩

theorem stat_node_users {F : Type} (ops : kernel_ops F) (s : kstate F) (fn st : Nat)
    (r : Int × kstate F) (h : stat_node ops s fn st = Outcome.ret r) :
    r.2.procs = s.procs ∧ r.2.current_process = s.current_process := by
  unfold stat_node at h
  split at h
  · exact Outcome.noConfusion h
  · split at h <;> (injection h with h; subst h; exact ⟨rfl, rfl⟩)

theorem sys_open_finish_users {F : Type} (ops : kernel_ops F) (s : kstate F)
    (flags ab : Int) (node : Nat) (fs2 : F) (v : Int) (s' : kstate F)
    (h : sys_open_finish ops s flags ab node fs2 = Outcome.ret (v, s')) :
    s'.procs = s.procs ∧ s'.current_process = s.current_process := by
  revert h
  refine sys_open_finish_elim ops s flags ab node fs2
    (fun o => o = Outcome.ret (v, s') → _) ?_ ?_ ?_ ?_ ?_
  · intro _ _ _ h; injection h with h1; injection h1 with h2 h3; subst h3; exact ⟨rfl, rfl⟩
  · intro _ _ _ h; injection h with h1; injection h1 with h2 h3; subst h3; exact ⟨rfl, rfl⟩
  · intro _ h; injection h with h1; injection h1 with h2 h3; subst h3; exact ⟨rfl, rfl⟩
  · intro _ _ _ h; injection h with h1; injection h1 with h2 h3; subst h3; exact ⟨rfl, rfl⟩
  · intro _ _ h; injection h with h1; injection h1 with h2 h3; subst h3; exact ⟨rfl, rfl⟩

theorem sys_open_users {F : Type} (ops : kernel_ops F) (s : kstate F) (file : Nat)
    (flags mode : Int) (v : Int) (s' : kstate F)
    (h : sys_open ops s file flags mode = Outcome.ret (v, s')) :
    s'.procs = s.procs ∧ s'.current_process = s.current_process := by
  revert h
  refine sys_open_elim ops s file flags mode
    (fun o => o = Outcome.ret (v, s') → _) ?_ ?_ ?_ ?_ ?_ ?_ ?_ ?_
  · intro _ h; exact Outcome.noConfusion h
  · intro _ _ _ h; injection h with h1; injection h1 with h2 h3; subst h3; exact ⟨rfl, rfl⟩
  · intro _ _ _ h; injection h with h1; injection h1 with h2 h3; subst h3; exact ⟨rfl, rfl⟩
  · intro _ _ _ h; injection h with h1; injection h1 with h2 h3; subst h3; exact ⟨rfl, rfl⟩
  · intro _ _ h; injection h with h1; injection h1 with h2 h3; subst h3; exact ⟨rfl, rfl⟩
  · intro _ _ _ h; injection h with h1; injection h1 with h2 h3; subst h3; exact ⟨rfl, rfl⟩
  · intro _ _ _ h; exact sys_open_finish_users ops s flags _ _ _ v s' h
  · intro _ _ h; exact sys_open_finish_users ops s flags _ _ _ v s' h

theorem sys_statf_users {F : Type} (ops : kernel_ops F) (s : kstate F) (file st : Nat)
    (v : Int) (s' : kstate F) (h : sys_statf ops s file st = Outcome.ret (v, s')) :
    s'.procs = s.procs ∧ s'.current_process = s.current_process := by
  unfold sys_statf at h
  split at h
  · exact Outcome.noConfusion h
  · split at h
    · exact Outcome.noConfusion h
    · simp only at h
      split at h
      · exact Outcome.noConfusion h
      · rename_i r hr
        have := stat_node_users ops _ _ _ r hr
        split at h
        · injection h with h; injection h with h2 h3; subst h3; exact this
        · injection h with h; subst h; exact this

theorem sys_lstat_users {F : Type} (ops : kernel_ops F) (s : kstate F) (file st : Nat)
    (v : Int) (s' : kstate F) (h : sys_lstat ops s file st = Outcome.ret (v, s')) :
    s'.procs = s.procs ∧ s'.current_process = s.current_process := by
  unfold sys_lstat at h
  split at h
  · exact Outcome.noConfusion h
  · split at h
    · exact Outcome.noConfusion h
    · simp only at h
      split at h
      · exact Outcome.noConfusion h
      · rename_i r hr
        have := stat_node_users ops _ _ _ r hr
        split at h
        · injection h with h; injection h with h2 h3; subst h3; exact this
        · injection h with h; subst h; exact this

theorem sys_stat_users {F : Type} (ops : kernel_ops F) (s : kstate F) (fd : Int) (st : Nat)
    (v : Int) (s' : kstate F) (h : sys_stat ops s fd st = Outcome.ret (v, s')) :
    s'.procs = s.procs ∧ s'.current_process = s.current_process := by
  unfold sys_stat at h
  split at h
  · exact Outcome.noConfusion h
  · split at h
    · exact stat_node_users ops _ _ _ _ h
    · injection h with h; injection h with h2 h3; subst h3; exact ⟨rfl, rfl⟩

theorem sys_sysfunc_users {F : Type} (ops : kernel_ops F) (s : kstate F) (fn : sysfunc_case)
    (args : Nat) (v : Int) (s' : kstate F)
    (h : sys_sysfunc ops s fn args = Outcome.ret (v, s')) : same_users s s' := by
  unfold sys_sysfunc at h
  split at h
  · injection h with h; injection h with h2 h3; subst h3
    exact same_users_set_cur_proc s s _ rfl rfl rfl rfl
  · injection h with h; injection h with h2 h3; subst h3
    exact same_users_of_procs _ _ rfl rfl
  · unfold sys_sysfunc_threadname at h
    split at h
    · exact Outcome.noConfusion h
    · split at h
      · exact Outcome.noConfusion h
      · injection h with h; injection h with h2 h3; subst h3
        exact same_users_set_cur_proc s _ _ rfl rfl rfl rfl
  · split at h
    · exact Outcome.noConfusion h
    · injection h with h; injection h with h2 h3; subst h3
      exact same_users_set_cur_proc s _ _ rfl rfl rfl rfl
  · injection h with h; injection h with h2 h3; subst h3
    exact same_users_of_procs _ _ rfl rfl
set_option linter.unusedTactic false in
set_option linter.unreachableTactic false in
theorem call_handler_users {F : Type} (abi : syscall_abi) (ops : kernel_ops F) (s : kstate F)
    (a0 a1 a2 a3 a4 : Int) (hd : handler)
    (hh : (cur_proc s).user ≠ USER_ROOT_UID ∨ hd ≠ handler.sys_setuid)
    (hl : hd ≠ handler.sys_readlink) (v : Int) (s' : kstate F)
    (e : call_handler abi ops s a0 a1 a2 a3 a4 hd = Outcome.ret (v, s')) :
    same_users s s' := by
  cases hd <;> simp only [call_handler] at e
  · -- sys_exit
    unfold sys_exit at e
    try dsimp only at e
    repeat' split at e
    all_goals first
      | exact Outcome.noConfusion e
      | (injection e with e; injection e with e2 e3; subst e3
         first
           | exact same_users_of_procs _ _ rfl rfl
           | exact same_users_set_cur_proc s _ _ rfl rfl rfl rfl)
  · -- sys_geteuid
    unfold sys_geteuid at e
    try dsimp only at e
    repeat' split at e
    all_goals first
      | exact Outcome.noConfusion e
      | (injection e with e; injection e with e2 e3; subst e3
         first
           | exact same_users_of_procs _ _ rfl rfl
           | exact same_users_set_cur_proc s _ _ rfl rfl rfl rfl)
  · -- sys_open
    exact same_users_of_procs _ _ (sys_open_users ops s _ _ _ v s' e).1 (sys_open_users ops s _ _ _ v s' e).2
  · -- sys_read
    unfold sys_read at e
    try dsimp only at e
    repeat' split at e
    all_goals first
      | exact Outcome.noConfusion e
      | (injection e with e; injection e with e2 e3; subst e3
         first
           | exact same_users_of_procs _ _ rfl rfl
           | exact same_users_set_cur_proc s _ _ rfl rfl rfl rfl)
  · -- sys_write
    unfold sys_write at e
    try dsimp only at e
    repeat' split at e
    all_goals first
      | exact Outcome.noConfusion e
      | (injection e with e; injection e with e2 e3; subst e3
         first
           | exact same_users_of_procs _ _ rfl rfl
           | exact same_users_set_cur_proc s _ _ rfl rfl rfl rfl)
  · -- sys_close
    unfold sys_close at e
    try dsimp only at e
    repeat' split at e
    all_goals first
      | exact Outcome.noConfusion e
      | (injection e with e; injection e with e2 e3; subst e3
         first
           | exact same_users_of_procs _ _ rfl rfl
           | exact same_users_set_cur_proc s _ _ rfl rfl rfl rfl)
  · -- sys_gettimeofday
    unfold sys_gettimeofday at e
    try dsimp only at e
    repeat' split at e
    all_goals first
      | exact Outcome.noConfusion e
      | (injection e with e; injection e with e2 e3; subst e3
         first
           | exact same_users_of_procs _ _ rfl rfl
           | exact same_users_set_cur_proc s _ _ rfl rfl rfl rfl)
  · -- sys_getpid
    unfold sys_getpid at e
    try dsimp only at e
    repeat' split at e
    all_goals first
      | exact Outcome.noConfusion e
      | (injection e with e; injection e with e2 e3; subst e3
         first
           | exact same_users_of_procs _ _ rfl rfl
           | exact same_users_set_cur_proc s _ _ rfl rfl rfl rfl)
  · -- sys_sbrk
    unfold sys_sbrk at e
    try dsimp only at e
    repeat' split at e
    all_goals first
      | exact Outcome.noConfusion e
      | (injection e with e; injection e with e2 e3; subst e3
         first
           | exact same_users_of_procs _ _ rfl rfl
           | exact same_users_set_cur_proc s _ _ rfl rfl rfl rfl)
  · -- sys_uname
    unfold sys_uname at e
    try dsimp only at e
    repeat' split at e
    all_goals first
      | exact Outcome.noConfusion e
      | (injection e with e; injection e with e2 e3; subst e3
         first
           | exact same_users_of_procs _ _ rfl rfl
           | exact same_users_set_cur_proc s _ _ rfl rfl rfl rfl)
  · -- sys_seek
    unfold sys_seek at e
    try dsimp only at e
    repeat' split at e
    all_goals first
      | exact Outcome.noConfusion e
      | (injection e with e; injection e with e2 e3; subst e3
         first
           | exact same_users_of_procs _ _ rfl rfl
           | exact same_users_set_cur_proc s _ _ rfl rfl rfl rfl)
  · -- sys_stat
    exact same_users_of_procs _ _ (sys_stat_users ops s _ _ v s' e).1 (sys_stat_users ops s _ _ v s' e).2
  · -- sys_getuid
    unfold sys_getuid at e
    try dsimp only at e
    repeat' split at e
    all_goals first
      | exact Outcome.noConfusion e
      | (injection e with e; injection e with e2 e3; subst e3
         first
           | exact same_users_of_procs _ _ rfl rfl
           | exact same_users_set_cur_proc s _ _ rfl rfl rfl rfl)
  · -- sys_setuid
    have hu : (cur_proc s).user ≠ USER_ROOT_UID := by
      rcases hh with hh | hh
      · exact hh
      · exact absurd rfl hh
    unfold sys_setuid at e
    rw [if_neg hu] at e
    injection e with e; injection e with e2 e3; subst e3
    exact same_users_of_procs _ _ rfl rfl
  · -- sys_readdir
    unfold sys_readdir at e
    try dsimp only at e
    repeat' split at e
    all_goals first
      | exact Outcome.noConfusion e
      | (injection e with e; injection e with e2 e3; subst e3
         first
           | exact same_users_of_procs _ _ rfl rfl
           | exact same_users_set_cur_proc s _ _ rfl rfl rfl rfl)
  · -- sys_chdir
    unfold sys_chdir at e
    try dsimp only at e
    repeat' split at e
    all_goals first
      | exact Outcome.noConfusion e
      | (injection e with e; injection e with e2 e3; subst e3
         first
           | exact same_users_of_procs _ _ rfl rfl
           | exact same_users_set_cur_proc s _ _ rfl rfl rfl rfl)
  · -- sys_getcwd
    unfold sys_getcwd at e
    try dsimp only at e
    repeat' split at e
    all_goals first
      | exact Outcome.noConfusion e
      | (injection e with e; injection e with e2 e3; subst e3
         first
           | exact same_users_of_procs _ _ rfl rfl
           | exact same_users_set_cur_proc s _ _ rfl rfl rfl rfl)
  · -- sys_gethostname
    unfold sys_gethostname at e
    try dsimp only at e
    repeat' split at e
    all_goals first
      | exact Outcome.noConfusion e
      | (injection e with e; injection e with e2 e3; subst e3
         first
           | exact same_users_of_procs _ _ rfl rfl
           | exact same_users_set_cur_proc s _ _ rfl rfl rfl rfl)
  · -- sys_sethostname
    unfold sys_sethostname at e
    try dsimp only at e
    repeat' split at e
    all_goals first
      | exact Outcome.noConfusion e
      | (injection e with e; injection e with e2 e3; subst e3
         first
           | exact same_users_of_procs _ _ rfl rfl
           | exact same_users_set_cur_proc s _ _ rfl rfl rfl rfl)
  · -- sys_mkdir
    unfold sys_mkdir at e
    try dsimp only at e
    repeat' split at e
    all_goals first
      | exact Outcome.noConfusion e
      | (injection e with e; injection e with e2 e3; subst e3
         first
           | exact same_users_of_procs _ _ rfl rfl
           | exact same_users_set_cur_proc s _ _ rfl rfl rfl rfl)
  · -- sys_gettid
    unfold sys_gettid at e
    try dsimp only at e
    repeat' split at e
    all_goals first
      | exact Outcome.noConfusion e
      | (injection e with e; injection e with e2 e3; subst e3
         first
           | exact same_users_of_procs _ _ rfl rfl
           | exact same_users_set_cur_proc s _ _ rfl rfl rfl rfl)
  · -- sys_sysfunc
    exact sys_sysfunc_users ops s _ _ v s' e
  · -- sys_ioctl
    unfold sys_ioctl at e
    try dsimp only at e
    repeat' split at e
    all_goals first
      | exact Outcome.noConfusion e
      | (injection e with e; injection e with e2 e3; subst e3
         first
           | exact same_users_of_procs _ _ rfl rfl
           | exact same_users_set_cur_proc s _ _ rfl rfl rfl rfl)
  · -- sys_access
    unfold sys_access at e
    try dsimp only at e
    repeat' split at e
    all_goals first
      | exact Outcome.noConfusion e
      | (injection e with e; injection e with e2 e3; subst e3
         first
           | exact same_users_of_procs _ _ rfl rfl
           | exact same_users_set_cur_proc s _ _ rfl rfl rfl rfl)
  · -- sys_statf
    exact same_users_of_procs _ _ (sys_statf_users ops s _ _ v s' e).1 (sys_statf_users ops s _ _ v s' e).2
  · -- sys_chmod
    unfold sys_chmod at e
    try dsimp only at e
    repeat' split at e
    all_goals first
      | exact Outcome.noConfusion e
      | (injection e with e; injection e with e2 e3; subst e3
         first
           | exact same_users_of_procs _ _ rfl rfl
           | exact same_users_set_cur_proc s _ _ rfl rfl rfl rfl)
  · -- sys_umask
    unfold sys_umask at e
    try dsimp only at e
    repeat' split at e
    all_goals first
      | exact Outcome.noConfusion e
      | (injection e with e; injection e with e2 e3; subst e3
         first
           | exact same_users_of_procs _ _ rfl rfl
           | exact same_users_set_cur_proc s _ _ rfl rfl rfl rfl)
  · -- sys_unlink
    unfold sys_unlink at e
    try dsimp only at e
    repeat' split at e
    all_goals first
      | exact Outcome.noConfusion e
      | (injection e with e; injection e with e2 e3; subst e3
         first
           | exact same_users_of_procs _ _ rfl rfl
           | exact same_users_set_cur_proc s _ _ rfl rfl rfl rfl)
  · -- sys_mount
    unfold sys_mount at e
    try dsimp only at e
    repeat' split at e
    all_goals first
      | exact Outcome.noConfusion e
      | (injection e with e; injection e with e2 e3; subst e3
         first
           | exact same_users_of_procs _ _ rfl rfl
           | exact same_users_set_cur_proc s _ _ rfl rfl rfl rfl)
  · -- sys_symlink
    unfold sys_symlink at e
    try dsimp only at e
    repeat' split at e
    all_goals first
      | exact Outcome.noConfusion e
      | (injection e with e; injection e with e2 e3; subst e3
         first
           | exact same_users_of_procs _ _ rfl rfl
           | exact same_users_set_cur_proc s _ _ rfl rfl rfl rfl)
  · -- sys_readlink
    exact absurd rfl hl
  · -- sys_lstat
    exact same_users_of_procs _ _ (sys_lstat_users ops s _ _ v s' e).1 (sys_lstat_users ops s _ _ v s' e).2
  · -- sys_chown
    unfold sys_chown at e
    try dsimp only at e
    repeat' split at e
    all_goals first
      | exact Outcome.noConfusion e
      | (injection e with e; injection e with e2 e3; subst e3
         first
           | exact same_users_of_procs _ _ rfl rfl
           | exact same_users_set_cur_proc s _ _ rfl rfl rfl rfl)
  · -- sys_setsid
    unfold sys_setsid at e
    try dsimp only at e
    repeat' split at e
    all_goals first
      | exact Outcome.noConfusion e
      | (injection e with e; injection e with e2 e3; subst e3
         first
           | exact same_users_of_procs _ _ rfl rfl
           | exact same_users_set_cur_proc s _ _ rfl rfl rfl rfl)
  · -- sys_setpgid
    unfold sys_setpgid at e
    try dsimp only at e
    repeat' split at e
    all_goals first
      | exact Outcome.noConfusion e
      | (injection e with e; injection e with e2 e3; subst e3
         first
           | exact same_users_of_procs _ _ rfl rfl
           | exact same_users_set_cur_proc s _ _ rfl rfl rfl rfl)
  · -- sys_getpgid
    unfold sys_getpgid at e
    try dsimp only at e
    repeat' split at e
    all_goals first
      | exact Outcome.noConfusion e
      | (injection e with e; injection e with e2 e3; subst e3
         first
           | exact same_users_of_procs _ _ rfl rfl
           | exact same_users_set_cur_proc s _ _ rfl rfl rfl rfl)
  · -- unimplemented
    unfold unimplemented at e
    try dsimp only at e
    repeat' split at e
    all_goals first
      | exact Outcome.noConfusion e
      | (injection e with e; injection e with e2 e3; subst e3
         first
           | exact same_users_of_procs _ _ rfl rfl
           | exact same_users_set_cur_proc s _ _ rfl rfl rfl rfl)

theorem same_users_cur_proc {F : Type} (s s' : kstate F) (h : same_users s s') :
    (cur_proc s').user = (cur_proc s).user ∧ (cur_proc s').real_user = (cur_proc s).real_user := by
  unfold cur_proc
  rw [h.1]
  exact h.2 _

theorem syscall_handler_users {F : Type} (abi : syscall_abi) (ops : kernel_ops F)
    (s : kstate F) (rp : Nat) (r : regs) (hu : (cur_proc s).user ≠ USER_ROOT_UID)
    (hl : syscalls abi (arch_syscall_number r) ≠ some handler.sys_readlink)
    (r' : regs) (s' : kstate F)
    (e : syscall_handler abi ops s rp r = Outcome.ret (r', s')) : same_users s s' := by
  unfold syscall_handler at e
  split at e
  · injection e with e; injection e with e2 e3; subst e3
    exact same_users_of_procs _ _ rfl rfl
  · split at e
    · exact Outcome.noConfusion e
    · rename_i func hf
      have h1 : same_users s (set_cur_proc s { cur_proc s with syscall_registers := rp }) :=
        same_users_set_cur_proc s s _ rfl rfl rfl rfl
      have hu1 : (cur_proc (set_cur_proc s { cur_proc s with syscall_registers := rp })).user
          ≠ USER_ROOT_UID := by
        rw [(same_users_cur_proc _ _ h1).1]; exact hu
      have hl1 : func ≠ handler.sys_readlink := by
        intro hc
        rw [hc] at hf
        exact hl hf
      dsimp only at e
      split at e
      · exact Outcome.noConfusion e
      · rename_i w hw
        injection e with e; injection e with e2 e3; subst e3
        exact same_users_trans _ _ _ h1
          (call_handler_users abi ops _ _ _ _ _ _ func (Or.inl hu1) hl1 w.1 w.2 hw)

theorem syscall_run_users {F : Type} (abi : syscall_abi) (ops : kernel_ops F) :
    ∀ (l : List (Nat × regs)) (s s' : kstate F), (cur_proc s).user ≠ USER_ROOT_UID →
      (∀ c, c ∈ l → syscalls abi (arch_syscall_number c.2) ≠ some handler.sys_readlink) →
      syscall_run abi ops l s = Outcome.ret s' → same_users s s' := by
  intro l
  induction l with
  | nil =>
    intro s s' _ _ e
    unfold syscall_run at e
    injection e with e
    subst e
    exact same_users_of_procs _ _ rfl rfl
  | cons c l ih =>
    intro s s' hu hl e
    unfold syscall_run at e
    split at e
    · exact Outcome.noConfusion e
    · rename_i w hw
      have h1 := syscall_handler_users abi ops s c.1 c.2 hu
        (hl c (List.mem_cons_self c l)) w.1 w.2 hw
      have hu1 : (cur_proc w.2).user ≠ USER_ROOT_UID := by
        rw [(same_users_cur_proc _ _ h1).1]; exact hu
      exact same_users_trans _ _ _ h1
        (ih w.2 s' hu1 (fun d hd => hl d (List.mem_cons_of_mem c hd)) e)

set_option maxRecDepth 20000 in
/-- C25, the code at the failing input. The caller has effective and real user
1000 and its record lies at `2^63 + 0x1000`, so its field `user` is at
`2^63 + 0x1018`, an address outside its window that `ptr_validate` would stop
at. `sys_readlink` validates `file` only: called on the link at path `0x3000`
with that address as `ptr` and `len = 1`, it returns 0 and `readlink_self`
stores a zero byte on the low byte of `user`, which becomes 768. With `len = 8`
the text of the link lands on both ids. Dispatched twice by `syscall_handler`,
on the first and on the second byte of `user`, the call leaves the caller with
effective user `USER_ROOT_UID`, and a `SYS_SETUID` that follows succeeds and
makes the real user 0 as well. -/
theorem sys_readlink_overwrites_user :
    (cur_proc toy_state_user).user = 1000 ∧ (cur_proc toy_state_user).real_user = 1000 ∧
    self_ops.process_address toy_state_user.current_process + offsetof_user = 2 ^ 63 + 0x1018 ∧
    ptr_validate toy_state_user (2 ^ 63 + 0x1018) = Outcome.halt ∧
    syscalls toy_abi (toy_abi.num syscall_name.SYS_READLINK) = some handler.sys_readlink ∧
    (sys_readlink self_ops toy_state_user 0x3000 (2 ^ 63 + 0x1018) 1).returns (fun r =>
      r.1 = 0 ∧ (cur_proc r.2).user = 768 ∧ (cur_proc r.2).real_user = 1000) ∧
    (sys_readlink self_ops toy_state_user 0x3000 (2 ^ 63 + 0x1018) 8).returns (fun r =>
      r.1 = 7 ∧ (cur_proc r.2).user = 0x6F72702F ∧ (cur_proc r.2).real_user = 0x302F63) ∧
    (syscall_run toy_abi self_ops
        [(0x9000, ⟨toy_abi.num syscall_name.SYS_READLINK, 0x3000, 2 ^ 63 + 0x1018, 1, 0, 0⟩),
         (0x9000, ⟨toy_abi.num syscall_name.SYS_READLINK, 0x3000, 2 ^ 63 + 0x1019, 1, 0, 0⟩)]
        toy_state_user).returns (fun t =>
      (cur_proc t).user = USER_ROOT_UID ∧ (cur_proc t).real_user = 1000) ∧
    (syscall_run toy_abi self_ops
        [(0x9000, ⟨toy_abi.num syscall_name.SYS_READLINK, 0x3000, 2 ^ 63 + 0x1018, 1, 0, 0⟩),
         (0x9000, ⟨toy_abi.num syscall_name.SYS_READLINK, 0x3000, 2 ^ 63 + 0x1019, 1, 0, 0⟩),
         (0x9000, ⟨toy_abi.num syscall_name.SYS_SETUID, 0, 0, 0, 0, 0⟩)]
        toy_state_user).returns (fun t =>
      (cur_proc t).user = USER_ROOT_UID ∧ (cur_proc t).real_user = USER_ROOT_UID) := by
  refine ⟨by decide, by decide, by decide, rfl, by decide, by decide, by decide,
    by decide!, by decide!⟩

/-! ## The IPv4 header checksum -/

/-- C30, the code at the failing input. The header that `fill` builds for a
payload of 31202 bytes (total length 0x7AEE, checksum field zero) has the word
sum 0x2FFFE, so that the one folding step of `calculate_ipv4_checksum` leaves
0x10000 and the carry of that step is dropped: the function returns 0xFFFF,
while the RFC 1071 checksum of the header is 0xFFFE, and after `fill` has
stored the result the ones-complement sum of the ten words is 1, not 0xFFFF.
For the payload sizes 8 and 14 that `main` passes, the function returns the
RFC 1071 checksum. -/
theorem ipv4_checksum_second_carry :
    fill_ip_header_unsummed 31202
      = [0x45, 0, 0x7A, 0xEE, 0, 1, 0, 0, 0x40, 0x11, 0, 0, 0, 0, 0, 0,
          0xFF, 0xFF, 0xFF, 0xFF] ∧
    checksum_loop (fill_ip_header_unsummed 31202) 10 0 0 = 0x2FFFE ∧
    calculate_ipv4_checksum (fill_ip_header_unsummed 31202) = 0xFFFF ∧
    rfc1071_checksum (fill_ip_header_unsummed 31202) = 0xFFFE ∧
    ones_complement_sum (header_words (fill_ip_header 31202)) = 1 ∧
    calculate_ipv4_checksum (fill_ip_header_unsummed 8)
      = rfc1071_checksum (fill_ip_header_unsummed 8) ∧
    calculate_ipv4_checksum (fill_ip_header_unsummed 14)
      = rfc1071_checksum (fill_ip_header_unsummed 14) ∧
    ones_complement_sum (header_words (fill_ip_header 8)) = 0xFFFF := by
  refine ⟨by decide, by decide, by decide, by decide, by decide, by decide, by decide,
    by decide⟩

/-! ## Scheduler queues -/

theorem waits_set_getD (w : List (List Nat)) (q : Nat) (l : List Nat)
    (h : w.getD q [] ≠ []) : (w.set q l).getD q [] = l := by
  induction w generalizing q with
  | nil => simp at h
  | cons a w ih =>
    cases q with
    | zero => simp
    | succ q =>
      simp only [List.set_cons_succ, List.getD_cons_succ]
      exact ih q (by simpa using h)

theorem waits_set_getD_ne (w : List (List Nat)) (q j : Nat) (l : List Nat) (h : j ≠ q) :
    (w.set q l).getD j [] = w.getD j [] := by
  induction w generalizing q j with
  | nil => simp
  | cons a w ih =>
    cases q with
    | zero =>
      cases j with
      | zero => exact absurd rfl h
      | succ j => simp
    | succ q =>
      cases j with
      | zero => simp
      | succ j =>
        simp only [List.set_cons_succ, List.getD_cons_succ]
        exact ih q j (by omega)

theorem waits_set_set (w : List (List Nat)) (q : Nat) (l l' : List Nat) :
    (w.set q l).set q l' = w.set q l' := by
  induction w generalizing q with
  | nil => simp
  | cons a w ih =>
    cases q with
    | zero => simp
    | succ q => simp only [List.set_cons_succ, ih]

theorem waits_set_nil_of_empty (w : List (List Nat)) (q : Nat) (h : w.getD q [] = []) :
    w.set q [] = w := by
  induction w generalizing q with
  | nil => simp
  | cons a w ih =>
    cases q with
    | zero =>
      simp only [List.getD_cons_zero] at h
      simp [h]
    | succ q =>
      simp only [List.set_cons_succ]
      rw [ih q (by simpa using h)]

theorem waits_count_set (w : List (List Nat)) (q : Nat) (l : List Nat) (p : Nat) :
    ((w.set q l).map (List.count p)).sum + (w.getD q []).count p
      = (w.map (List.count p)).sum + (if w.getD q [] = [] ∧ ¬ q < w.length then 0 else l.count p) := by
  induction w generalizing q with
  | nil => simp
  | cons a w ih =>
    cases q with
    | zero =>
      simp only [List.set_cons_zero, List.map_cons, List.sum_cons, List.getD_cons_zero,
        List.length_cons, Nat.zero_lt_succ, not_true_eq_false, and_false, if_false]
      omega
    | succ q =>
      simp only [List.set_cons_succ, List.map_cons, List.sum_cons, List.getD_cons_succ,
        List.length_cons, Nat.succ_lt_succ_iff]
      have := ih q
      omega

theorem wakeup_step_cons (tag : Bool) (q : Nat) (s : sched_t) (p : Nat) (rest : List Nat)
    (h : wait_queue s q = p :: rest) :
    (wakeup_step tag q s).ready = s.ready ++ [p] ∧
    (wakeup_step tag q s).sleep = s.sleep ∧
    (wakeup_step tag q s).waits = s.waits.set q rest ∧
    wait_queue (wakeup_step tag q s) q = rest ∧
    (wakeup_step tag q s).interrupted = Function.update s.interrupted p tag ∧
    ∀ r, memberships (wakeup_step tag q s) r = memberships s r := by
  have hne : s.waits.getD q [] ≠ [] := by
    have : s.waits.getD q [] = p :: rest := h
    rw [this]; simp
  have e : wakeup_step tag q s
      = make_process_ready
          { s with waits := s.waits.set q rest
                   interrupted := Function.update s.interrupted p tag } p := by
    unfold wakeup_step
    rw [h]
  rw [e]
  refine ⟨rfl, rfl, rfl, ?_, rfl, fun r => ?_⟩
  · exact waits_set_getD s.waits q rest hne
  · have hc := waits_count_set s.waits q rest r
    have hq : s.waits.getD q [] = p :: rest := h
    rw [if_neg (fun hcon => hne hcon.1), hq] at hc
    simp only [memberships, make_process_ready, List.count_append, List.count_cons,
      List.count_nil] at hc ⊢
    simp only [beq_iff_eq] at hc ⊢
    omega

theorem wakeup_loop_spec (tag : Bool) (q : Nat) :
    ∀ (n : Nat) (s : sched_t) (k : Nat), n = (wait_queue s q).length →
      (wakeup_loop tag q n s k).1 = k + n ∧
      (wakeup_loop tag q n s k).2.ready = s.ready ++ wait_queue s q ∧
      (wakeup_loop tag q n s k).2.sleep = s.sleep ∧
      (wakeup_loop tag q n s k).2.waits = s.waits.set q [] ∧
      (∀ r, r ∈ wait_queue s q → (wakeup_loop tag q n s k).2.interrupted r = tag) ∧
      (∀ r, r ∉ wait_queue s q →
        (wakeup_loop tag q n s k).2.interrupted r = s.interrupted r) ∧
      ∀ r, memberships (wakeup_loop tag q n s k).2 r = memberships s r := by
  intro n
  induction n with
  | zero =>
    intro s k hn
    have hq : wait_queue s q = [] := List.length_eq_zero.mp hn.symm
    have hq' : s.waits.getD q [] = [] := hq
    refine ⟨rfl, ?_, rfl, ?_, fun r hr => ?_, fun _ _ => rfl, fun _ => rfl⟩
    · show s.ready = s.ready ++ wait_queue s q
      rw [hq]; simp
    · show s.waits = s.waits.set q []
      exact (waits_set_nil_of_empty s.waits q hq').symm
    · rw [hq] at hr; simp at hr
  | succ n ih =>
    intro s k hn
    cases hq : wait_queue s q with
    | nil => rw [hq] at hn; simp at hn
    | cons p rest =>
      obtain ⟨s1, s2, s3, s4, s5, s6⟩ := wakeup_step_cons tag q s p rest hq
      have hlen : n = (wait_queue (wakeup_step tag q s) q).length := by
        rw [s4]; rw [hq] at hn; simpa using hn
      obtain ⟨i1, i2, i3, i4, i5, i6, i7⟩ := ih (wakeup_step tag q s) (k + 1) hlen
      have hpos : (wait_queue s q).length > 0 := by rw [hq]; simp
      unfold wakeup_loop
      rw [if_pos hpos]
      refine ⟨by omega, ?_, ?_, ?_, fun r hr => ?_, fun r hr => ?_, fun r => ?_⟩
      · rw [i2, s1, s4]; simp
      · rw [i3, s2]
      · rw [i4, s3, waits_set_set]
      · by_cases hin : r ∈ rest
        · exact i5 r (by rw [s4]; exact hin)
        · rw [i6 r (by rw [s4]; exact hin), s5]
          have hrp : r = p := by
            rcases List.mem_cons.mp hr with h | h
            · exact h
            · exact absurd h hin
          rw [hrp, Function.update_same]
      · have hr1 : r ∉ rest := fun h => hr (List.mem_cons_of_mem _ h)
        have hr2 : r ≠ p := fun h => hr (by rw [h]; exact List.mem_cons_self _ _)
        rw [i6 r (by rw [s4]; exact hr1), s5, Function.update_noteq hr2]
      · rw [i7 r, s6 r]

theorem memberships_ready_only (s : sched_t) (p : Nat) (h1 : memberships s p ≤ 1)
    (hr : p ∈ s.ready) :
    s.ready.count p = 1 ∧ p ∉ s.sleep ∧ ∀ j, p ∉ s.waits.getD j [] := by
  have hc : 0 < s.ready.count p := List.count_pos_iff.mpr hr
  unfold memberships at h1
  refine ⟨by omega, fun hs => ?_, fun j hj => ?_⟩
  · have : 0 < s.sleep.count p := List.count_pos_iff.mpr hs
    omega
  · have h0 : (s.waits.map (List.count p)).sum = 0 := by omega
    have hj' : 0 < (s.waits.getD j []).count p := List.count_pos_iff.mpr hj
    have hlt : j < s.waits.length := by
      by_contra hcon
      rw [List.getD_eq_default _ _ (by omega)] at hj
      simp at hj
    have hmem : (s.waits.getD j []).count p ∈ s.waits.map (List.count p) := by
      rw [List.getD_eq_getElem _ _ hlt]
      exact List.mem_map.mpr ⟨_, List.getElem_mem _, rfl⟩
    have := List.single_le_sum (fun _ _ => Nat.zero_le _) _ hmem
    omega

/-- C24. In the scheduler modelled from the spec, for every wait queue `q`:
`wakeup_queue` moves every member of `q` to the end of the ready queue in the
original order of `q`, leaves `q` empty and returns the number of records
moved; the sleep queue and the other wait queues are unchanged, every record
moved carries the normal wake reason, and the number of queue memberships of
every record is the same as before. So in a state where no record is on more
than one queue, each record that was on `q` is afterwards on the ready queue
exactly once and on no other queue, and the same holds after every single
turn of the loop. -/
theorem wakeup_queue_fifo (s : sched_t) (q : Nat) :
    (wakeup_queue s q).2.ready = s.ready ++ wait_queue s q ∧
    wait_queue (wakeup_queue s q).2 q = [] ∧
    (wakeup_queue s q).1 = (wait_queue s q).length ∧
    (wakeup_queue s q).2.sleep = s.sleep ∧
    (∀ j, j ≠ q → wait_queue (wakeup_queue s q).2 j = wait_queue s j) ∧
    (∀ p, p ∈ wait_queue s q → (wakeup_queue s q).2.interrupted p = false) ∧
    (∀ p, memberships (wakeup_queue s q).2 p = memberships s p) ∧
    (∀ p, memberships (wakeup_step false q s) p = memberships s p) ∧
    ((∀ p, memberships s p ≤ 1) →
      ∀ p, p ∈ wait_queue s q →
        (wakeup_queue s q).2.ready.count p = 1 ∧
        p ∉ (wakeup_queue s q).2.sleep ∧
        ∀ j, p ∉ wait_queue (wakeup_queue s q).2 j) := by
  obtain ⟨i1, i2, i3, i4, i5, _, i7⟩ :=
    wakeup_loop_spec false q (wait_queue s q).length s 0 rfl
  have hw : wakeup_queue s q = wakeup_loop false q (wait_queue s q).length s 0 := rfl
  rw [hw]
  refine ⟨i2, ?_, by omega, i3, fun j hj => ?_, i5, i7, fun p => ?_, fun hinv p hp => ?_⟩
  · show List.getD (wakeup_loop false q (wait_queue s q).length s 0).2.waits q [] = []
    rw [i4]
    by_cases he : s.waits.getD q [] = []
    · rw [waits_set_nil_of_empty s.waits q he]; exact he
    · exact waits_set_getD s.waits q [] he
  · show List.getD (wakeup_loop false q (wait_queue s q).length s 0).2.waits j []
      = List.getD s.waits j []
    rw [i4]
    exact waits_set_getD_ne s.waits q j [] hj
  · cases hq : wait_queue s q with
    | nil =>
      unfold wakeup_step
      rw [hq]
    | cons a rest => exact (wakeup_step_cons false q s a rest hq).2.2.2.2.2 p
  · have hm : memberships (wakeup_loop false q (wait_queue s q).length s 0).2 p ≤ 1 := by
      rw [i7 p]; exact hinv p
    have hr : p ∈ (wakeup_loop false q (wait_queue s q).length s 0).2.ready := by
      rw [i2]; exact List.mem_append_right _ hp
    exact memberships_ready_only _ p hm hr

/-- Witness for C24: wait queue 0 of `toy_sched` holds the records 4, 5, 6 in
that order and no record of `toy_sched` is on two queues; after `wakeup_queue`
record 5 is on the ready queue once and not on the sleep queue. -/
theorem wakeup_queue_fifo_witness :
    (∀ p, memberships toy_sched p ≤ 1) ∧
    (wakeup_queue toy_sched 0).2.ready = [1, 2, 4, 5, 6] ∧
    (wakeup_queue toy_sched 0).2.ready.count 5 = 1 ∧
    5 ∉ (wakeup_queue toy_sched 0).2.sleep := by
  have hinv : ∀ p, memberships toy_sched p ≤ 1 := by
    intro p
    simp only [memberships, toy_sched, List.count_cons, List.count_nil, List.map_cons,
      List.map_nil, List.sum_cons, List.sum_nil, beq_iff_eq]
    split_ifs <;> omega
  have h := (wakeup_queue_fifo toy_sched 0).2.2.2.2.2.2.2.2 hinv 5 (by decide)
  exact ⟨hinv, by decide, h.1, h.2.1⟩

/-! ## tmpfs: blocks, reading and writing -/

theorem sub64_eq (a b : Nat) (hb : b ≤ a) (ha : a < 2 ^ 64) : sub64 a b = a - b := by
  unfold sub64
  have h1 : b % 2 ^ 64 = b := Nat.mod_eq_of_lt (by omega)
  rw [h1]
  have h2 : a + (2 ^ 64 - b) = (a - b) + 2 ^ 64 := by omega
  rw [h2, Nat.add_mod_right]
  exact Nat.mod_eq_of_lt (by omega)

theorem getset_block_lookup (t : tmpfs_file) (m : tmpfs_mem) (blockid : Nat) :
    tmpfs_file_getset_block t m blockid false
      = Outcome.ret (if blockid ≥ t.block_count then none else some (t.blocks blockid), t, m) := by
  unfold tmpfs_file_getset_block
  by_cases h : blockid ≥ t.block_count
  · simp [h]
  · simp [h]

theorem embiggen_loop_some (blockid : Nat) (hb : blockid < 2 ^ 63) :
    ∀ (n : Nat) (t : tmpfs_file), blockid < t.pointers * 2 ^ n →
      ∃ p, embiggen_loop blockid (n + 1) t = some { t with pointers := p } ∧ blockid < p := by
  intro n
  induction n with
  | zero =>
    intro t h
    refine ⟨t.pointers, ?_, by simpa using h⟩
    unfold embiggen_loop
    rw [if_neg (by omega)]
  | succ n ih =>
    intro t h
    unfold embiggen_loop
    by_cases hge : blockid ≥ t.pointers
    · rw [if_pos hge]
      have hp : t.pointers * 2 % 2 ^ 64 = t.pointers * 2 := Nat.mod_eq_of_lt (by omega)
      obtain ⟨p, h1, h2⟩ := ih (tmpfs_file_blocks_embiggen t) (by
        show blockid < t.pointers * 2 % 2 ^ 64 * 2 ^ n
        rw [hp]
        have : t.pointers * 2 ^ (n + 1) = t.pointers * 2 * 2 ^ n := by ring
        omega)
      exact ⟨p, h1, h2⟩
    · rw [if_neg hge]
      exact ⟨t.pointers, rfl, by omega⟩

theorem allocate_loop_spec :
    ∀ (n : Nat) (t : tmpfs_file) (m : tmpfs_mem), t.block_count + n < 2 ^ 64 →
      (allocate_loop n t m).1.block_count = t.block_count + n ∧
      (∀ i, (allocate_loop n t m).1.blocks i
        = if t.block_count ≤ i ∧ i < t.block_count + n then m.frames_brk + (i - t.block_count)
          else t.blocks i) ∧
      (allocate_loop n t m).1.length = t.length ∧
      (allocate_loop n t m).1.pointers = t.pointers ∧
      (allocate_loop n t m).1.atime = t.atime ∧
      (allocate_loop n t m).1.mtime = t.mtime ∧
      (allocate_loop n t m).2.frames_brk = m.frames_brk + n ∧
      (allocate_loop n t m).2.frames = m.frames ∧
      (allocate_loop n t m).2.user = m.user := by
  intro n
  induction n with
  | zero =>
    intro t m _
    refine ⟨rfl, fun i => ?_, rfl, rfl, rfl, rfl, rfl, rfl, rfl⟩
    rw [if_neg (by omega)]
    rfl
  | succ n ih =>
    intro t m h
    have hmod : (t.block_count + 1) % 2 ^ 64 = t.block_count + 1 := Nat.mod_eq_of_lt (by omega)
    obtain ⟨i1, i2, i3, i4, i5, i6, i7, i8, i9⟩ :=
      ih { t with blocks := Function.update t.blocks t.block_count m.frames_brk
                  block_count := (t.block_count + 1) % 2 ^ 64 }
        { m with frames_brk := m.frames_brk + 1 } (by
          show (t.block_count + 1) % 2 ^ 64 + n < 2 ^ 64
          rw [hmod]; omega)
    unfold allocate_loop
    simp only [mmu_allocate_a_frame]
    refine ⟨?_, fun i => ?_, i3, i4, i5, i6, ?_, i8, i9⟩
    · rw [i1]
      show (t.block_count + 1) % 2 ^ 64 + n = _
      rw [hmod]; omega
    · rw [i2 i]
      show (if (t.block_count + 1) % 2 ^ 64 ≤ i ∧ i < (t.block_count + 1) % 2 ^ 64 + n then
          m.frames_brk + 1 + (i - (t.block_count + 1) % 2 ^ 64)
        else Function.update t.blocks t.block_count m.frames_brk i) = _
      rw [hmod]
      by_cases hi : i = t.block_count
      · subst hi
        rw [if_neg (by omega), if_pos (by omega), Function.update_same]
        omega
      · rw [Function.update_noteq hi]
        by_cases h1 : t.block_count + 1 ≤ i ∧ i < t.block_count + 1 + n
        · rw [if_pos h1, if_pos (by omega)]
          omega
        · rw [if_neg h1, if_neg (by omega)]
    · rw [i7]
      show m.frames_brk + 1 + n = _
      omega

theorem getset_block_create (t : tmpfs_file) (m : tmpfs_mem) (blockid : Nat)
    (hwf : tmpfs_wf t m) (hb : blockid < 2 ^ 63) :
    ∃ t' m', tmpfs_file_getset_block t m blockid true
        = Outcome.ret (some (t'.blocks blockid), t', m') ∧
      tmpfs_wf t' m' ∧ blockid < t'.block_count ∧ t.block_count ≤ t'.block_count ∧
      t'.block_count ≤ max t.block_count (blockid + 1) ∧
      (∀ i, i < t.block_count → t'.blocks i = t.blocks i) ∧
      t'.length = t.length ∧ t'.atime = t.atime ∧ t'.mtime = t.mtime ∧
      m'.frames = m.frames ∧ m'.user = m.user := by
  obtain ⟨w1, w2, w3, w4⟩ := hwf
  obtain ⟨p, e1, e2⟩ := embiggen_loop_some blockid hb 64 t (by
    have : 1 * 2 ^ 64 ≤ t.pointers * 2 ^ 64 := Nat.mul_le_mul_right _ w1
    omega)
  have hsum : ({ t with pointers := p } : tmpfs_file).block_count
      + (blockid + 1 - ({ t with pointers := p } : tmpfs_file).block_count) < 2 ^ 64 := by
    show t.block_count + (blockid + 1 - t.block_count) < 2 ^ 64
    omega
  obtain ⟨a1, a2, a3, a4, a5, a6, a7, a8, a9⟩ :=
    allocate_loop_spec (blockid + 1 - ({ t with pointers := p } : tmpfs_file).block_count)
      { t with pointers := p } m hsum
  have a1' : (allocate_loop (blockid + 1 - t.block_count) { t with pointers := p } m).1.block_count
      = t.block_count + (blockid + 1 - t.block_count) := a1
  have a2' : ∀ i, (allocate_loop (blockid + 1 - t.block_count) { t with pointers := p } m).1.blocks i
      = if t.block_count ≤ i ∧ i < t.block_count + (blockid + 1 - t.block_count) then
          m.frames_brk + (i - t.block_count)
        else t.blocks i := a2
  have a7' : (allocate_loop (blockid + 1 - t.block_count) { t with pointers := p } m).2.frames_brk
      = m.frames_brk + (blockid + 1 - t.block_count) := a7
  refine ⟨(allocate_loop (blockid + 1 - t.block_count) { t with pointers := p } m).1,
    (allocate_loop (blockid + 1 - t.block_count) { t with pointers := p } m).2, ?_, ?_, ?_, ?_,
    ?_, ?_, a3, a5, a6, a8, a9⟩
  · unfold tmpfs_file_getset_block
    simp only [if_true]
    rw [e1]
  · refine ⟨?_, ?_, fun i hi => ?_, fun i j hi hj hij => ?_⟩
    · rw [a4]; show 1 ≤ p; omega
    · rw [a1']; omega
    · rw [a1'] at hi
      rw [a2' i, a7']
      by_cases hc : t.block_count ≤ i ∧ i < t.block_count + (blockid + 1 - t.block_count)
      · rw [if_pos hc]; omega
      · rw [if_neg hc]
        have := w3 i (by omega)
        omega
    · rw [a1'] at hi hj
      rw [a2' i, a2' j] at hij
      by_cases hci : t.block_count ≤ i ∧ i < t.block_count + (blockid + 1 - t.block_count)
      · by_cases hcj : t.block_count ≤ j ∧ j < t.block_count + (blockid + 1 - t.block_count)
        · rw [if_pos hci, if_pos hcj] at hij; omega
        · rw [if_pos hci, if_neg hcj] at hij
          have := w3 j (by omega)
          omega
      · by_cases hcj : t.block_count ≤ j ∧ j < t.block_count + (blockid + 1 - t.block_count)
        · rw [if_neg hci, if_pos hcj] at hij
          have := w3 i (by omega)
          omega
        · rw [if_neg hci, if_neg hcj] at hij
          exact w4 i j (by omega) (by omega) hij
  · rw [a1']; omega
  · rw [a1']; omega
  · rw [a1']; omega
  · intro i hi
    rw [a2' i, if_neg (by omega)]

theorem write_block_step (t : tmpfs_file) (m : tmpfs_mem) (b off src cnt : Nat)
    (hwf : tmpfs_wf t m) (hb : b < 2 ^ 52) (hoff : off + cnt ≤ 4096) :
    ∃ t' m', tmpfs_file_getset_block t m b true
        = Outcome.ret (some (t'.blocks b), t', m') ∧
      tmpfs_wf t' (memcpy_in m' (t'.blocks b) off src cnt) ∧
      b < t'.block_count ∧ t.block_count ≤ t'.block_count ∧
      t'.block_count ≤ max t.block_count (b + 1) ∧
      t'.length = t.length ∧ t'.atime = t.atime ∧ t'.mtime = t.mtime ∧
      (memcpy_in m' (t'.blocks b) off src cnt).user = m.user ∧
      (∀ j, j < cnt →
        file_byte t' (memcpy_in m' (t'.blocks b) off src cnt) (b * 4096 + off + j)
          = m.user (src + j)) ∧
      (∀ pos, pos / 4096 < t.block_count → pos / 4096 ≠ b →
        file_byte t' (memcpy_in m' (t'.blocks b) off src cnt) pos = file_byte t m pos) := by
  obtain ⟨t', m', g1, g2, g3, g4, g5, g6, g7, g8, g9, g10, g11⟩ :=
    getset_block_create t m b hwf (by omega)
  refine ⟨t', m', g1, ?_, g3, g4, g5, g7, g8, g9, g11, fun j hj => ?_, fun pos hp hne => ?_⟩
  · exact g2
  · simp only [file_byte, memcpy_in, BLOCKSIZE]
    have h1 : (b * 4096 + off + j) / 4096 = b := by omega
    have h2 : (b * 4096 + off + j) % 4096 = off + j := by omega
    simp only [h1, h2]
    rw [if_pos (by refine ⟨?_, ?_, ?_⟩ <;> first | trivial | omega), g11]
    congr 1
    omega
  · simp only [file_byte, memcpy_in, BLOCKSIZE]
    have hi : t'.blocks (pos / 4096) = t.blocks (pos / 4096) := g6 _ hp
    have hne' : t'.blocks (pos / 4096) ≠ t'.blocks b := by
      intro hc
      exact hne (g2.2.2.2 _ _ (by omega) g3 hc)
    rw [if_neg (fun hc => hne' hc.1), g10, hi]

theorem write_loop_spec (offset src : Nat) :
    ∀ (n b k : Nat) (t : tmpfs_file) (m : tmpfs_mem), tmpfs_wf t m →
      offset / 4096 ≤ b → k = b - offset / 4096 → b + n < 2 ^ 52 →
      src + ((b + n) * 4096 - offset) ≤ 2 ^ 64 →
      ∃ t' m', write_loop (offset / 4096) offset src n b k t m
          = Outcome.ret (k + n, t', m') ∧
        tmpfs_wf t' m' ∧ t'.length = t.length ∧ t'.atime = t.atime ∧ t'.mtime = t.mtime ∧
        m'.user = m.user ∧ t.block_count ≤ t'.block_count ∧
        t'.block_count ≤ max t.block_count (b + n) ∧
        (∀ c, b ≤ c → c < b + n → c < t'.block_count) ∧
        (∀ d, b * 4096 - offset ≤ d → d < (b + n) * 4096 - offset →
          file_byte t' m' (offset + d) = m.user (src + d)) ∧
        (∀ pos, pos / 4096 < t.block_count → pos / 4096 < b →
          file_byte t' m' pos = file_byte t m pos) := by
  intro n
  induction n with
  | zero =>
    intro b k t m hwf _ _ _ _
    refine ⟨t, m, rfl, hwf, rfl, rfl, rfl, rfl, le_refl _, by omega, fun c h1 h2 => by omega,
      fun d h1 h2 => by omega, fun _ _ _ => rfl⟩
  | succ n ih =>
    intro b k t m hwf hsb hk hbn hsrc
    have hbn1 : b + 1 + n = b + (n + 1) := by omega
    by_cases hfirst : b = offset / 4096
    · -- the first block: from `offset % BLOCKSIZE` to the end of the block
      obtain ⟨t1, m1, g1, g2, g3, g4, g5, g6, g7, g8, g9, g10, g11⟩ :=
        write_block_step t m b (offset % 4096) src (4096 - offset % 4096) hwf
          (by omega) (by omega)
      obtain ⟨t', m', i1, i2, i3, i4, i5, i6, i7, i8, i9, i10, i11⟩ :=
        ih (b + 1) (k + 1) t1 _ g2 (by omega) (by omega) (by omega)
          (by rw [hbn1]; exact hsrc)
      refine ⟨t', m', ?_, i2, i3.trans g6, i4.trans g7, i5.trans g8, i6.trans g9, by omega,
        by omega, fun c h1 h2 => ?_, fun d h1 h2 => ?_, fun pos h1 h2 => ?_⟩
      · unfold write_loop
        rw [g1]
        simp only [BLOCKSIZE]
        rw [if_pos hfirst]
        have e1 : (b + 1) % 2 ^ 64 = b + 1 := Nat.mod_eq_of_lt (by omega)
        have e2 : (k + 1) % 2 ^ 64 = k + 1 := Nat.mod_eq_of_lt (by omega)
        rw [e1, e2]
        simp only [buf_frame, Option.getD_some]
        rw [i1]
        congr 2
        omega
      · by_cases hc : c = b
        · subst hc; omega
        · exact i9 c (by omega) (by omega)
      · by_cases hd : d < (b + 1) * 4096 - offset
        · have hpos : (offset + d) / 4096 < t1.block_count := by
            have : (offset + d) / 4096 = b := by omega
            omega
          rw [i11 (offset + d) hpos (by omega)]
          have hj := g10 d (by omega)
          have e : b * 4096 + offset % 4096 + d = offset + d := by omega
          rw [e] at hj
          exact hj
        · rw [i10 d (by omega) (by rw [hbn1]; exact h2), g9]
      · rw [i11 pos (by omega) (by omega)]
        exact g11 pos h1 (by omega)
    · -- a later block: the whole block
      have hlt : offset / 4096 < b := by omega
      have hs1 : (src + 4096 * k) % 2 ^ 64 = src + 4096 * k := Nat.mod_eq_of_lt (by omega)
      have hs2 : sub64 (src + 4096 * k) (offset % 4096)
          = src + (b * 4096 - offset) := by
        rw [sub64_eq _ _ (by omega) (by omega)]
        omega
      obtain ⟨t1, m1, g1, g2, g3, g4, g5, g6, g7, g8, g9, g10, g11⟩ :=
        write_block_step t m b 0 (src + (b * 4096 - offset)) 4096 hwf
          (by omega) (by omega)
      obtain ⟨t', m', i1, i2, i3, i4, i5, i6, i7, i8, i9, i10, i11⟩ :=
        ih (b + 1) (k + 1) t1 _ g2 (by omega) (by omega) (by omega)
          (by rw [hbn1]; exact hsrc)
      refine ⟨t', m', ?_, i2, i3.trans g6, i4.trans g7, i5.trans g8, i6.trans g9, by omega,
        by omega, fun c h1 h2 => ?_, fun d h1 h2 => ?_, fun pos h1 h2 => ?_⟩
      · unfold write_loop
        rw [g1]
        simp only [BLOCKSIZE]
        rw [if_neg hfirst]
        have e1 : (b + 1) % 2 ^ 64 = b + 1 := Nat.mod_eq_of_lt (by omega)
        have e2 : (k + 1) % 2 ^ 64 = k + 1 := Nat.mod_eq_of_lt (by omega)
        rw [e1, e2, hs1, hs2]
        simp only [buf_frame, Option.getD_some]
        rw [i1]
        congr 2
        omega
      · by_cases hc : c = b
        · subst hc; omega
        · exact i9 c (by omega) (by omega)
      · by_cases hd : d < (b + 1) * 4096 - offset
        · have hpos : (offset + d) / 4096 < t1.block_count := by
            have : (offset + d) / 4096 = b := by omega
            omega
          rw [i11 (offset + d) hpos (by omega)]
          have hj := g10 (d - (b * 4096 - offset)) (by omega)
          have e : b * 4096 + 0 + (d - (b * 4096 - offset)) = offset + d := by omega
          have e' : src + (b * 4096 - offset) + (d - (b * 4096 - offset)) = src + d := by omega
          rw [e, e'] at hj
          exact hj
        · rw [i10 d (by omega) (by rw [hbn1]; exact h2), g9]
      · rw [i11 pos (by omega) (by omega)]
        exact g11 pos h1 (by omega)

theorem sub64_mod (x r : Nat) (hr : r ≤ x) (hr2 : r < 2 ^ 64) :
    sub64 (x % 2 ^ 64) r = (x - r) % 2 ^ 64 := by
  unfold sub64
  have h1 : r % 2 ^ 64 = r := Nat.mod_eq_of_lt hr2
  rw [h1]
  omega

theorem write_tmpfs_blocks_spec (t : tmpfs_file) (m : tmpfs_mem) (offset size src : Nat)
    (hwf : tmpfs_wf t m) (hsum : offset + size < 2 ^ 64) (hsrc : src + size ≤ 2 ^ 64) :
    ∃ t' m', write_tmpfs_blocks t m offset size src = Outcome.ret (size, t', m') ∧
      tmpfs_wf t' m' ∧ t'.length = t.length ∧ t'.atime = t.atime ∧ t'.mtime = t.mtime ∧
      m'.user = m.user ∧
      (∀ d, d < size → (offset + d) / 4096 < t'.block_count) ∧
      (∀ d, d < size → file_byte t' m' (offset + d) = m.user (src + d)) := by
  have hend : (offset + size) % 2 ^ 64 = offset + size := Nat.mod_eq_of_lt hsum
  have hstr : sub64 (offset + size) offset = size := by
    rw [sub64_eq _ _ (by omega) hsum]; omega
  have hes : sub64 (offset + size) ((offset + size) / 4096 * 4096 % 2 ^ 64)
      = (offset + size) % 4096 := by
    have h1 : (offset + size) / 4096 * 4096 % 2 ^ 64 = (offset + size) / 4096 * 4096 :=
      Nat.mod_eq_of_lt (by omega)
    rw [h1, sub64_eq _ _ (by omega) hsum]
    omega
  unfold write_tmpfs_blocks
  simp only [BLOCKSIZE, hend, hstr, hes]
  by_cases hsame : offset / 4096 = (offset + size) / 4096
  · rw [if_pos hsame]
    obtain ⟨t1, m1, g1, g2, g3, g4, g5, g6, g7, g8, g9, g10, g11⟩ :=
      write_block_step t m (offset / 4096) (offset % 4096) src size hwf (by omega) (by omega)
    rw [g1]
    simp only [buf_frame, Option.getD_some]
    refine ⟨_, _, rfl, g2, g6, g7, g8, g9, fun d hd => ?_, fun d hd => ?_⟩
    · have : (offset + d) / 4096 = offset / 4096 := by omega
      omega
    · have hj := g10 d hd
      have e : offset / 4096 * 4096 + offset % 4096 + d = offset + d := by omega
      rw [e] at hj
      exact hj
  · rw [if_neg hsame]
    have hlt : offset / 4096 < (offset + size) / 4096 := by omega
    obtain ⟨t1, m1, l1, l2, l3, l4, l5, l6, l7, l8, l9, l10, l11⟩ :=
      write_loop_spec offset src ((offset + size) / 4096 - offset / 4096) (offset / 4096) 0 t m
        hwf (le_refl _) (by omega) (by omega) (by
          have : offset / 4096 + ((offset + size) / 4096 - offset / 4096)
              = (offset + size) / 4096 := by omega
          rw [this]; omega)
    have hb : offset / 4096 + ((offset + size) / 4096 - offset / 4096)
        = (offset + size) / 4096 := by omega
    rw [hb] at l8 l9 l10
    rw [l1]
    simp only [Nat.zero_add]
    by_cases hz : (offset + size) % 4096 = 0
    · rw [if_neg (not_not.mpr hz)]
      refine ⟨t1, m1, rfl, l2, l3, l4, l5, l6, fun d hd => ?_, fun d hd => ?_⟩
      · exact l9 ((offset + d) / 4096) (by omega) (by omega)
      · exact l10 d (by omega) (by omega)
    · rw [if_pos hz]
      have hsp : sub64 ((src + 4096 * ((offset + size) / 4096 - offset / 4096)) % 2 ^ 64)
          (offset % 4096) = src + ((offset + size) / 4096 * 4096 - offset) := by
        rw [sub64_mod _ _ (by omega) (by omega)]
        have : src + 4096 * ((offset + size) / 4096 - offset / 4096) - offset % 4096
            = src + ((offset + size) / 4096 * 4096 - offset) := by omega
        rw [this]
        exact Nat.mod_eq_of_lt (by omega)
      rw [hsp]
      obtain ⟨t2, m2, g1, g2, g3, g4, g5, g6, g7, g8, g9, g10, g11⟩ :=
        write_block_step t1 m1 ((offset + size) / 4096) 0
          (src + ((offset + size) / 4096 * 4096 - offset)) ((offset + size) % 4096) l2
          (by omega) (by omega)
      rw [g1]
      simp only [buf_frame, Option.getD_some]
      refine ⟨_, _, rfl, g2, g6.trans l3, g7.trans l4, g8.trans l5, g9.trans l6,
        fun d hd => ?_, fun d hd => ?_⟩
      · by_cases hc : (offset + d) / 4096 = (offset + size) / 4096
        · omega
        · have := l9 ((offset + d) / 4096) (by omega) (by omega)
          omega
      · by_cases hc : (offset + d) / 4096 = (offset + size) / 4096
        · have hj := g10 (d - ((offset + size) / 4096 * 4096 - offset)) (by omega)
          have e : (offset + size) / 4096 * 4096 + 0
              + (d - ((offset + size) / 4096 * 4096 - offset)) = offset + d := by omega
          have e' : src + ((offset + size) / 4096 * 4096 - offset)
              + (d - ((offset + size) / 4096 * 4096 - offset)) = src + d := by omega
          rw [e, e', l6] at hj
          exact hj
        · have hp := l9 ((offset + d) / 4096) (by omega) (by omega)
          rw [g11 (offset + d) hp hc]
          exact l10 d (by omega) (by omega)

theorem write_tmpfs_spec (now : Nat) (t : tmpfs_file) (m : tmpfs_mem) (offset size src : Nat)
    (hwf : tmpfs_wf t m) (hsum : offset + size < 2 ^ 64) (hsrc : src + size ≤ 2 ^ 64) :
    ∃ t' m', write_tmpfs now t m offset size src = Outcome.ret (size, t', m') ∧
      tmpfs_wf t' m' ∧ t'.length = max t.length (offset + size) ∧
      t'.atime = now ∧ t'.mtime = now ∧ m'.user = m.user ∧
      (∀ d, d < size → (offset + d) / 4096 < t'.block_count) ∧
      (∀ d, d < size → file_byte t' m' (offset + d) = m.user (src + d)) := by
  have hend : (offset + size) % 2 ^ 64 = offset + size := Nat.mod_eq_of_lt hsum
  unfold write_tmpfs
  simp only [hend]
  by_cases hgt : offset + size > t.length
  · rw [if_pos hgt]
    obtain ⟨t', m', e1, e2, e3, e4, e5, e6, e7, e8⟩ :=
      write_tmpfs_blocks_spec
        ({ t with atime := now, mtime := now, length := offset + size } : tmpfs_file) m
        offset size src hwf hsum hsrc
    refine ⟨t', m', e1, e2, ?_, e4, e5, e6, e7, e8⟩
    rw [e3]
    show offset + size = _
    omega
  · rw [if_neg hgt]
    obtain ⟨t', m', e1, e2, e3, e4, e5, e6, e7, e8⟩ :=
      write_tmpfs_blocks_spec ({ t with atime := now, mtime := now } : tmpfs_file) m
        offset size src hwf hsum hsrc
    refine ⟨t', m', e1, e2, ?_, e4, e5, e6, e7, e8⟩
    rw [e3]
    show t.length = _
    omega

theorem read_loop_spec (offset dst : Nat) (t : tmpfs_file) :
    ∀ (n b k : Nat) (m : tmpfs_mem),
      offset / 4096 ≤ b → k = b - offset / 4096 → b + n < 2 ^ 52 →
      dst + ((b + n) * 4096 - offset) ≤ 2 ^ 64 →
      (∀ c, b ≤ c → c < b + n → c < t.block_count) →
      ∃ m', read_loop (offset / 4096) offset dst n b k t m = Outcome.ret (k + n, t, m') ∧
        m'.frames = m.frames ∧ m'.frames_brk = m.frames_brk ∧
        ∀ a, m'.user a
          = if dst + (b * 4096 - offset) ≤ a ∧ a < dst + ((b + n) * 4096 - offset) then
              file_byte t m (offset + (a - dst))
            else m.user a := by
  intro n
  induction n with
  | zero =>
    intro b k m _ _ _ _ _
    refine ⟨m, rfl, rfl, rfl, fun a => ?_⟩
    rw [if_neg (by omega)]
  | succ n ih =>
    intro b k m hsb hk hbn hdst hblk
    have hbn1 : b + 1 + n = b + (n + 1) := by omega
    have hbc : ¬ b ≥ t.block_count := by
      have := hblk b (le_refl _) (by omega)
      omega
    have e1 : (b + 1) % 2 ^ 64 = b + 1 := Nat.mod_eq_of_lt (by omega)
    have e2 : (k + 1) % 2 ^ 64 = k + 1 := Nat.mod_eq_of_lt (by omega)
    by_cases hfirst : b = offset / 4096
    · obtain ⟨m', i1, i2, i3, i4⟩ :=
        ih (b + 1) (k + 1)
          (memcpy_out m dst (some (t.blocks b)) (offset % 4096) (4096 - offset % 4096))
          (by omega) (by omega) (by omega) (by rw [hbn1]; exact hdst)
          (fun c h1 h2 => hblk c (by omega) (by omega))
      refine ⟨m', ?_, i2, i3, fun a => ?_⟩
      · unfold read_loop
        rw [getset_block_lookup, if_neg hbc]
        simp only [BLOCKSIZE]
        rw [if_pos hfirst, e1, e2, i1]
        congr 2
        omega
      · rw [i4 a, hbn1]
        by_cases h1 : dst + ((b + 1) * 4096 - offset) ≤ a ∧ a < dst + ((b + (n + 1)) * 4096 - offset)
        · rw [if_pos h1, if_pos (by omega)]
          rfl
        · rw [if_neg h1]
          simp only [memcpy_out, buf_bytes]
          by_cases h2 : dst ≤ a ∧ a < dst + (4096 - offset % 4096)
          · rw [if_pos h2, if_pos (by omega)]
            simp only [file_byte, BLOCKSIZE]
            have q1 : (offset + (a - dst)) / 4096 = b := by omega
            have q2 : (offset + (a - dst)) % 4096 = offset % 4096 + (a - dst) := by omega
            rw [q1, q2]
          · rw [if_neg h2, if_neg (by omega)]
    · have hlt : offset / 4096 < b := by omega
      have hs : sub64 ((dst + 4096 * k) % 2 ^ 64) (offset % 4096)
          = dst + (b * 4096 - offset) := by
        rw [sub64_mod _ _ (by omega) (by omega)]
        have : dst + 4096 * k - offset % 4096 = dst + (b * 4096 - offset) := by omega
        rw [this]
        exact Nat.mod_eq_of_lt (by omega)
      obtain ⟨m', i1, i2, i3, i4⟩ :=
        ih (b + 1) (k + 1)
          (memcpy_out m (dst + (b * 4096 - offset)) (some (t.blocks b)) 0 4096)
          (by omega) (by omega) (by omega) (by rw [hbn1]; exact hdst)
          (fun c h1 h2 => hblk c (by omega) (by omega))
      refine ⟨m', ?_, i2, i3, fun a => ?_⟩
      · unfold read_loop
        rw [getset_block_lookup, if_neg hbc]
        simp only [BLOCKSIZE]
        rw [if_neg hfirst, e1, e2, hs, i1]
        congr 2
        omega
      · rw [i4 a, hbn1]
        by_cases h1 : dst + ((b + 1) * 4096 - offset) ≤ a ∧ a < dst + ((b + (n + 1)) * 4096 - offset)
        · rw [if_pos h1, if_pos (by omega)]
          rfl
        · rw [if_neg h1]
          simp only [memcpy_out, buf_bytes]
          by_cases h2 : dst + (b * 4096 - offset) ≤ a ∧ a < dst + (b * 4096 - offset) + 4096
          · rw [if_pos h2, if_pos (by omega)]
            simp only [file_byte, BLOCKSIZE]
            have q1 : (offset + (a - dst)) / 4096 = b := by omega
            have q2 : (offset + (a - dst)) % 4096 = 0 + (a - (dst + (b * 4096 - offset))) := by
              omega
            rw [q1, q2]
          · rw [if_neg h2, if_neg (by omega)]

theorem read_tmpfs_blocks_spec (t : tmpfs_file) (m : tmpfs_mem) (offset size dst : Nat)
    (hlen : offset + size ≤ t.length) (hl64 : t.length < 2 ^ 64)
    (hdst : dst + size ≤ 2 ^ 64)
    (hblk : ∀ d, d < size → (offset + d) / 4096 < t.block_count) :
    ∃ m', read_tmpfs_blocks t m offset size dst = Outcome.ret (size, t, m') ∧
      m'.frames = m.frames ∧ m'.frames_brk = m.frames_brk ∧
      ∀ a, m'.user a
        = if dst ≤ a ∧ a < dst + size then file_byte t m (offset + (a - dst)) else m.user a := by
  have hsum : offset + size < 2 ^ 64 := by omega
  have hend : (offset + size) % 2 ^ 64 = offset + size := Nat.mod_eq_of_lt hsum
  have hstr : sub64 (offset + size) offset = size := by
    rw [sub64_eq _ _ (by omega) hsum]; omega
  have hes : sub64 (offset + size) ((offset + size) / 4096 * 4096 % 2 ^ 64)
      = (offset + size) % 4096 := by
    have h1 : (offset + size) / 4096 * 4096 % 2 ^ 64 = (offset + size) / 4096 * 4096 :=
      Nat.mod_eq_of_lt (by omega)
    rw [h1, sub64_eq _ _ (by omega) hsum]
    omega
  have hnot : ¬ (offset + size > t.length) := by omega
  unfold read_tmpfs_blocks
  simp only [BLOCKSIZE, hend, if_neg hnot, hstr, hes]
  by_cases h0 : offset / 4096 = (offset + size) / 4096 ∧ offset = offset + size
  · rw [if_pos h0]
    have hz : size = 0 := by omega
    subst hz
    refine ⟨m, rfl, rfl, rfl, fun a => ?_⟩
    rw [if_neg (by omega)]
  rw [if_neg h0]
  by_cases hsame : offset / 4096 = (offset + size) / 4096
  · rw [if_pos hsame]
    have hpos : 0 < size := by
      by_contra hc
      exact h0 ⟨hsame, by omega⟩
    have hbc : ¬ offset / 4096 ≥ t.block_count := by
      have := hblk 0 hpos
      simp only [Nat.add_zero] at this
      omega
    rw [getset_block_lookup, if_neg hbc]
    refine ⟨_, rfl, rfl, rfl, fun a => ?_⟩
    simp only [memcpy_out, buf_bytes]
    by_cases h2 : dst ≤ a ∧ a < dst + size
    · rw [if_pos h2, if_pos h2]
      simp only [file_byte, BLOCKSIZE]
      have q1 : (offset + (a - dst)) / 4096 = offset / 4096 := by omega
      have q2 : (offset + (a - dst)) % 4096 = offset % 4096 + (a - dst) := by omega
      rw [q1, q2]
    · rw [if_neg h2, if_neg h2]
  · rw [if_neg hsame]
    have hlt : offset / 4096 < (offset + size) / 4096 := by omega
    have hb : offset / 4096 + ((offset + size) / 4096 - offset / 4096)
        = (offset + size) / 4096 := by omega
    obtain ⟨m1, l1, l2, l3, l4⟩ :=
      read_loop_spec offset dst t ((offset + size) / 4096 - offset / 4096) (offset / 4096) 0 m
        (le_refl _) (by omega) (by omega) (by rw [hb]; omega)
        (fun c h1 h2 => by
          have := hblk (c * 4096 - offset) (by omega)
          have e : (offset + (c * 4096 - offset)) / 4096 = c := by omega
          omega)
    rw [hb] at l4
    rw [l1]
    simp only [Nat.zero_add]
    by_cases hz : (offset + size) % 4096 = 0
    · rw [if_neg (not_not.mpr hz)]
      refine ⟨m1, rfl, l2, l3, fun a => ?_⟩
      rw [l4 a]
      by_cases h2 : dst ≤ a ∧ a < dst + size
      · rw [if_pos h2, if_pos (by omega)]
      · rw [if_neg h2, if_neg (by omega)]
    · rw [if_pos hz]
      have hbc : ¬ (offset + size) / 4096 ≥ t.block_count := by
        have := hblk (size - 1) (by omega)
        have e : (offset + (size - 1)) / 4096 = (offset + size) / 4096 := by omega
        omega
      have hsp : sub64 ((dst + 4096 * ((offset + size) / 4096 - offset / 4096)) % 2 ^ 64)
          (offset % 4096) = dst + ((offset + size) / 4096 * 4096 - offset) := by
        rw [sub64_mod _ _ (by omega) (by omega)]
        have : dst + 4096 * ((offset + size) / 4096 - offset / 4096) - offset % 4096
            = dst + ((offset + size) / 4096 * 4096 - offset) := by omega
        rw [this]
        exact Nat.mod_eq_of_lt (by omega)
      rw [getset_block_lookup, if_neg hbc, hsp]
      refine ⟨_, rfl, l2, l3, fun a => ?_⟩
      simp only [memcpy_out, buf_bytes]
      by_cases h3 : dst + ((offset + size) / 4096 * 4096 - offset) ≤ a ∧
          a < dst + ((offset + size) / 4096 * 4096 - offset) + (offset + size) % 4096
      · rw [if_pos h3, if_pos (by omega), l2]
        simp only [file_byte, BLOCKSIZE]
        have q1 : (offset + (a - dst)) / 4096 = (offset + size) / 4096 := by omega
        have q2 : (offset + (a - dst)) % 4096
            = 0 + (a - (dst + ((offset + size) / 4096 * 4096 - offset))) := by omega
        rw [q1, q2]
      · rw [if_neg h3, l4 a]
        by_cases h2 : dst ≤ a ∧ a < dst + size
        · rw [if_pos h2, if_pos (by omega)]
        · rw [if_neg h2, if_neg (by omega)]

theorem tmpfs_file_new_wf (now : Nat) (m : tmpfs_mem) : tmpfs_wf (tmpfs_file_new now) m :=
  ⟨by show 1 ≤ 2; omega, by show 0 < 2 ^ 64; omega,
    fun i hi => absurd hi (Nat.not_lt_zero i), fun i _ hi => absurd hi (Nat.not_lt_zero i)⟩

/-- C28. For a file in the state the block functions keep (`pointers` not
zero, its blocks backed by distinct allocated frames, as after `tmpfs_file_new`
and after every `write_tmpfs`), every offset and every `n` with
`offset + n < 2^64`, and source and destination buffers of `n` bytes that lie
in the address space: `write_tmpfs(node, offset, n, data)` returns `n`, sets
the length to `max(old length, offset + n)` and leaves the file in such a
state; a `read_tmpfs(node, offset, n, buf)` that follows returns `n`, fills
`buf[0 .. n)` with exactly the `n` bytes of `data` and changes no other byte
of the caller's memory. The statement does not depend on whether the range
lies in one block or spans several. -/
theorem tmpfs_write_then_read (now now' : Nat) (t : tmpfs_file) (m : tmpfs_mem)
    (offset n src dst : Nat) (hwf : tmpfs_wf t m) (hlen : t.length < 2 ^ 64)
    (hsum : offset + n < 2 ^ 64) (hsrc : src + n ≤ 2 ^ 64) (hdst : dst + n ≤ 2 ^ 64) :
    ∃ t1 m1, write_tmpfs now t m offset n src = Outcome.ret (n, t1, m1) ∧
      t1.length = max t.length (offset + n) ∧ tmpfs_wf t1 m1 ∧ m1.user = m.user ∧
      ∃ t2 m2, read_tmpfs now' t1 m1 offset n dst = Outcome.ret (n, t2, m2) ∧
        (∀ i, i < n → m2.user (dst + i) = m.user (src + i)) ∧
        (∀ a, ¬ (dst ≤ a ∧ a < dst + n) → m2.user a = m.user a) ∧
        t2.length = t1.length := by
  obtain ⟨t1, m1, w1, w2, w3, _, _, w6, w7, w8⟩ :=
    write_tmpfs_spec now t m offset n src hwf hsum hsrc
  obtain ⟨m2, r1, _, _, r4⟩ :=
    read_tmpfs_blocks_spec ({ t1 with atime := now' } : tmpfs_file) m1 offset n dst
      (by show offset + n ≤ t1.length; rw [w3]; omega)
      (by show t1.length < 2 ^ 64; rw [w3]; omega) hdst w7
  refine ⟨t1, m1, w1, w3, w2, w6, { t1 with atime := now' }, m2, r1, fun i hi => ?_,
    fun a ha => ?_, rfl⟩
  · rw [r4 (dst + i), if_pos (by omega)]
    have e : dst + i - dst = i := by omega
    rw [e]
    exact w8 i hi
  · rw [r4 a, if_neg ha, w6]

/-- Witness for C28: ten thousand bytes written at offset 4090 of a new file,
a range that starts in block 0 and ends in block 3, and read back. -/
theorem tmpfs_write_then_read_witness :
    ∃ t1 m1, write_tmpfs 7 (tmpfs_file_new 0) toy_mem 4090 10000 0x5000
        = Outcome.ret (10000, t1, m1) ∧
      t1.length = max (tmpfs_file_new 0).length (4090 + 10000) ∧ tmpfs_wf t1 m1 ∧
      m1.user = toy_mem.user ∧
      ∃ t2 m2, read_tmpfs 8 t1 m1 4090 10000 0x9000 = Outcome.ret (10000, t2, m2) ∧
        (∀ i, i < 10000 → m2.user (0x9000 + i) = toy_mem.user (0x5000 + i)) ∧
        (∀ a, ¬ (0x9000 ≤ a ∧ a < 0x9000 + 10000) → m2.user a = toy_mem.user a) ∧
        t2.length = t1.length :=
  tmpfs_write_then_read 7 8 (tmpfs_file_new 0) toy_mem 4090 10000 0x5000 0x9000
    (tmpfs_file_new_wf 0 toy_mem) (by decide) (by decide) (by decide) (by decide)

/-- C29, the code at the failing inputs. The file `toy_file` has length 10 in
one block. A read of 5 bytes at offset 5000, past the end and in a later
block, skips the loop, copies the 10 bytes of block 0 to the address 904 bytes
below the buffer and returns `10 - 5000` as a `uint64_t`, that is
`2^64 - 4990`, not 0. A read of 5 bytes at offset 20, past the end in the same
block, calls `memcpy` from in-block offset 20 with the count `2^64 - 10` and
returns that count. At and below the end of the file the value returned is the
one claimed: 0 at offset 10, 5 for 5 bytes at offset 3, 7 for 50 bytes at
offset 3. -/
theorem read_tmpfs_past_end :
    toy_file.length = 10 ∧ toy_file.block_count = 1 ∧
    (read_tmpfs 7 toy_file toy_mem 5000 5 0x5000).returns (fun r =>
      r.1 = 2 ^ 64 - 4990 ∧ r.1 ≠ 0 ∧ r.1 > 5 ∧
      r.2.2.user (0x5000 - 904) = toy_mem.frames (toy_file.blocks 0) 0 ∧
      r.2.2.user (0x5000 - 904) ≠ toy_mem.user (0x5000 - 904)) ∧
    (read_tmpfs 7 toy_file toy_mem 20 5 0x5000).returns (fun r =>
      r.1 = 2 ^ 64 - 10 ∧ r.1 ≠ 0 ∧ r.1 > 5 ∧
      r.2.2.user 0x5000 = toy_mem.frames (toy_file.blocks 0) 20 ∧
      r.2.2.user (0x5000 + 5) = toy_mem.frames (toy_file.blocks 0) 25) ∧
    (read_tmpfs 7 toy_file toy_mem 10 50 0x5000).returns (fun r => r.1 = 0) ∧
    (read_tmpfs 7 toy_file toy_mem 3 5 0x5000).returns (fun r => r.1 = 5) ∧
    (read_tmpfs 7 toy_file toy_mem 3 50 0x5000).returns (fun r => r.1 = 7) := by
  refine ⟨by decide, by decide, by decide, by decide, by decide, by decide, by decide⟩

end Misaka
